import Mathlib

/-!
# Disk-backed FFT grid (`src/src/fftfilegrid.cpp`)

A shallow embedding of `FFTFileGrid`, the disk-backed realisation of the 3-D
grid of the inversion code.  The object state is an explicit record, the file
system is an explicit association list from file names to file contents, and
every member function is a pure function returning `Except Fault _`.

Conventions of the embedding:

* C `int` is `Int`.  The members and arguments of a call are taken to fit an
  `int`.  Where a result is computed from them that may not fit (the derived
  sizes of a grid, a cell index of the simulation box) it is reduced with
  `wrap32`.  The position of a random-access read or write is embedded twice:
  exact (`index`, used where the index lies inside the logical extents of a
  grid with the constructor's sizes) and in `int` arithmetic (`index32`, used
  where the index ranges over all `int`s); the two agree wherever no step of
  the computation overflows (`IndexFits`).
* A `float` sample is an element of an arbitrary type `α`; the temporary files
  hold raw samples, so a file is a `List α`.
* `assert` is active: a failing assertion is `Fault.assertion` (a precondition
  violation).  Dereferencing a null or dangling pointer, indexing outside an
  allocated block, using a null stream and returning an uninitialised local
  are `Fault.undefined`.
* `fopen(name, "rb")` yields the null stream when the name is null or names no
  file; `fopen(name, "wb")` always creates or truncates the file; `fread` and
  `fwrite` on an open stream never fail except at end of file.

Further sections embed `main` of `src/main.cpp`, `GetSample` of
`src/rplib/distributionsfluidmix.cpp` and the members of `Simbox` in
`src/src/simbox.cpp`; the conventions for `double` are stated where they begin.
-/

namespace Crava

/-- The two ways a call can fail to return. -/
inductive Fault where
  | assertion
  | undefined
  deriving DecidableEq, Repr

deriving instance DecidableEq for Except

/-- Access modes of a grid (the enumeration used by `accMode_`). -/
inductive AccMode where
  | NONE
  | READ
  | WRITE
  | READANDWRITE
  | RANDOMACCESS
  deriving DecidableEq, Repr

/-- The file system: file names with their contents, most recently written first. -/
abbrev FileSys (α : Type) := List (String × List α)

/-- Contents of the file called `name`, if there is one. -/
def fsRead {α : Type} (fs : FileSys α) (name : String) : Option (List α) :=
  match fs with
  | [] => none
  | (n, c) :: rest => if n = name then some c else fsRead rest name

/-- Replace (or create) the file called `name` with contents `c`. -/
def fsWrite {α : Type} (fs : FileSys α) (name : String) (c : List α) : FileSys α :=
  (name, c) :: fs.filter (fun e => decide (e.1 ≠ name))

/-- Append one sample to the file called `name` (an `fwrite` of one item). -/
def fsAppend {α : Type} (fs : FileSys α) (name : String) (v : α) : FileSys α :=
  fsWrite fs name ((fsRead fs name).getD [] ++ [v])

/-- The memory-resident grid `FFTGrid`: the members the disk-backed grid inherits.
`rvalue` is the block `rvalue_` points at (`none` for `NULL`); `cvalue` records
whether `cvalue_` is set, in which case it is the same block seen as complex
pairs (`cvalue_[i].re` is cell `2*i`, `cvalue_[i].im` is cell `2*i+1`). -/
structure FFTGrid (α : Type) where
  nx : Int
  ny : Int
  nz : Int
  nxp : Int
  nyp : Int
  nzp : Int
  cnxp : Int
  rnxp : Int
  csize : Int
  rsize : Int
  counterForGet : Int
  counterForSet : Int
  istransformed : Bool
  rvalue : Option (List α)
  cvalue : Bool
  deriving DecidableEq, Repr

/-- The disk-backed grid `FFTFileGrid`.  `inFile` is the open read stream (the
samples still to be read), `outFile` the open write stream (the name of the file
being written); `none` is a null or closed stream. -/
structure FFTFileGrid (α : Type) extends FFTGrid α where
  accMode : AccMode
  modified : Int
  fNameIn : Option String
  fNameOut : String
  inFile : Option (List α)
  outFile : Option String
  deriving DecidableEq, Repr

/-- Modelled from the spec: `FFTGrid::createRealGrid` (fftgrid.cpp is not among the
sources) initialises the buffer for the spatial domain: a fresh block of `rsize_`
reals with unspecified contents `junk`, both pointers set, cursors reset. -/
def FFTGrid.createRealGrid {α : Type} (junk : Nat → α) (g : FFTGrid α) : FFTGrid α :=
  { g with istransformed := false
           rvalue := some ((List.range g.rsize.toNat).map junk)
           cvalue := true
           counterForGet := 0
           counterForSet := 0 }

/-- Modelled from the spec: `FFTGrid::createComplexGrid` (fftgrid.cpp is not among
the sources) initialises the buffer for the frequency domain: the same block of
`rsize_ = 2*csize_` reals seen as complex pairs, unspecified contents `junk`. -/
def FFTGrid.createComplexGrid {α : Type} (junk : Nat → α) (g : FFTGrid α) : FFTGrid α :=
  { g with istransformed := true
           rvalue := some ((List.range g.rsize.toNat).map junk)
           cvalue := true
           counterForGet := 0
           counterForSet := 0 }

namespace FFTFileGrid

variable {α : Type}

/-- The body of `unload`: free the block and null both pointers. -/
def unload (s : FFTFileGrid α) : FFTFileGrid α :=
  { s with rvalue := none, cvalue := false }

/-- The body of `load`: allocate the buffer for the current domain and, when an
input file has been named, read up to `rsize_` reals from it (the read loop stops
at the first failed `fread`, leaving the remaining cells as allocated). -/
def load (junk : Nat → α) (s : FFTFileGrid α) (fs : FileSys α) :
    Except Fault (FFTFileGrid α) :=
  if s.accMode = AccMode.NONE ∨ s.accMode = AccMode.RANDOMACCESS then
    let g := if !s.istransformed then s.toFFTGrid.createRealGrid junk
             else s.toFFTGrid.createComplexGrid junk
    let s1 : FFTFileGrid α := { s with toFFTGrid := g }
    match s.fNameIn with
    | none => Except.ok s1
    | some name =>
      match fsRead fs name with
      | none => Except.error Fault.undefined
      | some file =>
        let buf := (g.rvalue.getD [])
        let got := file.take g.rsize.toNat
        Except.ok { s1 with rvalue := some (got ++ buf.drop got.length), inFile := none }
  else Except.error Fault.assertion

/-- The name the code derives for the second backing file: `sprintf("%sb", name)`. -/
def bName (name : String) : String := name ++ "b"

/-- The body of `save`: write the first `rsize_` reals of the buffer to the output
file, unload, and swap the two file names (the new output name is allocated with
`strlen(fNameIn_)+2` bytes, always enough). -/
def save (s : FFTFileGrid α) (fs : FileSys α) :
    Except Fault (FFTFileGrid α × FileSys α) :=
  if s.accMode = AccMode.NONE ∨ s.accMode = AccMode.RANDOMACCESS then
    let n := s.rsize.toNat
    let written : Except Fault (List α) :=
      if n = 0 then Except.ok []
      else match s.rvalue with
        | none => Except.error Fault.undefined
        | some buf => if buf.length < n then Except.error Fault.undefined
                      else Except.ok (buf.take n)
    match written with
    | Except.error e => Except.error e
    | Except.ok file =>
      let s1 := unload { s with outFile := none }
      let s2 : FFTFileGrid α :=
        match s.fNameIn with
        | some tmp => { s1 with fNameIn := some s.fNameOut, fNameOut := tmp }
        | none => { s1 with fNameIn := some s.fNameOut, fNameOut := bName s.fNameOut }
      Except.ok (s2, fsWrite fs s.fNameOut file)
  else Except.error Fault.assertion

/-- The body of `setAccessMode`.  A read stream holds the samples of the input
file as they are once the session is open (in `READANDWRITE`, after the output
file has been truncated); the two files of a grid have different names, so the
grid's own writes do not reach its read stream. -/
def setAccessMode (junk : Nat → α) (mode : AccMode) (s : FFTFileGrid α) (fs : FileSys α) :
    Except Fault (FFTFileGrid α × FileSys α) :=
  if s.accMode = AccMode.NONE then
    match mode with
    | AccMode.NONE => Except.ok ({ s with accMode := mode }, fs)
    | AccMode.READ =>
      Except.ok ({ s with inFile := s.fNameIn.bind (fsRead fs), accMode := mode }, fs)
    | AccMode.WRITE =>
      Except.ok ({ s with outFile := some s.fNameOut, accMode := mode },
        fsWrite fs s.fNameOut [])
    | AccMode.READANDWRITE =>
      Except.ok ({ s with inFile := s.fNameIn.bind (fsRead (fsWrite fs s.fNameOut [])),
                          outFile := some s.fNameOut, accMode := mode },
        fsWrite fs s.fNameOut [])
    | AccMode.RANDOMACCESS =>
      match load junk { s with modified := 0 } fs with
      | Except.error e => Except.error e
      | Except.ok s1 => Except.ok ({ s1 with accMode := mode }, fs)
  else Except.error Fault.assertion

/-- The name swap at the end of a sequential write session in `endAccess`: the
new output name is the old input name, or, on the first write, `"%sb"` printed
into a block of 50 bytes (`strlen + 2` bytes are written; a name is taken to
have one byte per character). -/
def swapNames (s : FFTFileGrid α) : Except Fault (FFTFileGrid α) :=
  match s.fNameIn with
  | some tmp => Except.ok { s with fNameIn := some s.fNameOut, fNameOut := tmp }
  | none =>
    if s.fNameOut.length + 2 ≤ 50 then
      Except.ok { s with fNameIn := some s.fNameOut, fNameOut := bName s.fNameOut }
    else Except.error Fault.undefined

/-- The body of `endAccess`. -/
def endAccess (s : FFTFileGrid α) (fs : FileSys α) :
    Except Fault (FFTFileGrid α × FileSys α) :=
  match s.accMode with
  | AccMode.NONE => Except.ok ({ s with accMode := AccMode.NONE }, fs)
  | AccMode.READ =>
    match s.inFile with
    | none => Except.error Fault.undefined
    | some _ => Except.ok ({ s with inFile := none, accMode := AccMode.NONE }, fs)
  | AccMode.READANDWRITE =>
    match s.inFile, s.outFile with
    | some _, some _ =>
      match swapNames { s with inFile := none, outFile := none } with
      | Except.error e => Except.error e
      | Except.ok s1 => Except.ok ({ s1 with accMode := AccMode.NONE }, fs)
    | _, _ => Except.error Fault.undefined
  | AccMode.WRITE =>
    match s.outFile with
    | none => Except.error Fault.undefined
    | some _ =>
      match swapNames { s with outFile := none } with
      | Except.error e => Except.error e
      | Except.ok s1 => Except.ok ({ s1 with accMode := AccMode.NONE }, fs)
  | AccMode.RANDOMACCESS =>
    if s.modified ≠ 0 then
      match save s fs with
      | Except.error e => Except.error e
      | Except.ok (s1, fs1) => Except.ok ({ s1 with accMode := AccMode.NONE }, fs1)
    else Except.ok ({ unload s with accMode := AccMode.NONE }, fs)

/-- The body of `getNextComplex`: one `fread` of a complex pair from the input
stream; at end of file the local `cVal` is returned uninitialised. -/
def getNextComplex (s : FFTFileGrid α) : Except Fault ((α × α) × FFTFileGrid α) :=
  if s.istransformed = true then
    if s.accMode = AccMode.READ ∨ s.accMode = AccMode.READANDWRITE then
      match s.inFile with
      | some (re :: im :: rest) => Except.ok ((re, im), { s with inFile := some rest })
      | _ => Except.error Fault.undefined
    else Except.error Fault.assertion
  else Except.error Fault.assertion

/-- The body of `getNextReal`: one `fread` of a real from the input stream; at
end of file the local `rVal` is returned uninitialised. -/
def getNextReal (s : FFTFileGrid α) : Except Fault (α × FFTFileGrid α) :=
  if s.istransformed = false then
    if s.accMode = AccMode.READ ∨ s.accMode = AccMode.READANDWRITE then
      match s.inFile with
      | some (v :: rest) => Except.ok (v, { s with inFile := some rest })
      | _ => Except.error Fault.undefined
    else Except.error Fault.assertion
  else Except.error Fault.assertion

/-- The buffer position `i + rnxp_*j + k*rnxp_*nyp_` of `getRealValue` and
`setRealValue`, exact; `index32` is the same position in `int` arithmetic. -/
def index (s : FFTFileGrid α) (i j k : Int) : Int :=
  i + s.rnxp * j + k * s.rnxp * s.nyp

/-- The body of `getRealValue`, with the position exact; `getRealValue32` is the
same body with the position in `int` arithmetic, and the two agree wherever the
position is computed without overflow. -/
def getRealValue (s : FFTFileGrid α) (i j k : Int) : Except Fault α :=
  if s.istransformed = false then
    if s.accMode = AccMode.RANDOMACCESS then
      if index s i j k < s.rsize then
        match s.rvalue with
        | none => Except.error Fault.undefined
        | some buf =>
          if 0 ≤ index s i j k then
            match buf.get? (index s i j k).toNat with
            | some v => Except.ok v
            | none => Except.error Fault.undefined
          else Except.error Fault.undefined
      else Except.error Fault.assertion
    else Except.error Fault.assertion
  else Except.error Fault.assertion

/-- The body of `setRealValue`: the returned pair is the status (0 written,
1 not written) and the grid afterwards. -/
def setRealValue (s : FFTFileGrid α) (i j k : Int) (value : α) :
    Except Fault (Int × FFTFileGrid α) :=
  if s.istransformed = false then
    if s.accMode = AccMode.RANDOMACCESS then
      let inSimbox := decide (i < s.nx) && decide (j < s.ny) && decide (k < s.nz)
      let notMissing := decide (i > -1) && decide (j > -1) && decide (k > -1)
      if inSimbox && notMissing then
        match s.rvalue with
        | none => Except.error Fault.undefined
        | some buf =>
          if 0 ≤ index s i j k ∧ (index s i j k).toNat < buf.length then
            Except.ok (0, { s with rvalue := some (buf.set (index s i j k).toNat value) })
          else Except.error Fault.undefined
      else Except.ok (1, s)
    else Except.error Fault.assertion
  else Except.error Fault.assertion

/-- The body of `setNextComplex`: one `fwrite` of a complex pair to the output
stream. -/
def setNextComplex (s : FFTFileGrid α) (fs : FileSys α) (value : α × α) :
    Except Fault (Int × FFTFileGrid α × FileSys α) :=
  if s.istransformed = true then
    if s.accMode = AccMode.READANDWRITE ∨ s.accMode = AccMode.WRITE then
      match s.outFile with
      | none => Except.error Fault.undefined
      | some name => Except.ok (0, s, fsAppend (fsAppend fs name value.1) name value.2)
    else Except.error Fault.assertion
  else Except.error Fault.assertion

/-- The body of `setNextReal`: one `fwrite` of a real to the output stream. -/
def setNextReal (s : FFTFileGrid α) (fs : FileSys α) (value : α) :
    Except Fault (Int × FFTFileGrid α × FileSys α) :=
  if s.istransformed = false then
    if s.accMode = AccMode.READANDWRITE ∨ s.accMode = AccMode.WRITE then
      match s.outFile with
      | none => Except.error Fault.undefined
      | some name => Except.ok (0, s, fsAppend fs name value)
    else Except.error Fault.assertion
  else Except.error Fault.assertion

end FFTFileGrid

/-- The memory-resident operations of `FFTGrid` that the disk-backed grid wraps.
Their bodies are in fftgrid.cpp, which is not among the sources, so they are
parameters: each maps the memory-resident grid to the grid afterwards, or fails.
`collapseAndAdd` also updates the caller's buffer, `fillInComplexNoise` the
random generator (of state type `ρ`). -/
structure BaseOps (α ρ : Type) where
  square : FFTGrid α → Except Fault (FFTGrid α)
  expTransf : FFTGrid α → Except Fault (FFTGrid α)
  logTransf : FFTGrid α → Except Fault (FFTGrid α)
  collapseAndAdd : List α → FFTGrid α → Except Fault (FFTGrid α × List α)
  fftInPlace : FFTGrid α → Except Fault (FFTGrid α)
  invFFTInPlace : FFTGrid α → Except Fault (FFTGrid α)
  multiplyByScalar : α → FFTGrid α → Except Fault (FFTGrid α)
  fillInComplexNoise : ρ → FFTGrid α → Except Fault (FFTGrid α × ρ)

/-- The argument grid of `add` and `multiply`, an `FFTGrid*` used through its
virtual members only: `σ` is the state of that object. -/
structure GridArg (σ α : Type) where
  getNxp : σ → Int
  setAccessMode : AccMode → σ → Except Fault σ
  getNextReal : σ → Except Fault (α × σ)
  getNextComplex : σ → Except Fault ((α × α) × σ)
  endAccess : σ → Except Fault σ

namespace FFTFileGrid

variable {α : Type}

/-- The body shared, word for word, by `square`, `expTransf`, `logTransf`,
`collapseAndAdd`, `fftInPlace`, `invFFTInPlace`, `multiplyByScalar` and
`fillInComplexNoise`: outside a random-access session load, run the
memory-resident operation `base`, save; inside one, set `modified_` and run
`base` only.  `β` is what `base` hands back besides the grid. -/
def viaBase {β : Type} (junk : Nat → α) (base : FFTGrid α → Except Fault (FFTGrid α × β))
    (s : FFTFileGrid α) (fs : FileSys α) : Except Fault (β × FFTFileGrid α × FileSys α) :=
  if s.accMode = AccMode.NONE ∨ s.accMode = AccMode.RANDOMACCESS then
    let entered : Except Fault (FFTFileGrid α) :=
      if s.accMode ≠ AccMode.RANDOMACCESS then load junk s fs
      else Except.ok { s with modified := 1 }
    match entered with
    | Except.error e => Except.error e
    | Except.ok s1 =>
      match base s1.toFFTGrid with
      | Except.error e => Except.error e
      | Except.ok (g, out) =>
        let s2 : FFTFileGrid α := { s1 with toFFTGrid := g }
        if s2.accMode ≠ AccMode.RANDOMACCESS then
          match save s2 fs with
          | Except.error e => Except.error e
          | Except.ok (s3, fs3) => Except.ok (out, s3, fs3)
        else Except.ok (out, s2, fs)
  else Except.error Fault.assertion

/-- A base operation with no result besides the grid. -/
def plain (base : FFTGrid α → Except Fault (FFTGrid α)) (g : FFTGrid α) :
    Except Fault (FFTGrid α × Unit) :=
  match base g with
  | Except.error e => Except.error e
  | Except.ok g1 => Except.ok (g1, ())

variable {ρ : Type}

/-- The body of `square` (the wrapper returns 0). -/
def square (B : BaseOps α ρ) (junk : Nat → α) (s : FFTFileGrid α) (fs : FileSys α) :
    Except Fault (Unit × FFTFileGrid α × FileSys α) :=
  viaBase junk (plain B.square) s fs

/-- The body of `expTransf` (the wrapper returns 0). -/
def expTransf (B : BaseOps α ρ) (junk : Nat → α) (s : FFTFileGrid α) (fs : FileSys α) :
    Except Fault (Unit × FFTFileGrid α × FileSys α) :=
  viaBase junk (plain B.expTransf) s fs

/-- The body of `logTransf` (the wrapper returns 0). -/
def logTransf (B : BaseOps α ρ) (junk : Nat → α) (s : FFTFileGrid α) (fs : FileSys α) :
    Except Fault (Unit × FFTFileGrid α × FileSys α) :=
  viaBase junk (plain B.logTransf) s fs

/-- The body of `collapseAndAdd`; `grid` is the caller's buffer, handed back
updated (the wrapper returns 0). -/
def collapseAndAdd (B : BaseOps α ρ) (junk : Nat → α) (grid : List α) (s : FFTFileGrid α)
    (fs : FileSys α) : Except Fault (List α × FFTFileGrid α × FileSys α) :=
  viaBase junk (B.collapseAndAdd grid) s fs

/-- The body of `fftInPlace`. -/
def fftInPlace (B : BaseOps α ρ) (junk : Nat → α) (s : FFTFileGrid α) (fs : FileSys α) :
    Except Fault (Unit × FFTFileGrid α × FileSys α) :=
  viaBase junk (plain B.fftInPlace) s fs

/-- The body of `invFFTInPlace`. -/
def invFFTInPlace (B : BaseOps α ρ) (junk : Nat → α) (s : FFTFileGrid α) (fs : FileSys α) :
    Except Fault (Unit × FFTFileGrid α × FileSys α) :=
  viaBase junk (plain B.invFFTInPlace) s fs

/-- The body of `multiplyByScalar`. -/
def multiplyByScalar (B : BaseOps α ρ) (junk : Nat → α) (scalar : α) (s : FFTFileGrid α)
    (fs : FileSys α) : Except Fault (Unit × FFTFileGrid α × FileSys α) :=
  viaBase junk (plain (B.multiplyByScalar scalar)) s fs

/-- The body of `fillInComplexNoise`; `ranGen` is the generator, handed back
advanced. -/
def fillInComplexNoise (B : BaseOps α ρ) (junk : Nat → α) (ranGen : ρ) (s : FFTFileGrid α)
    (fs : FileSys α) : Except Fault (ρ × FFTFileGrid α × FileSys α) :=
  viaBase junk (B.fillInComplexNoise ranGen) s fs

variable {σ : Type}

/-- The real loop of `add` and `multiply`: for `n` further positions from `i`,
`rvalue_[i] = f(rvalue_[i], fftGrid->getNextReal())`. -/
def realLoop (A : GridArg σ α) (f : α → α → α) :
    Nat → Nat → Option (List α) → σ → Except Fault (Option (List α) × σ)
  | 0, _, buf, a => Except.ok (buf, a)
  | n + 1, i, buf, a =>
    match A.getNextReal a with
    | Except.error e => Except.error e
    | Except.ok (v, a1) =>
      match buf with
      | none => Except.error Fault.undefined
      | some b =>
        match b.get? i with
        | none => Except.error Fault.undefined
        | some x => realLoop A f n (i + 1) (some (b.set i (f x v))) a1

/-- The complex loop of `add` and `multiply`: for `n` further positions from `i`,
`cvalue_[i].re = f(cvalue_[i].re, value.re)` and likewise for `im`, where
`value = fftGrid->getNextComplex()`; `buf` is `none` when `cvalue_` is null. -/
def complexLoop (A : GridArg σ α) (f : α → α → α) :
    Nat → Nat → Option (List α) → σ → Except Fault (Option (List α) × σ)
  | 0, _, buf, a => Except.ok (buf, a)
  | n + 1, i, buf, a =>
    match A.getNextComplex a with
    | Except.error e => Except.error e
    | Except.ok (v, a1) =>
      match buf with
      | none => Except.error Fault.undefined
      | some b =>
        match b.get? (2 * i), b.get? (2 * i + 1) with
        | some re, some im =>
          complexLoop A f n (i + 1) (some ((b.set (2 * i) (f re v.1)).set (2 * i + 1) (f im v.2))) a1
        | _, _ => Except.error Fault.undefined

/-- The body shared by `add` (with `f` the sum) and `multiply` (with `f` the
product, applied to the real parts and to the imaginary parts separately). -/
def combine (A : GridArg σ α) (f : α → α → α) (junk : Nat → α) (s : FFTFileGrid α)
    (fftGrid : σ) (fs : FileSys α) : Except Fault (FFTFileGrid α × σ × FileSys α) :=
  if s.accMode = AccMode.NONE ∨ s.accMode = AccMode.RANDOMACCESS then
    let entered : Except Fault (FFTFileGrid α) :=
      if s.accMode ≠ AccMode.RANDOMACCESS then load junk s fs
      else Except.ok { s with modified := 1 }
    match entered with
    | Except.error e => Except.error e
    | Except.ok s1 =>
      if s1.nxp = A.getNxp fftGrid then
        match A.setAccessMode AccMode.READ fftGrid with
        | Except.error e => Except.error e
        | Except.ok a1 =>
          let looped :=
            if s1.istransformed = true then
              complexLoop A f s1.csize.toNat 0 (if s1.cvalue then s1.rvalue else none) a1
            else realLoop A f s1.rsize.toNat 0 s1.rvalue a1
          match looped with
          | Except.error e => Except.error e
          | Except.ok (buf, a2) =>
            match A.endAccess a2 with
            | Except.error e => Except.error e
            | Except.ok a3 =>
              let s2 : FFTFileGrid α :=
                { s1 with rvalue := if s1.istransformed = true ∧ s1.cvalue = false
                                    then s1.rvalue else buf }
              if s2.accMode ≠ AccMode.RANDOMACCESS then
                match save s2 fs with
                | Except.error e => Except.error e
                | Except.ok (s3, fs3) => Except.ok (s3, a3, fs3)
              else Except.ok (s2, a3, fs)
      else Except.error Fault.assertion
  else Except.error Fault.assertion

/-- The body of `add`. -/
def add [Add α] (A : GridArg σ α) (junk : Nat → α) (s : FFTFileGrid α) (fftGrid : σ)
    (fs : FileSys α) : Except Fault (FFTFileGrid α × σ × FileSys α) :=
  combine A (fun x y => x + y) junk s fftGrid fs

/-- The body of `multiply`. -/
def multiply [Mul α] (A : GridArg σ α) (junk : Nat → α) (s : FFTFileGrid α) (fftGrid : σ)
    (fs : FileSys α) : Except Fault (FFTFileGrid α × σ × FileSys α) :=
  combine A (fun x y => x * y) junk s fftGrid fs

end FFTFileGrid

/-- The derived sizes as the constructors compute them (`cnxp_ = nxp_/2+1`,
`rnxp_ = 2*cnxp_`, `csize_ = cnxp_*nyp_*nzp_`, `rsize_ = rnxp_*nyp_*nzp_`) and
logical extents within the padded ones. -/
def FFTGrid.Shaped {α : Type} (g : FFTGrid α) : Prop :=
  g.cnxp = g.nxp / 2 + 1 ∧ g.rnxp = 2 * g.cnxp ∧ g.csize = g.cnxp * g.nyp * g.nzp ∧
    g.rsize = g.rnxp * g.nyp * g.nzp ∧ g.nx ≤ g.nxp ∧ g.ny ≤ g.nyp ∧ g.nz ≤ g.nzp

instance {α : Type} (g : FFTGrid α) : Decidable g.Shaped := by
  unfold FFTGrid.Shaped; infer_instance

/-- The buffer is allocated and holds `rsize_` reals. -/
def FFTGrid.Loaded {α : Type} (g : FFTGrid α) : Prop :=
  g.rvalue.map List.length = some g.rsize.toNat

instance {α : Type} (g : FFTGrid α) : Decidable g.Loaded := by
  unfold FFTGrid.Loaded; infer_instance

/-- The index `(i,j,k)` lies outside the logical extents or is negative. -/
def FFTGrid.Outside {α : Type} (g : FFTGrid α) (i j k : Int) : Prop :=
  i < 0 ∨ g.nx ≤ i ∨ j < 0 ∨ g.ny ≤ j ∨ k < 0 ∨ g.nz ≤ k

instance {α : Type} (g : FFTGrid α) (i j k : Int) : Decidable (g.Outside i j k) := by
  unfold FFTGrid.Outside; infer_instance

/-- The named input file, if any, exists in the file system. -/
def FFTFileGrid.InputPresent {α : Type} (s : FFTFileGrid α) (fs : FileSys α) : Prop :=
  (s.fNameIn.map (fun name => (fsRead fs name).isSome)).getD true = true

instance {α : Type} (s : FFTFileGrid α) (fs : FileSys α) : Decidable (s.InputPresent fs) := by
  unfold FFTFileGrid.InputPresent; infer_instance

/-- The memory-resident grid that `load` builds from the file contents `b`: the
inherited members with the buffer holding `b` and the cursors reset. -/
def FFTFileGrid.resident {α : Type} (s : FFTFileGrid α) (b : List α) : FFTGrid α :=
  { s.toFFTGrid with rvalue := some b, cvalue := true, counterForGet := 0, counterForSet := 0 }

/-- `setNextReal(v)` for each `v` of `vs` in turn. -/
def FFTFileGrid.setNextReals {α : Type} :
    List α → FFTFileGrid α → FileSys α → Except Fault (FFTFileGrid α × FileSys α)
  | [], s, fs => Except.ok (s, fs)
  | v :: vs, s, fs =>
    match s.setNextReal fs v with
    | Except.error e => Except.error e
    | Except.ok (_, s1, fs1) => FFTFileGrid.setNextReals vs s1 fs1

/-- `getNextReal()` called `n` times, collecting the values in order. -/
def FFTFileGrid.getNextReals {α : Type} :
    Nat → FFTFileGrid α → Except Fault (List α × FFTFileGrid α)
  | 0, s => Except.ok ([], s)
  | n + 1, s =>
    match s.getNextReal with
    | Except.error e => Except.error e
    | Except.ok (v, s1) =>
      match FFTFileGrid.getNextReals n s1 with
      | Except.error e => Except.error e
      | Except.ok (vs, s2) => Except.ok (v :: vs, s2)

/-- The scenario of a sequential round trip: `setAccessMode(WRITE)`,
`setNextReal` for each value, `endAccess()`, `setAccessMode(READ)`, then as many
`getNextReal()` as values were written. -/
def FFTFileGrid.writeThenRead {α : Type} (junk : Nat → α) (vs : List α) (s : FFTFileGrid α)
    (fs : FileSys α) : Except Fault (List α) := do
  let (s1, fs1) ← s.setAccessMode junk AccMode.WRITE fs
  let (s2, fs2) ← FFTFileGrid.setNextReals vs s1 fs1
  let (s3, fs3) ← s2.endAccess fs2
  let (s4, _) ← s3.setAccessMode junk AccMode.READ fs3
  let (out, _) ← FFTFileGrid.getNextReals vs.length s4
  pure out

/-- The second half of the scenario below: `endAccess()`,
`setAccessMode(RANDOMACCESS)`, `getRealValue(i,j,k)`. -/
def FFTFileGrid.closeReopenRead {α : Type} (junk : Nat → α) (s : FFTFileGrid α)
    (fs : FileSys α) (i j k : Int) : Except Fault α := do
  let (s3, fs3) ← s.endAccess fs
  let (s4, _) ← s3.setAccessMode junk AccMode.RANDOMACCESS fs3
  s4.getRealValue i j k

/-- The scenario of a random-access write read back in a later session:
`setAccessMode(RANDOMACCESS)`, `setRealValue(i,j,k,v)`, `endAccess()`,
`setAccessMode(RANDOMACCESS)`, `getRealValue(i,j,k)`. -/
def FFTFileGrid.writeReopenRead {α : Type} (junk : Nat → α) (s : FFTFileGrid α)
    (fs : FileSys α) (i j k : Int) (v : α) : Except Fault α := do
  let (s1, fs1) ← s.setAccessMode junk AccMode.RANDOMACCESS fs
  let (_, s2) ← s1.setRealValue i j k v
  s2.closeReopenRead junk fs1 i j k

/-- The session is in the state `setAccessMode` leaves it in when every file it
opened exists: the streams the mode uses are open, a modified random-access
buffer is loaded, and on a first sequential write the output name leaves room
in the block of 50 bytes that `endAccess` allocates for the derived name. -/
def FFTFileGrid.SessionReady {α : Type} (s : FFTFileGrid α) : Prop :=
  match s.accMode with
  | AccMode.NONE => True
  | AccMode.READ => s.inFile.isSome = true
  | AccMode.WRITE =>
    s.outFile.isSome = true ∧ (s.fNameIn.isSome = true ∨ s.fNameOut.length + 2 ≤ 50)
  | AccMode.READANDWRITE =>
    s.inFile.isSome = true ∧ s.outFile.isSome = true ∧
      (s.fNameIn.isSome = true ∨ s.fNameOut.length + 2 ≤ 50)
  | AccMode.RANDOMACCESS => s.modified = 0 ∨ s.toFFTGrid.Loaded

instance {α : Type} (s : FFTFileGrid α) : Decidable s.SessionReady := by
  unfold FFTFileGrid.SessionReady; split <;> infer_instance

/-- The claim "disk-backed equals memory-resident outside a session", in the
spec's words, for one operation: `mem` is the memory-resident operation applied
to the grid holding the file contents, `disk` the disk-backed operation.  When
`mem` fails so does `disk`; when `mem` returns a grid that still holds a full
buffer `b1`, `disk` returns the same extra result, the inherited members are as
`mem` left them except that the buffer is released (both pointers null), the
access mode is `NONE`, and the next `load` yields exactly `b1`. -/
def FFTFileGrid.MatchesResident {α β : Type} (mem : Except Fault (FFTGrid α × β))
    (disk : Except Fault (β × FFTFileGrid α × FileSys α)) : Prop :=
  match mem with
  | Except.error e => disk = Except.error e
  | Except.ok (g1, out) =>
    g1.Loaded →
      ∃ s1 fs1 b1, disk = Except.ok (out, s1, fs1) ∧ g1.rvalue = some b1 ∧
        s1.toFFTGrid = { g1 with rvalue := none, cvalue := false } ∧
        s1.accMode = AccMode.NONE ∧
        ∀ junk1 : Nat → α, ∃ s2, s1.load junk1 fs1 = Except.ok s2 ∧ s2.rvalue = some b1

/-- The claim "deferred write inside a random-access session", in the spec's
words, for one operation started in state `s` with files `fs`: when `mem` (the
memory-resident operation applied to the grid in memory) fails so does `disk`;
otherwise `disk` returns with the modified flag set, the grid `mem` produced,
and files, file names and access mode as before. -/
def FFTFileGrid.Deferred {α β : Type} (s : FFTFileGrid α) (fs : FileSys α)
    (mem : Except Fault (FFTGrid α × β))
    (disk : Except Fault (β × FFTFileGrid α × FileSys α)) : Prop :=
  match mem with
  | Except.error e => disk = Except.error e
  | Except.ok (g1, out) =>
    ∃ s1, disk = Except.ok (out, s1, fs) ∧ s1.toFFTGrid = g1 ∧ s1.modified = 1 ∧
      s1.fNameIn = s.fNameIn ∧ s1.fNameOut = s.fNameOut ∧ s1.accMode = s.accMode

/-- A freshly constructed 2 x 1 x 1 grid (padded 2 x 1 x 1, so `rnxp_ = 4` and
`rsize_ = 4`) of integer samples: nothing saved yet, no buffer in memory. -/
def freshGrid : FFTFileGrid Int :=
  { nx := 2, ny := 1, nz := 1, nxp := 2, nyp := 1, nzp := 1
    cnxp := 2, rnxp := 4, csize := 2, rsize := 4
    counterForGet := 0, counterForSet := 0, istransformed := false
    rvalue := none, cvalue := false
    accMode := AccMode.NONE, modified := 0
    fNameIn := none, fNameOut := "tmpgrid0", inFile := none, outFile := none }

/-- The same grid after a first save of the samples 10, 20, 30, 40. -/
def savedGrid : FFTFileGrid Int :=
  { freshGrid with fNameIn := some "tmpgrid0", fNameOut := "tmpgrid0b" }

/-- The file system holding the backing file of `savedGrid`. -/
def savedFiles : FileSys Int := [("tmpgrid0", [10, 20, 30, 40])]

/-- The same grid in an open random-access session with the buffer loaded. -/
def openGrid : FFTFileGrid Int :=
  { savedGrid with accMode := AccMode.RANDOMACCESS, rvalue := some [10, 20, 30, 40],
                   cvalue := true }

/-- A fresh grid whose output name has 49 characters, one more than the block
of 50 bytes in `endAccess` can take with the appended `b` and the terminator. -/
def longNameGrid : FFTFileGrid Int :=
  { freshGrid with fNameOut := "/home/crava/projects/north/run1/output/tmpgrid123" }

/-- A fresh grid in an open sequential write session. -/
def writingGrid : FFTFileGrid Int :=
  { freshGrid with accMode := AccMode.WRITE, outFile := some "tmpgrid0" }

/-- Memory-resident operations on integer samples for the examples: `square`
squares every sample, `multiplyByScalar` scales every sample, `collapseAndAdd`
adds the first sample to the first cell of the caller's buffer, the others leave
the grid as it is (the transforms flip the domain flag). -/
def demoOps : BaseOps Int Nat :=
  { square := fun g => Except.ok { g with rvalue := g.rvalue.map (List.map (fun x => x * x)) }
    expTransf := fun g => Except.ok g
    logTransf := fun g => Except.ok g
    collapseAndAdd := fun grid g =>
      Except.ok (g, grid.modifyHead (fun x => x + ((g.rvalue.getD []).headD 0)))
    fftInPlace := fun g =>
      if g.istransformed then Except.error Fault.assertion
      else Except.ok { g with istransformed := true }
    invFFTInPlace := fun g =>
      if g.istransformed then Except.ok { g with istransformed := false }
      else Except.error Fault.assertion
    multiplyByScalar := fun c g =>
      Except.ok { g with rvalue := g.rvalue.map (List.map (fun x => c * x)) }
    fillInComplexNoise := fun r g => Except.ok (g, r + 1) }

/-- A disk-backed grid as the argument of `add` and `multiply`, with the files
`fs` it lives in.  The two members open the argument in `READ` mode only, and a
`READ` session leaves the files as they are, so the files are not handed on. -/
def fileArg {α : Type} (junk : Nat → α) (fs : FileSys α) : GridArg (FFTFileGrid α) α :=
  { getNxp := fun a => a.nxp
    setAccessMode := fun m a =>
      match a.setAccessMode junk m fs with
      | Except.error e => Except.error e
      | Except.ok (a1, _) => Except.ok a1
    getNextReal := fun a => a.getNextReal
    getNextComplex := fun a => a.getNextComplex
    endAccess := fun a =>
      match a.endAccess fs with
      | Except.error e => Except.error e
      | Except.ok (a1, _) => Except.ok a1 }

/-- A second saved grid of the same shape, backed by the file `tmpgrid1`. -/
def otherGrid : FFTFileGrid Int :=
  { freshGrid with fNameIn := some "tmpgrid1", fNameOut := "tmpgrid1b" }

/-- The file system holding the backing files of `savedGrid` and `otherGrid`. -/
def twoFiles : FileSys Int := [("tmpgrid0", [10, 20, 30, 40]), ("tmpgrid1", [1, 2, 3, 4])]

/-- The grid `longNameGrid` in an open sequential write session, its first. -/
def longWritingGrid : FFTFileGrid Int :=
  { longNameGrid with accMode := AccMode.WRITE, outFile := some longNameGrid.fNameOut }

/-- The body of `FFTFileGrid::createRealGrid`: it only clears the domain flag
(the buffer is allocated by `load`). -/
def FFTFileGrid.createRealGrid {α : Type} (s : FFTFileGrid α) : FFTFileGrid α :=
  { s with istransformed := false }

/-- The body of `FFTFileGrid::createComplexGrid`: it only sets the domain flag. -/
def FFTFileGrid.createComplexGrid {α : Type} (s : FFTFileGrid α) : FFTFileGrid α :=
  { s with istransformed := true }

/-- A saved grid padded 2 x 2 x 1 (so `rsize_ = 8`), backed by `tmpgrid2`: the
same `nxp` as `openGrid` but another `nyp`. -/
def tallGrid : FFTFileGrid Int :=
  { freshGrid with ny := 2, nyp := 2, csize := 4, rsize := 8
                   fNameIn := some "tmpgrid2", fNameOut := "tmpgrid2b" }

/-- The file system holding the backing files of `savedGrid` and `tallGrid`. -/
def tallFiles : FileSys Int :=
  [("tmpgrid0", [10, 20, 30, 40]), ("tmpgrid2", [1, 2, 3, 4, 5, 6, 7, 8])]

/-- The values of `n` successive `getNextReal()` calls on the argument grid, in
order, with the argument grid afterwards. -/
def GridArg.readReals {σ α : Type} (A : GridArg σ α) : Nat → σ → Except Fault (List α × σ)
  | 0, a => Except.ok ([], a)
  | n + 1, a =>
    match A.getNextReal a with
    | Except.error e => Except.error e
    | Except.ok (v, a1) =>
      match GridArg.readReals A n a1 with
      | Except.error e => Except.error e
      | Except.ok (vs, a2) => Except.ok (v :: vs, a2)

/-- The values of `n` successive `getNextComplex()` calls on the argument grid,
in order, with the argument grid afterwards. -/
def GridArg.readComplexes {σ α : Type} (A : GridArg σ α) :
    Nat → σ → Except Fault (List (α × α) × σ)
  | 0, a => Except.ok ([], a)
  | n + 1, a =>
    match A.getNextComplex a with
    | Except.error e => Except.error e
    | Except.ok (c, a1) =>
      match GridArg.readComplexes A n a1 with
      | Except.error e => Except.error e
      | Except.ok (cs, a2) => Except.ok (c :: cs, a2)

/-- The samples of a grid are `b`: inside a random-access session they are the
buffer in memory, outside a session the contents of the input file. -/
def FFTFileGrid.Holds {α : Type} (s : FFTFileGrid α) (fs : FileSys α) (b : List α) : Prop :=
  (s.accMode = AccMode.RANDOMACCESS ∧ s.rvalue = some b ∧ s.cvalue = true) ∨
  (s.accMode = AccMode.NONE ∧ ∃ name, s.fNameIn = some name ∧ fsRead fs name = some b)

/-- The grid `openGrid` in the frequency domain: two complex samples, `10 + 20i`
and `30 + 40i`. -/
def freqGrid : FFTFileGrid Int := { openGrid with istransformed := true }

/-- The grid `otherGrid` in the frequency domain: its file `tmpgrid1` holds the
complex samples `1 + 2i` and `3 + 4i`. -/
def freqOther : FFTFileGrid Int := { otherGrid with istransformed := true }

/-- The file system after `remove(name)`; removing a file that does not exist
changes nothing. -/
def fsRemove {α : Type} (fs : FileSys α) (name : String) : FileSys α :=
  fs.filter (fun e => decide (e.1 ≠ name))

/-- The body of the destructor `~FFTFileGrid`: `endAccess`, then `remove` of the
input file if one is named, then `remove` of the output file.  The result is the
file system afterwards. -/
def FFTFileGrid.destroy {α : Type} (s : FFTFileGrid α) (fs : FileSys α) :
    Except Fault (FileSys α) :=
  match s.endAccess fs with
  | Except.error e => Except.error e
  | Except.ok (s1, fs1) =>
    let fs2 := match s1.fNameIn with
      | some name => fsRemove fs1 name
      | none => fs1
    Except.ok (fsRemove fs2 s1.fNameOut)

/-- The file system while `writingGrid` is being written: two samples are in
its output file already. -/
def writingFiles : FileSys Int := [("tmpgrid0", [1, 2])]

/-- Modelled from the spec: `ModelSettings::makeFullFileName` (not among the
sources) places a temporary file in the working/output directory: the full name
is the directory prefix followed by the given name. -/
def makeFullFileName (filePrefix name : String) : String := filePrefix ++ name

/-- The body of `genFileName`, for the current value `gNum` of the global
counter (which starts at 0 and is only ever incremented, so it is a natural
number): the input name is null, the output name is the full name of
`tmpgrid<gNum>`, and the counter afterwards is `gNum + 1`. -/
def genFileName (filePrefix : String) (gNum : Nat) : (Option String × String) × Nat :=
  ((none, makeFullFileName filePrefix ("tmpgrid" ++ toString gNum)), gNum + 1)

/-- The body of the constructor `FFTFileGrid(nx, ny, nz, nxp, nyp, nzp)`: after
the base-class constructor has filled the inherited members (`raw`; the other
members are not initialised), `genFileName()` and `accMode_ = NONE`.  The result
is the grid and the global counter afterwards. -/
def FFTFileGrid.construct {α : Type} (filePrefix : String) (gNum : Nat)
    (raw : FFTFileGrid α) : FFTFileGrid α × Nat :=
  let r := genFileName filePrefix gNum
  ({ raw with fNameIn := r.1.1, fNameOut := r.1.2, accMode := AccMode.NONE }, r.2)

/-- Grids constructed one after the other, the global counter threaded through. -/
def FFTFileGrid.constructAll {α : Type} (filePrefix : String) :
    Nat → List (FFTFileGrid α) → List (FFTFileGrid α) × Nat
  | gNum, [] => ([], gNum)
  | gNum, raw :: rest =>
    let r := FFTFileGrid.construct filePrefix gNum raw
    let rs := FFTFileGrid.constructAll filePrefix r.2 rest
    (r.1 :: rs.1, rs.2)

/-- One returning call of a member function on a grid, with any arguments and
any files: `Step s s1` when some call takes the grid from `s` to `s1`.  The
constructor `viaBase` is a call of `square`, `expTransf`, `logTransf`,
`collapseAndAdd`, `fftInPlace`, `invFFTInPlace`, `multiplyByScalar` or
`fillInComplexNoise`, the constructor `combine` a call of `add` or `multiply`. -/
inductive FFTFileGrid.Step {α : Type} : FFTFileGrid α → FFTFileGrid α → Prop where
  | setAccessMode (junk : Nat → α) (mode : AccMode) (s s1 : FFTFileGrid α)
      (fs fs1 : FileSys α) :
      s.setAccessMode junk mode fs = Except.ok (s1, fs1) → FFTFileGrid.Step s s1
  | endAccess (s s1 : FFTFileGrid α) (fs fs1 : FileSys α) :
      s.endAccess fs = Except.ok (s1, fs1) → FFTFileGrid.Step s s1
  | createRealGrid (s : FFTFileGrid α) : FFTFileGrid.Step s s.createRealGrid
  | createComplexGrid (s : FFTFileGrid α) : FFTFileGrid.Step s s.createComplexGrid
  | getNextComplex (s s1 : FFTFileGrid α) (c : α × α) :
      s.getNextComplex = Except.ok (c, s1) → FFTFileGrid.Step s s1
  | getNextReal (s s1 : FFTFileGrid α) (v : α) :
      s.getNextReal = Except.ok (v, s1) → FFTFileGrid.Step s s1
  | setRealValue (s s1 : FFTFileGrid α) (i j k : Int) (v : α) (r : Int) :
      s.setRealValue i j k v = Except.ok (r, s1) → FFTFileGrid.Step s s1
  | setNextComplex (s s1 : FFTFileGrid α) (fs fs1 : FileSys α) (c : α × α) (r : Int) :
      s.setNextComplex fs c = Except.ok (r, s1, fs1) → FFTFileGrid.Step s s1
  | setNextReal (s s1 : FFTFileGrid α) (fs fs1 : FileSys α) (v : α) (r : Int) :
      s.setNextReal fs v = Except.ok (r, s1, fs1) → FFTFileGrid.Step s s1
  | viaBase {β : Type} (junk : Nat → α) (base : FFTGrid α → Except Fault (FFTGrid α × β))
      (s s1 : FFTFileGrid α) (fs fs1 : FileSys α) (out : β) :
      FFTFileGrid.viaBase junk base s fs = Except.ok (out, s1, fs1) → FFTFileGrid.Step s s1
  | combine {σ : Type} (A : GridArg σ α) (f : α → α → α) (junk : Nat → α)
      (s s1 : FFTFileGrid α) (a a1 : σ) (fs fs1 : FileSys α) :
      FFTFileGrid.combine A f junk s a fs = Except.ok (s1, a1, fs1) → FFTFileGrid.Step s s1
  | load (junk : Nat → α) (s s1 : FFTFileGrid α) (fs : FileSys α) :
      s.load junk fs = Except.ok s1 → FFTFileGrid.Step s s1
  | save (s s1 : FFTFileGrid α) (fs fs1 : FileSys α) :
      s.save fs = Except.ok (s1, fs1) → FFTFileGrid.Step s s1
  | unload (s : FFTFileGrid α) : FFTFileGrid.Step s s.unload

/-- The two names a grid constructed with full name `base` ever uses: its input
name is null, `base` or `base` followed by `b`, and its output name is the
other one of the two (`base` while the input name is null). -/
def FFTFileGrid.NamesOf {α : Type} (base : String) (s : FFTFileGrid α) : Prop :=
  (s.fNameIn = none ∧ s.fNameOut = base) ∨
  (s.fNameIn = some base ∧ s.fNameOut = FFTFileGrid.bName base) ∨
  (s.fNameIn = some (FFTFileGrid.bName base) ∧ s.fNameOut = base)

/-- The file names a grid holds: its output name and, if set, its input name. -/
def FFTFileGrid.names {α : Type} (s : FFTFileGrid α) : List String :=
  s.fNameOut :: s.fNameIn.toList

/-- The value of a decimal digit character. -/
def digitValue (c : Char) : Nat := c.toNat - 48

/-- The number a string of decimal digits stands for. -/
def decimalValue : List Char → Nat
  | [] => 0
  | c :: cs => digitValue c * 10 ^ cs.length + decimalValue cs

/-- How one member-function call may change the two file names: not at all, or
by the swap of `save` and `endAccess`. -/
def FFTFileGrid.NameStep {α : Type} (s s1 : FFTFileGrid α) : Prop :=
  (s1.fNameIn = s.fNameIn ∧ s1.fNameOut = s.fNameOut) ∨
  (s1.fNameIn = some s.fNameOut ∧
    s1.fNameOut = s.fNameIn.getD (FFTFileGrid.bName s.fNameOut))

/-- The full name of the first backing file of the grid constructed when the
global counter is `n`. -/
def baseName (filePrefix : String) (n : Nat) : String :=
  makeFullFileName filePrefix ("tmpgrid" ++ toString n)

/-- The two in-place transforms on a buffer of reals, with the tolerance within
which the spec compares buffers (`close b c`: `c` equals `b` to floating-point
tolerance). -/
structure Transforms (α : Type) where
  fft : List α → List α
  inv : List α → List α
  close : List α → List α → Prop

/-- Modelled from the spec: `FFTGrid::fftInPlace` (fftgrid.cpp is not among the
sources) flips the domain flag to the frequency domain and reinterprets the
buffer, transformed in place; it is only legal when the grid is not already in
the frequency domain. -/
def FFTGrid.fftInPlace {α : Type} (T : Transforms α) (g : FFTGrid α) :
    Except Fault (FFTGrid α) :=
  if g.istransformed = true then Except.error Fault.assertion
  else match g.rvalue with
    | none => Except.error Fault.undefined
    | some b => Except.ok { g with istransformed := true, rvalue := some (T.fft b) }

/-- Modelled from the spec: `FFTGrid::invFFTInPlace` (fftgrid.cpp is not among the
sources) flips the domain flag back to the spatial domain and reinterprets the
buffer, transformed in place; it is only legal when the grid is in the frequency
domain. -/
def FFTGrid.invFFTInPlace {α : Type} (T : Transforms α) (g : FFTGrid α) :
    Except Fault (FFTGrid α) :=
  if g.istransformed = true then
    match g.rvalue with
    | none => Except.error Fault.undefined
    | some b => Except.ok { g with istransformed := false, rvalue := some (T.inv b) }
  else Except.error Fault.assertion

/-- Modelled from the spec: the round-trip property of the memory-resident
transforms, "forward-transform then inverse-transform reproduces the original
spatial samples to floating-point tolerance"; both transforms keep the number of
reals in the buffer. -/
def Transforms.RoundTrip {α : Type} (T : Transforms α) : Prop :=
  ∀ b : List α, (T.fft b).length = b.length ∧ (T.inv b).length = b.length ∧
    T.close b (T.inv (T.fft b))

/-- The transforms of the examples: both leave the buffer as it is, and buffers
are compared exactly. -/
def demoTransforms : Transforms Int := { fft := id, inv := id, close := fun b c => b = c }

/-- The base operations of the examples with the two transforms taken from
`demoTransforms`. -/
def transformOps : BaseOps Int Nat :=
  { demoOps with
    fftInPlace := FFTGrid.fftInPlace demoTransforms
    invFFTInPlace := FFTGrid.invFFTInPlace demoTransforms }

/-- What `main` reads from the `Model` object once `new Model(argv[1])` has
returned: `getFailed()`, and from its model settings `getGenerateSeismic()`,
`getDoInversion()`, `getNumberOfSimulations()` and `getOutputFlag()`. -/
structure Model where
  failed : Bool
  generateSeismic : Bool
  doInversion : Bool
  numberOfSimulations : Int
  outputFlag : Int
deriving DecidableEq, Repr

/-- The calls `main` makes on the engine object `crava`: `new Crava(model)`, the
members that do work, and `delete crava`. The accessors whose value only feeds an
argument (`getNTheta`, `getpostAlpha`, `getpostBeta`, `getpostRho`) are left
out. -/
inductive EngineCall where
  | construct
  | getWarning
  | printEnergyToScreen
  | computePostMeanResidAndFFTCov
  | simulate
  | computePostCov
  | computeFaciesProb
  | computeSyntSeismic
  | destroy
deriving DecidableEq, Repr

/-- One call on the engine, on the state `(calls made so far, still running)`:
the call is made when the process is still running, and the process runs on
when the call returns (`returns c`, the engine's code being outside `main`). -/
def engineCall (returns : EngineCall → Bool) (st : List EngineCall × Bool) (c : EngineCall) :
    List EngineCall × Bool :=
  if st.2 = true then (st.1 ++ [c], returns c) else st

/-- The function `main` of main.cpp, as the list of engine calls it makes and the
exit status of the process (`none` when an engine call did not return).
`CORRELATION` is the constant `ModelSettings::CORRELATION` (its header is not among
the sources) and `&` on `int` is `Int.land`; logging and timing are left out. -/
def main (CORRELATION : Int) (returns : EngineCall → Bool) (argc : Int) (model : Model) :
    List EngineCall × Option Int :=
  if argc ≠ 2 then ([], some 1)
  else if model.failed = true then ([], some 1)
  else
    let st : List EngineCall × Bool := ([], true)
    let st :=
      if model.generateSeismic = false then
        if model.doInversion = true then
          let st := engineCall returns st EngineCall.construct
          let st := engineCall returns st EngineCall.getWarning
          let st := engineCall returns st EngineCall.printEnergyToScreen
          let st := engineCall returns st EngineCall.computePostMeanResidAndFFTCov
          let st :=
            if model.numberOfSimulations > 0 then engineCall returns st EngineCall.simulate
            else st
          let st :=
            if Int.land model.outputFlag CORRELATION > 0 then
              engineCall returns st EngineCall.computePostCov
            else st
          let st := engineCall returns st EngineCall.computeFaciesProb
          engineCall returns st EngineCall.destroy
        else st
      else
        let st := engineCall returns st EngineCall.construct
        let st := engineCall returns st EngineCall.computeSyntSeismic
        engineCall returns st EngineCall.destroy
    (st.1, if st.2 = true then some 0 else none)

/-- The engine calls of a complete inversion run, in order, for a run with
`nSim` simulations and the posterior covariance asked for or not. -/
def inversionCalls (nSim : Int) (correlation : Bool) : List EngineCall :=
  [EngineCall.construct, EngineCall.getWarning, EngineCall.printEnergyToScreen,
    EngineCall.computePostMeanResidAndFFTCov] ++
  (if 0 < nSim then [EngineCall.simulate] else []) ++
  (if correlation = true then [EngineCall.computePostCov] else []) ++
  [EngineCall.computeFaciesProb, EngineCall.destroy]

/-- An inversion run with three simulations and output flag 6, for
`CORRELATION = 2`. -/
def inversionModel : Model :=
  { failed := false, generateSeismic := false, doInversion := true,
    numberOfSimulations := 3, outputFlag := 6 }

/-- The order of the engine phases of an inversion run, every optional phase
included. -/
def phaseOrder : List EngineCall :=
  [EngineCall.construct, EngineCall.getWarning, EngineCall.printEnergyToScreen,
    EngineCall.computePostMeanResidAndFFTCov, EngineCall.simulate, EngineCall.computePostCov,
    EngineCall.computeFaciesProb, EngineCall.destroy]

/-- The value an `int` holds after an arithmetic result `x`: `x` itself when it
lies in `[-2^31, 2^31)`, and otherwise `x` reduced modulo `2^32` into that range,
the wrap-around of 32-bit two's-complement arithmetic. -/
def wrap32 (x : Int) : Int := (x + 2147483648) % 4294967296 - 2147483648

/-- The value fits an `int`: it lies in `[INT_MIN, INT_MAX]`. -/
def FitsInt (x : Int) : Prop := -2147483648 ≤ x ∧ x ≤ 2147483647

instance (x : Int) : Decidable (FitsInt x) := by
  unfold FitsInt; infer_instance

/-- The position `i+rnxp_*j+k*rnxp_*nyp_` of `getRealValue` and `setRealValue` as
`int` arithmetic yields it, every intermediate result wrapped. -/
def FFTFileGrid.index32 {α : Type} (s : FFTFileGrid α) (i j k : Int) : Int :=
  wrap32 (wrap32 (i + wrap32 (s.rnxp * j)) + wrap32 (wrap32 (k * s.rnxp) * s.nyp))

/-- The indices and every intermediate result of the position
`i+rnxp_*j+k*rnxp_*nyp_` fit an `int`: no step of the computation overflows. -/
def FFTFileGrid.IndexFits {α : Type} (s : FFTFileGrid α) (i j k : Int) : Prop :=
  FitsInt i ∧ FitsInt j ∧ FitsInt k ∧ FitsInt (s.rnxp * j) ∧ FitsInt (i + s.rnxp * j) ∧
    FitsInt (k * s.rnxp) ∧ FitsInt (k * s.rnxp * s.nyp) ∧
    FitsInt (i + s.rnxp * j + k * s.rnxp * s.nyp)

instance {α : Type} (s : FFTFileGrid α) (i j k : Int) : Decidable (s.IndexFits i j k) := by
  unfold FFTFileGrid.IndexFits; infer_instance

/-- The body of `getRealValue` with the position the `int index` holds:
`assert(index<rsize_)` and the read `rvalue_[index]` both use `index32`. -/
def FFTFileGrid.getRealValue32 {α : Type} (s : FFTFileGrid α) (i j k : Int) : Except Fault α :=
  if s.istransformed = false then
    if s.accMode = AccMode.RANDOMACCESS then
      if s.index32 i j k < s.rsize then
        match s.rvalue with
        | none => Except.error Fault.undefined
        | some buf =>
          if 0 ≤ s.index32 i j k then
            match buf.get? (s.index32 i j k).toNat with
            | some v => Except.ok v
            | none => Except.error Fault.undefined
          else Except.error Fault.undefined
      else Except.error Fault.assertion
    else Except.error Fault.assertion
  else Except.error Fault.assertion

/-- The sizes the copy constructor derives from the padded extents:
`cnxp_ = nxp_/2+1`, `rnxp_ = 2*(cnxp_)`, `csize_ = cnxp_*nyp_*nzp_` and
`rsize_ = rnxp_*nyp_*nzp_`, in `int` arithmetic: the division truncates
(`Int.tdiv`) and every sum and product wraps (`wrap32`). -/
def FFTGrid.derivedSizes {α : Type} (g : FFTGrid α) : FFTGrid α :=
  { g with cnxp := wrap32 (Int.tdiv g.nxp 2 + 1)
           rnxp := wrap32 (2 * wrap32 (Int.tdiv g.nxp 2 + 1))
           csize := wrap32 (wrap32 (wrap32 (Int.tdiv g.nxp 2 + 1) * g.nyp) * g.nzp)
           rsize := wrap32 (wrap32 (wrap32 (2 * wrap32 (Int.tdiv g.nxp 2 + 1)) * g.nyp) *
             g.nzp) }

/-- A disk-backed grid with its sizes derived from its padded extents. -/
def FFTFileGrid.withDerivedSizes {α : Type} (s : FFTFileGrid α) : FFTFileGrid α :=
  { s with toFFTGrid := s.toFFTGrid.derivedSizes }

/-- A grid of 2048 x 2048 x 512 cells, logical and padded, before its sizes are
derived: every extent fits an `int`, the number of reals of its buffer,
`2050 * 2048 * 512 = 2149580800`, does not. -/
def wideGrid : FFTFileGrid Int :=
  { nx := 2048, ny := 2048, nz := 512, nxp := 2048, nyp := 2048, nzp := 512
    cnxp := 0, rnxp := 0, csize := 0, rsize := 0
    counterForGet := 0, counterForSet := 0, istransformed := false
    rvalue := none, cvalue := false
    accMode := AccMode.NONE, modified := 0
    fNameIn := none, fNameOut := "tmpgrid4", inFile := none, outFile := none }

/-- The first loop of `GetSample`, with `m` fluids still to visit from `i`:
`volume_fraction[i]` is the quantile value when `u[i] != RMISSING`, otherwise `i`
becomes the missing index. Reading `u[i]` or `trend_params[0..1]` outside the
vector, or a null distribution, is undefined behaviour. -/
def DistributionsFluidMix.fractionLoop {K : Type} [DecidableEq K] (RMISSING : K)
    (distr_vol_frac : List (Option (K → K → K → K))) (u trend_params : List K) :
    Nat → Nat → List K → Nat → Except Fault (List K × Nat)
  | 0, _, volume_fraction, missing_index => Except.ok (volume_fraction, missing_index)
  | m + 1, i, volume_fraction, missing_index =>
    match u.get? i with
    | none => Except.error Fault.undefined
    | some ui =>
      if ui ≠ RMISSING then
        match distr_vol_frac.get? i, trend_params with
        | some (some d), t0 :: t1 :: _ =>
          DistributionsFluidMix.fractionLoop RMISSING distr_vol_frac u trend_params m (i + 1)
            (volume_fraction.set i (d ui t0 t1)) missing_index
        | _, _ => Except.error Fault.undefined
      else
        DistributionsFluidMix.fractionLoop RMISSING distr_vol_frac u trend_params m (i + 1)
          volume_fraction i

/-- The body of `DistributionsFluidMix::GetSample` for `n_fluids` fluid samples:
the result is the vector `volume_fraction` handed to the `FluidMix` constructor. -/
def DistributionsFluidMix.GetSample {K : Type} [Ring K] [DecidableEq K] (RMISSING : K)
    (distr_vol_frac : List (Option (K → K → K → K))) (u trend_params : List K)
    (n_fluids : Nat) : Except Fault (List K) :=
  match DistributionsFluidMix.fractionLoop RMISSING distr_vol_frac u trend_params n_fluids 0
      (List.replicate n_fluids 0) n_fluids with
  | Except.error e => Except.error e
  | Except.ok (volume_fraction, missing_index) =>
    if missing_index ≠ n_fluids then
      let sum := volume_fraction.foldl (fun acc x => acc + x) 0
      Except.ok (volume_fraction.set missing_index (1 - sum))
    else Except.ok volume_fraction

/-- The vector `u` that `GenerateSample` hands to `GetSample`: `RMISSING` for a
fluid without a volume-fraction distribution, the next draw of
`NRLib::Random::Unif01()` otherwise (`draws k` is the `k`-th draw). -/
def DistributionsFluidMix.generateU {K : Type} (RMISSING : K) (draws : Nat → K) :
    List (Option (K → K → K → K)) → Nat → List K
  | [], _ => []
  | none :: rest, k => RMISSING :: DistributionsFluidMix.generateU RMISSING draws rest k
  | some _ :: rest, k => draws k :: DistributionsFluidMix.generateU RMISSING draws rest (k + 1)

/-- Three fluids, the second with a volume-fraction distribution whose quantile
at `u` is `u` itself. -/
def demoFractions : List (Option (ℚ → ℚ → ℚ → ℚ)) := [none, some (fun u _ _ => u), none]

/-! ## Simulation box (`src/src/simbox.cpp`)

A `double` is an element of an ordered field `K` with a floor function, with
exact arithmetic. A division by zero has no value there (in the code it gives an
infinity or a NaN, whose conversion to `int` is undefined): it is
`Fault.undefined`. A conversion to `int` is taken to fit; a cell index computed
from `int`s is `int` arithmetic and wraps (`wrap32`). The surfaces, the
members of `Volume` and the trigonometric functions are code outside simbox.cpp
and are parameters; `IMISSING` and `RMISSING` are the constants of
definitions.h, parameters as well. -/

/-- A surface (`RegularSurface<double>` of nrlib): `getZ x y` is `GetZ(x,y)`, with
`none` for a value that `IsMissing`; `min` and `max` are `Min()` and `Max()`. -/
structure Surface (K : Type) where
  getZ : K → K → Option K
  min : K
  max : K

/-- The enumeration of `status_`. -/
inductive SimboxStatus where
  | BOXOK
  | INTERNALERROR
  | EXTERNALERROR
  | EMPTY
  | NOAREA
  | NODEPTH
  deriving DecidableEq, Repr

/-- The simulation box: the members inherited from `Volume` (`xMin` .. `bot`, read
through `GetXMin()`, `GetYMin()`, `GetLX()`, `GetLY()`, `GetLZ()`, `GetAngle()`,
`GetTopSurface()`, `GetBotSurface()`) and the members of `Simbox`. -/
structure Simbox (K : Type) where
  xMin : K
  yMin : K
  lx : K
  ly : K
  lz : K
  angle : K
  top : Surface K
  bot : Surface K
  status : SimboxStatus
  cosrot : K
  sinrot : K
  dx : K
  dy : K
  dz : K
  nx : Int
  ny : Int
  nz : Int
  inLine0 : Int
  crossLine0 : Int
  ilStep : Int
  xlStep : Int
  constThick : Bool
  minRelThick : K
  topName : String
  botName : String

/-- The library code the box calls: `RegularSurface::Add` (shift a surface), the
thickness `Volume::SetSurfaces` derives for `GetLZ()`, and `cos` and `sin`. -/
structure BoxLib (K : Type) where
  add : K → Surface K → Surface K
  lzOf : Surface K → Surface K → K
  cos : K → K
  sin : K → K

section SimboxDefs

variable {K : Type} [LinearOrderedField K] [FloorRing K]

/-- The conversion `int(x)` of a `double`: the fraction is dropped (truncation
towards zero). -/
def truncToInt (x : K) : Int := if 0 ≤ x then ⌊x⌋ else ⌈x⌉

/-- The quotient `a/b` of two `double`s. -/
def divide (a b : K) : Except Fault K :=
  if b = 0 then Except.error Fault.undefined else Except.ok (a / b)

/-- The expression `int(floor(a/b))`. -/
def floorDiv (a b : K) : Except Fault Int :=
  match divide a b with
  | Except.error e => Except.error e
  | Except.ok q => Except.ok ⌊q⌋

/-- The expression `int(0.5+l/d)` of `setArea`, `setDepth` and the constructor. -/
def cellCount (l d : K) : Except Fault Int :=
  match divide l d with
  | Except.error e => Except.error e
  | Except.ok q => Except.ok (truncToInt (1 / 2 + q))

/-- The body of the constructor `Simbox::Simbox(void)`; `raw` stands for the
members it leaves as `Volume()` and the allocation made them. -/
def Simbox.empty (raw : Simbox K) : Simbox K :=
  { raw with status := SimboxStatus.EMPTY, topName := "", botName := ""
             inLine0 := 0, crossLine0 := 0, ilStep := 1, xlStep := 1
             constThick := true, minRelThick := 1, dz := 0 }

/-- The rotated coordinate `rx` of `(x,y)`. -/
def Simbox.rx (s : Simbox K) (x y : K) : K :=
  (x - s.xMin) * s.cosrot + (y - s.yMin) * s.sinrot

/-- The rotated coordinate `ry` of `(x,y)`. -/
def Simbox.ry (s : Simbox K) (x y : K) : K :=
  -(x - s.xMin) * s.sinrot + (y - s.yMin) * s.cosrot

/-- The body of `getIndexes`: the triple `(xInd, yInd, zInd)`. -/
def Simbox.getIndexes (IMISSING : Int) (s : Simbox K) (x y z : K) :
    Except Fault (Int × Int × Int) :=
  if s.rx x y > 0 ∧ s.rx x y < s.lx ∧ s.ry x y > 0 ∧ s.ry x y < s.ly then
    match s.top.getZ x y with
    | none => Except.ok (IMISSING, IMISSING, IMISSING)
    | some zTop =>
      match s.bot.getZ x y with
      | none => Except.ok (IMISSING, IMISSING, IMISSING)
      | some zBot =>
        if z > zTop ∧ z < zBot then
          match floorDiv (s.rx x y) s.dx, floorDiv (s.ry x y) s.dy,
              floorDiv ((s.nz : K) * (z - zTop)) (zBot - zTop) with
          | Except.ok xInd, Except.ok yInd, Except.ok zInd => Except.ok (xInd, yInd, zInd)
          | _, _, _ => Except.error Fault.undefined
        else Except.ok (IMISSING, IMISSING, IMISSING)
  else Except.ok (IMISSING, IMISSING, IMISSING)

/-- The body of `getIndex`; the index `int(i+j*nx_+k*nx_*ny_)` is `int`
arithmetic. -/
def Simbox.getIndex (IMISSING : Int) (s : Simbox K) (x y z : K) : Except Fault Int :=
  match s.getIndexes IMISSING x y z with
  | Except.error e => Except.error e
  | Except.ok (i, j, k) =>
    if k ≠ IMISSING ∧ j ≠ IMISSING ∧ i ≠ IMISSING then
      Except.ok (wrap32 (i + j * s.nx + k * s.nx * s.ny))
    else Except.ok IMISSING

/-- What `getZInterpolation` computes where both surfaces are defined: the two
cell indices, the weight `t`, and the two layers `zInd1`, `zInd2` they refer to. -/
structure ZInterpolation (K : Type) where
  index1 : Int
  index2 : Int
  t : K
  zInd1 : Int
  zInd2 : Int

/-- The body of `getZInterpolation`. The result is `none` where a surface is
missing: then `index1 = IMISSING`, and `index2` and `t` are left as they were.
The two cell indices are `int` arithmetic. -/
def Simbox.getZInterpolation (s : Simbox K) (x y z : K) :
    Except Fault (Option (ZInterpolation K)) :=
  match floorDiv (s.rx x y) s.dx, floorDiv (s.ry x y) s.dy with
  | Except.ok xInd, Except.ok yInd =>
    match s.top.getZ x y with
    | none => Except.ok none
    | some zTop =>
      match s.bot.getZ x y with
      | none => Except.ok none
      | some zBot =>
        match divide (zBot - zTop) (s.nz : K) with
        | Except.error e => Except.error e
        | Except.ok dz =>
          match divide (z - zTop) dz with
          | Except.error e => Except.error e
          | Except.ok q =>
            let zInd1 := truncToInt (((⌊q⌋ : Int) : K) - 1 / 2)
            if zInd1 ≥ 0 ∧ zInd1 < s.nz - 1 then
              Except.ok (some
                { index1 := wrap32 (xInd + yInd * s.nx + zInd1 * s.nx * s.ny)
                  index2 := wrap32 (xInd + yInd * s.nx + (zInd1 + 1) * s.nx * s.ny)
                  t := q - 1 / 2 - (zInd1 : K)
                  zInd1 := zInd1
                  zInd2 := zInd1 + 1 })
            else
              let zInd1 := if zInd1 < 0 then 0 else s.nz - 1
              Except.ok (some
                { index1 := wrap32 (xInd + yInd * s.nx + zInd1 * s.nx * s.ny)
                  index2 := wrap32 (xInd + yInd * s.nx + zInd1 * s.nx * s.ny)
                  t := 0
                  zInd1 := zInd1
                  zInd2 := zInd1 })
  | _, _ => Except.error Fault.undefined

/-- The body of `getCoord`: the triple `(x, y, z)`. -/
def Simbox.getCoord (RMISSING : K) (s : Simbox K) (xInd yInd zInd : Int) :
    Except Fault (K × K × K) :=
  let rx := ((xInd : K) + 1 / 2) * s.dx
  let ry := ((yInd : K) + 1 / 2) * s.dy
  let x := rx * s.cosrot - ry * s.sinrot + s.xMin
  let y := rx * s.sinrot + ry * s.cosrot + s.yMin
  match s.top.getZ x y with
  | none => Except.ok (x, y, RMISSING)
  | some zTop =>
    match s.bot.getZ x y with
    | none => Except.ok (x, y, RMISSING)
    | some zBot =>
      match divide (zBot - zTop) (s.nz : K) with
      | Except.error e => Except.error e
      | Except.ok dz => Except.ok (x, y, zTop + ((zInd : K) + 1 / 2) * dz)

/-- The body of `getMinMaxZ`: the pair `(minZ, maxZ)`. -/
def Simbox.getMinMaxZ (s : Simbox K) : K × K :=
  (s.top.min, s.top.min)

/-- The body of `setArea`. -/
def Simbox.setArea (L : BoxLib K) (s : Simbox K) (x0 y0 lx ly rot dx dy : K) :
    Except Fault (Simbox K) :=
  match cellCount lx dx, cellCount ly dy with
  | Except.ok nx, Except.ok ny =>
    Except.ok
      { s with xMin := x0, yMin := y0, lx := lx, ly := ly, angle := rot
               cosrot := L.cos rot, sinrot := L.sin rot, dx := dx, dy := dy
               nx := nx, ny := ny
               status := if s.status = SimboxStatus.EMPTY then SimboxStatus.NODEPTH
                         else if s.status = SimboxStatus.NOAREA then SimboxStatus.BOXOK
                         else s.status }
  | _, _ => Except.error Fault.undefined

/-- The body of `setDepth(zref, zShift, lz, dz)`. -/
def Simbox.setDepth (L : BoxLib K) (s : Simbox K) (zref : Surface K) (zShift lz dz : K) :
    Except Fault (Simbox K) :=
  match cellCount lz dz with
  | Except.error e => Except.error e
  | Except.ok nz =>
    Except.ok
      { s with top := L.add zShift zref, bot := L.add lz (L.add zShift zref)
               lz := L.lzOf (L.add zShift zref) (L.add lz (L.add zShift zref))
               dz := dz, nz := nz
               status := if s.status = SimboxStatus.EMPTY then SimboxStatus.NOAREA
                         else if s.status = SimboxStatus.NODEPTH then SimboxStatus.BOXOK
                         else s.status }

/-- The body of `setDepth(z0, z1, nz)`. -/
def Simbox.setDepthSurfaces (L : BoxLib K) (s : Simbox K) (z0 z1 : Surface K) (nz : Int) :
    Simbox K :=
  { s with top := z0, bot := z1, lz := L.lzOf z0 z1, nz := nz, dz := -1
           status := if s.status = SimboxStatus.EMPTY then SimboxStatus.NOAREA
                     else if s.status = SimboxStatus.NODEPTH then SimboxStatus.BOXOK
                     else s.status
           constThick := false }

/-- The two loops of `checkError`: the least thickness `z1 - z0` over the cell
centres where both surfaces are defined, starting from `1e+30`. -/
def Simbox.minThickness (s : Simbox K) : K :=
  ((List.range s.ny.toNat).foldl
    (fun (outer : K × K) _ =>
      let inner := (List.range s.nx.toNat).foldl
        (fun (a : K × K) _ =>
          let x := a.1 * s.cosrot - outer.1 * s.sinrot + s.xMin
          let y := a.1 * s.sinrot + outer.1 * s.cosrot + s.yMin
          let lzMin := match s.top.getZ x y, s.bot.getZ x y with
            | some z0, some z1 => if z1 - z0 < a.2 then z1 - z0 else a.2
            | _, _ => a.2
          (a.1 + s.dx, lzMin))
        (1 / 2 * s.dx, outer.2)
      (outer.1 + s.dy, inner.2))
    (1 / 2 * s.dy, (10 : K) ^ 30)).2

/-- The body of `checkError`: the returned status and the box afterwards (the
text written to `errText` is left out). -/
def Simbox.checkError (s : Simbox K) (lzLimit : K) : Except Fault (SimboxStatus × Simbox K) :=
  let s1 : Simbox K :=
    if s.status = SimboxStatus.NODEPTH ∨ s.status = SimboxStatus.EMPTY then
      { s with status := SimboxStatus.EXTERNALERROR }
    else s
  if s1.status = SimboxStatus.EXTERNALERROR ∨ s1.status = SimboxStatus.INTERNALERROR then
    Except.ok (SimboxStatus.EXTERNALERROR, s1)
  else if s1.status = SimboxStatus.NOAREA then Except.ok (SimboxStatus.BOXOK, s1)
  else if s1.dz < 0 then
    if s1.minThickness < 0 then
      Except.ok (SimboxStatus.INTERNALERROR, { s1 with status := SimboxStatus.INTERNALERROR })
    else
      match divide s1.minThickness s1.lz with
      | Except.error e => Except.error e
      | Except.ok lzFac =>
        if lzFac < lzLimit then
          Except.ok (SimboxStatus.INTERNALERROR,
            { s1 with minRelThick := lzFac, status := SimboxStatus.INTERNALERROR })
        else
          match divide s1.lz (s1.nz : K) with
          | Except.error e => Except.error e
          | Except.ok dz => Except.ok (s1.status, { s1 with minRelThick := lzFac, dz := dz })
  else Except.ok (s1.status, s1)

end SimboxDefs

/-- A surface at constant depth `c`. -/
def flatSurface (c : ℚ) : Surface ℚ := { getZ := fun _ _ => some c, min := c, max := c }

/-- Library code for the examples: `Add` shifts a surface, the thickness is the
greatest distance between the surfaces, and the only angle used is 0. -/
def demoLib : BoxLib ℚ :=
  { add := fun c srf =>
      { getZ := fun x y => (srf.getZ x y).map (fun z => z + c), min := srf.min + c,
        max := srf.max + c }
    lzOf := fun z0 z1 => z1.max - z0.min
    cos := fun _ => 1
    sin := fun _ => 0 }

/-- A box as `Simbox::Simbox(void)` leaves it, the other members zero. -/
def emptyBox : Simbox ℚ :=
  Simbox.empty
    { xMin := 0, yMin := 0, lx := 0, ly := 0, lz := 0, angle := 0
      top := flatSurface 0, bot := flatSurface 0
      status := SimboxStatus.EMPTY, cosrot := 0, sinrot := 0, dx := 0, dy := 0, dz := 0
      nx := 0, ny := 0, nz := 0, inLine0 := 0, crossLine0 := 0, ilStep := 0, xlStep := 0
      constThick := false, minRelThick := 0, topName := "", botName := "" }

/-- A box between the flat surfaces at depth 0 and depth 10. -/
def slabBox : Simbox ℚ :=
  { emptyBox with top := flatSurface 0, bot := flatSurface 10, lz := 10
                  status := SimboxStatus.NOAREA, nz := 10, dz := 1 }

/-- A box of 2 x 2 cells of size 1 and four layers between the flat surfaces at
depth 0 and depth 4, not rotated. -/
def layerBox : Simbox ℚ :=
  { emptyBox with lx := 2, ly := 2, lz := 4, top := flatSurface 0, bot := flatSurface 4
                  status := SimboxStatus.BOXOK, cosrot := 1, sinrot := 0
                  dx := 1, dy := 1, dz := 1, nx := 2, ny := 2, nz := 4 }

/-! ## Index arithmetic -/

theorem wrap32_of_fits (x : Int) (h : FitsInt x) : wrap32 x = x := by
  unfold FitsInt at h
  unfold wrap32
  omega

theorem wrap32_fits (x : Int) : FitsInt (wrap32 x) := by
  unfold FitsInt wrap32
  omega

theorem index32_eq_of_fits {α : Type} (s : FFTFileGrid α) (i j k : Int)
    (h : s.IndexFits i j k) : s.index32 i j k = s.index i j k := by
  obtain ⟨-, -, -, h4, h5, h6, h7, h8⟩ := h
  unfold FFTFileGrid.index32 FFTFileGrid.index
  rw [wrap32_of_fits _ h4, wrap32_of_fits _ h5, wrap32_of_fits _ h6, wrap32_of_fits _ h7,
    wrap32_of_fits _ h8]

theorem index_nonneg {α : Type} (s : FFTFileGrid α) (i j k : Int)
    (hs : s.toFFTGrid.Shaped) (hin : ¬ s.toFFTGrid.Outside i j k) :
    0 ≤ s.index i j k := by
  obtain ⟨h1, h2, -, -, h5, h6, h7⟩ := hs
  simp only [FFTGrid.Outside, not_or, not_lt, not_le] at hin
  obtain ⟨hi, hi2, hj, hj2, hk, hk2⟩ := hin
  have hr : 0 ≤ s.rnxp := by omega
  have hy : 0 ≤ s.nyp := by omega
  unfold FFTFileGrid.index
  have a1 : 0 ≤ s.rnxp * j := mul_nonneg hr hj
  have a2 : 0 ≤ k * s.rnxp * s.nyp := mul_nonneg (mul_nonneg hk hr) hy
  omega

theorem index_lt_rsize {α : Type} (s : FFTFileGrid α) (i j k : Int)
    (hs : s.toFFTGrid.Shaped) (hin : ¬ s.toFFTGrid.Outside i j k) :
    s.index i j k < s.rsize := by
  obtain ⟨h1, h2, -, h4, h5, h6, h7⟩ := hs
  simp only [FFTGrid.Outside, not_or, not_lt, not_le] at hin
  obtain ⟨hi, hi2, hj, hj2, hk, hk2⟩ := hin
  have hr : 0 ≤ s.rnxp := by omega
  have hir : i + 1 ≤ s.rnxp := by omega
  have hy : 0 ≤ s.nyp := by omega
  unfold FFTFileGrid.index
  rw [h4]
  have a1 : s.rnxp * j ≤ s.rnxp * (s.nyp - 1) := mul_le_mul_of_nonneg_left (by omega) hr
  have a2 : k * (s.rnxp * s.nyp) ≤ (s.nzp - 1) * (s.rnxp * s.nyp) :=
    mul_le_mul_of_nonneg_right (by omega) (mul_nonneg hr hy)
  have e1 : k * s.rnxp * s.nyp = k * (s.rnxp * s.nyp) := by ring
  have e2 : s.rnxp * s.nyp * s.nzp = (s.nzp - 1) * (s.rnxp * s.nyp) + s.rnxp * (s.nyp - 1)
      + s.rnxp := by ring
  rw [e1, e2]
  omega

/-! ## Random-access writes -/

theorem setRealValue_outside {α : Type} (s : FFTFileGrid α) (i j k : Int) (v : α)
    (hdom : s.istransformed = false) (hmode : s.accMode = AccMode.RANDOMACCESS)
    (ho : s.toFFTGrid.Outside i j k) : s.setRealValue i j k v = Except.ok (1, s) := by
  have hc : (decide (i < s.nx) && decide (j < s.ny) && decide (k < s.nz) &&
      (decide (i > -1) && decide (j > -1) && decide (k > -1))) = false := by
    simp only [FFTGrid.Outside] at ho
    simp only [Bool.and_eq_false_iff, decide_eq_false_iff_not, not_lt, gt_iff_lt]
    omega
  simp only [FFTFileGrid.setRealValue, hdom, hmode, if_true, hc]
  rfl

theorem setRealValue_inside {α : Type} (s : FFTFileGrid α) (i j k : Int) (v : α)
    (buf : List α) (hdom : s.istransformed = false)
    (hmode : s.accMode = AccMode.RANDOMACCESS) (hi : ¬ s.toFFTGrid.Outside i j k)
    (hs : s.toFFTGrid.Shaped) (hb : s.rvalue = some buf) (hl : buf.length = s.rsize.toNat) :
    s.setRealValue i j k v =
      Except.ok (0, { s with rvalue := some (buf.set (s.index i j k).toNat v) }) := by
  have h0 := index_nonneg s i j k hs hi
  have h1 := index_lt_rsize s i j k hs hi
  have hc : (decide (i < s.nx) && decide (j < s.ny) && decide (k < s.nz) &&
      (decide (i > -1) && decide (j > -1) && decide (k > -1))) = true := by
    simp only [FFTGrid.Outside, not_or, not_lt, not_le] at hi
    simp only [Bool.and_eq_true, decide_eq_true_eq, gt_iff_lt]
    omega
  have hlt : (s.index i j k).toNat < buf.length := by omega
  simp only [FFTFileGrid.setRealValue, hdom, hmode, if_true, hc, hb, h0, hlt, and_self]

theorem getRealValue_at {α : Type} (s : FFTFileGrid α) (i j k : Int)
    (buf : List α) (x : α) (hdom : s.istransformed = false)
    (hmode : s.accMode = AccMode.RANDOMACCESS) (hi : ¬ s.toFFTGrid.Outside i j k)
    (hs : s.toFFTGrid.Shaped) (hb : s.rvalue = some buf)
    (hx : buf.get? (s.index i j k).toNat = some x) :
    s.getRealValue i j k = Except.ok x := by
  have h0 := index_nonneg s i j k hs hi
  have h1 := index_lt_rsize s i j k hs hi
  simp only [FFTFileGrid.getRealValue, hdom, hmode, if_true, h1, hb, h0, hx]

theorem inside_get {α : Type} (s : FFTFileGrid α) (i j k : Int) (buf : List α)
    (hi : ¬ s.toFFTGrid.Outside i j k) (hs : s.toFFTGrid.Shaped)
    (hl : buf.length = s.rsize.toNat) :
    ∃ x, buf.get? (s.index i j k).toNat = some x := by
  have h0 := index_nonneg s i j k hs hi
  have h1 := index_lt_rsize s i j k hs hi
  have hlt : (s.index i j k).toNat < buf.length := by omega
  exact ⟨buf.get ⟨_, hlt⟩, List.get?_eq_get hlt⟩

theorem loaded_cases {α : Type} (g : FFTGrid α) (hl : g.Loaded) :
    ∃ buf, g.rvalue = some buf ∧ buf.length = g.rsize.toNat := by
  unfold FFTGrid.Loaded at hl
  cases hb : g.rvalue with
  | none => rw [hb] at hl; simp at hl
  | some buf =>
    rw [hb] at hl
    simp only [Option.map_some', Option.some.injEq] at hl
    exact ⟨buf, rfl, hl⟩

theorem load_saved {α : Type} (junk : Nat → α) (s : FFTFileGrid α) (fs : FileSys α)
    (name : String) (b : List α)
    (hmode : s.accMode = AccMode.NONE ∨ s.accMode = AccMode.RANDOMACCESS)
    (hn : s.fNameIn = some name) (hf : fsRead fs name = some b)
    (hl : b.length = s.rsize.toNat) :
    s.load junk fs = Except.ok { s with toFFTGrid := s.resident b, inFile := none } := by
  have ht : b.take s.rsize.toNat = b := by rw [← hl]; exact List.take_length b
  cases hd : s.istransformed <;>
    simp [FFTFileGrid.load, hmode, hn, hf, hd, FFTGrid.createRealGrid,
      FFTGrid.createComplexGrid, FFTFileGrid.resident, ht, hl]

theorem setAccessMode_random_saved {α : Type} (junk : Nat → α) (s : FFTFileGrid α)
    (fs : FileSys α) (name : String) (b : List α) (hmode : s.accMode = AccMode.NONE)
    (hn : s.fNameIn = some name) (hf : fsRead fs name = some b)
    (hl : b.length = s.rsize.toNat) :
    s.setAccessMode junk AccMode.RANDOMACCESS fs =
      Except.ok ({ s with toFFTGrid := s.resident b, inFile := none, modified := 0,
                          accMode := AccMode.RANDOMACCESS }, fs) := by
  simp only [FFTFileGrid.setAccessMode, if_pos hmode]
  rw [load_saved junk { s with modified := 0 } fs name b (Or.inl hmode) hn hf hl]
  rfl

theorem endAccess_unmodified {α : Type} (t : FFTFileGrid α) (fs : FileSys α)
    (hmode : t.accMode = AccMode.RANDOMACCESS) (hmod : t.modified = 0) :
    t.endAccess fs = Except.ok ({ t.unload with accMode := AccMode.NONE }, fs) := by
  simp only [FFTFileGrid.endAccess, hmode, hmod, ne_eq, not_true_eq_false, if_false]

theorem closeReopenRead_unmodified {α : Type} (junk : Nat → α) (t : FFTFileGrid α)
    (fs : FileSys α) (i j k : Int) (name : String) (b : List α)
    (hdom : t.istransformed = false) (hmode : t.accMode = AccMode.RANDOMACCESS)
    (hmod : t.modified = 0) (hs : t.toFFTGrid.Shaped) (hi : ¬ t.toFFTGrid.Outside i j k)
    (hn : t.fNameIn = some name) (hf : fsRead fs name = some b)
    (hl : b.length = t.rsize.toNat) (old : α)
    (hold : b.get? (t.index i j k).toNat = some old) :
    t.closeReopenRead junk fs i j k = Except.ok old := by
  unfold FFTFileGrid.closeReopenRead
  rw [endAccess_unmodified t fs hmode hmod]
  simp only [bind, Except.bind]
  rw [setAccessMode_random_saved junk { t.unload with accMode := AccMode.NONE } fs name b
    rfl hn hf hl]
  dsimp only
  refine getRealValue_at _ i j k b old ?_ ?_ ?_ ?_ ?_ ?_
  · exact hdom
  · rfl
  · exact hi
  · exact hs
  · rfl
  · exact hold

/-- C3 (random-access writes persisted by `endAccess`), evaluated: on every
saved spatial grid with the constructor's derived sizes and every index inside
the logical extents, the scenario write, `endAccess`, reopen, read returns the
sample `old` that the backing file held at the position, whatever `v` was
written: `setRealValue` does not set `modified_`, so `endAccess` unloads the
buffer without saving it. -/
theorem writeReopenRead_returns_old {α : Type} (junk : Nat → α) (s : FFTFileGrid α)
    (fs : FileSys α) (i j k : Int) (v : α) (name : String) (b : List α)
    (hdom : s.istransformed = false) (hmode : s.accMode = AccMode.NONE)
    (hs : s.toFFTGrid.Shaped) (hi : ¬ s.toFFTGrid.Outside i j k)
    (hn : s.fNameIn = some name) (hf : fsRead fs name = some b)
    (hl : b.length = s.rsize.toNat) :
    ∃ old, b.get? (s.index i j k).toNat = some old ∧
      s.writeReopenRead junk fs i j k v = Except.ok old := by
  have hopen := setAccessMode_random_saved junk s fs name b hmode hn hf hl
  have hset := setRealValue_inside
    { s with toFFTGrid := s.resident b, inFile := none, modified := 0,
             accMode := AccMode.RANDOMACCESS } i j k v b hdom rfl hi hs rfl hl
  unfold FFTFileGrid.writeReopenRead
  rw [hopen]
  simp only [bind, Except.bind]
  rw [hset]
  dsimp only
  obtain ⟨old, hold⟩ := inside_get s i j k b hi hs hl
  refine ⟨old, hold, ?_⟩
  refine closeReopenRead_unmodified junk _ fs i j k name b ?_ ?_ ?_ ?_ ?_ ?_ hf ?_ old ?_
  · exact hdom
  · rfl
  · rfl
  · exact hs
  · exact hi
  · exact hn
  · exact hl
  · exact hold

/-- On `savedGrid` the value 99 written at `(1,0,0)` is lost: the later session reads 20, the sample in the file. -/
theorem writeReopenRead_returns_old_witness :
    savedGrid.istransformed = false ∧ savedGrid.accMode = AccMode.NONE ∧
      savedGrid.toFFTGrid.Shaped ∧ ¬ savedGrid.toFFTGrid.Outside 1 0 0 ∧
      savedGrid.fNameIn = some "tmpgrid0" ∧
      fsRead savedFiles "tmpgrid0" = some [10, 20, 30, 40] ∧
      savedGrid.writeReopenRead (fun _ => 0) savedFiles 1 0 0 99 = Except.ok 20 := by
  refine ⟨by decide, by decide, by decide, by decide, by decide, by decide, ?_⟩
  obtain ⟨old, h1, h2⟩ := writeReopenRead_returns_old (fun _ => 0) savedGrid savedFiles
    1 0 0 99 "tmpgrid0" [10, 20, 30, 40] (by decide) (by decide) (by decide) (by decide)
    (by decide) (by decide) (by decide)
  have h3 : [10, 20, 30, 40].get? (savedGrid.index 1 0 0).toNat = some (20 : Int) := by decide
  rw [h1] at h3
  rw [h2, Option.some.inj h3]

/-! ## Sequential sessions -/

theorem fsRead_fsWrite_same {α : Type} (fs : FileSys α) (name : String) (c : List α) :
    fsRead (fsWrite fs name c) name = some c := by
  simp [fsWrite, fsRead]

theorem fsRead_fsAppend_same {α : Type} (fs : FileSys α) (name : String) (v : α) :
    fsRead (fsAppend fs name v) name = some ((fsRead fs name).getD [] ++ [v]) := by
  simp [fsAppend, fsRead_fsWrite_same]

theorem setNextReals_write {α : Type} (vs : List α) (s : FFTFileGrid α) (fs : FileSys α)
    (name : String) (c : List α) (hdom : s.istransformed = false)
    (hmode : s.accMode = AccMode.WRITE ∨ s.accMode = AccMode.READANDWRITE)
    (hout : s.outFile = some name) (hc : fsRead fs name = some c) :
    ∃ fs1, FFTFileGrid.setNextReals vs s fs = Except.ok (s, fs1) ∧
      fsRead fs1 name = some (c ++ vs) := by
  induction vs generalizing fs c with
  | nil => exact ⟨fs, rfl, by simpa using hc⟩
  | cons v vs ih =>
    have hm : s.accMode = AccMode.READANDWRITE ∨ s.accMode = AccMode.WRITE := hmode.symm
    obtain ⟨fs1, h1, h2⟩ := ih (fsAppend fs name v) (c ++ [v])
      (by rw [fsRead_fsAppend_same, hc]; rfl)
    refine ⟨fs1, ?_, ?_⟩
    · simp only [FFTFileGrid.setNextReals, FFTFileGrid.setNextReal, hdom, hm, hout, if_true]
      exact h1
    · rw [h2]; simp

theorem getNextReals_read {α : Type} (vs rest : List α) (s : FFTFileGrid α)
    (hdom : s.istransformed = false)
    (hmode : s.accMode = AccMode.READ ∨ s.accMode = AccMode.READANDWRITE)
    (hin : s.inFile = some (vs ++ rest)) :
    FFTFileGrid.getNextReals vs.length s = Except.ok (vs, { s with inFile := some rest }) := by
  induction vs generalizing s with
  | nil =>
    simp only [List.length_nil, FFTFileGrid.getNextReals]
    simp only [List.nil_append] at hin
    rw [← hin]
  | cons v vs ih =>
    have h1 := ih { s with inFile := some (vs ++ rest) } hdom hmode rfl
    simp only [List.length_cons, FFTFileGrid.getNextReals, FFTFileGrid.getNextReal, hdom, hmode,
      hin, List.cons_append, if_true]
    rw [h1]

theorem setAccessMode_write_eq {α : Type} (junk : Nat → α) (s : FFTFileGrid α)
    (fs : FileSys α) (hmode : s.accMode = AccMode.NONE) :
    s.setAccessMode junk AccMode.WRITE fs =
      Except.ok ({ s with outFile := some s.fNameOut, accMode := AccMode.WRITE },
        fsWrite fs s.fNameOut []) := by
  simp only [FFTFileGrid.setAccessMode, hmode, if_true]

theorem setAccessMode_read_eq {α : Type} (junk : Nat → α) (s : FFTFileGrid α)
    (fs : FileSys α) (hmode : s.accMode = AccMode.NONE) :
    s.setAccessMode junk AccMode.READ fs =
      Except.ok ({ s with inFile := s.fNameIn.bind (fsRead fs), accMode := AccMode.READ },
        fs) := by
  simp only [FFTFileGrid.setAccessMode, hmode, if_true]

theorem endAccess_write_eq {α : Type} (s : FFTFileGrid α) (fs : FileSys α) (name : String)
    (hmode : s.accMode = AccMode.WRITE) (hout : s.outFile = some name) :
    s.endAccess fs =
      match FFTFileGrid.swapNames { s with outFile := none } with
      | Except.error e => Except.error e
      | Except.ok s1 => Except.ok ({ s1 with accMode := AccMode.NONE }, fs) := by
  simp only [FFTFileGrid.endAccess, hmode, hout]

/-- Sequential round trip, apart from the 50-byte block of `endAccess`: when an
input file exists already, or the output name leaves room for the appended `b`
and the terminator, writing `vs` and reading back returns `vs`. -/
theorem writeThenRead_roundtrip {α : Type} (junk : Nat → α) (vs : List α)
    (s : FFTFileGrid α) (fs : FileSys α) (hdom : s.istransformed = false)
    (hmode : s.accMode = AccMode.NONE)
    (hfit : s.fNameIn ≠ none ∨ s.fNameOut.length + 2 ≤ 50) :
    s.writeThenRead junk vs fs = Except.ok vs := by
  obtain ⟨fs1, h1, h2⟩ := setNextReals_write vs
    { s with outFile := some s.fNameOut, accMode := AccMode.WRITE }
    (fsWrite fs s.fNameOut []) s.fNameOut [] hdom (Or.inl rfl) rfl
    (fsRead_fsWrite_same fs s.fNameOut [])
  rw [List.nil_append] at h2
  have key : ∀ t : FFTFileGrid α, t.toFFTGrid = s.toFFTGrid → t.accMode = AccMode.READ →
      t.inFile = some vs →
      FFTFileGrid.getNextReals vs.length t = Except.ok (vs, { t with inFile := some [] }) := by
    intro t ht1 ht2 ht3
    exact getNextReals_read vs [] t (by rw [ht1]; exact hdom) (Or.inl ht2) (by simpa using ht3)
  unfold FFTFileGrid.writeThenRead
  rw [setAccessMode_write_eq junk s fs hmode]
  simp only [bind, Except.bind]
  rw [h1]
  simp only []
  rw [endAccess_write_eq _ fs1 s.fNameOut rfl rfl]
  cases hn : s.fNameIn with
  | some tmp =>
    simp only [FFTFileGrid.swapNames, hn]
    rw [setAccessMode_read_eq junk _ fs1 rfl]
    simp only [Option.some_bind, h2]
    rw [key { s with accMode := AccMode.READ, fNameIn := some s.fNameOut, fNameOut := tmp,
                     inFile := some vs, outFile := none } rfl rfl rfl]
    rfl
  | none =>
    have hl : s.fNameOut.length + 2 ≤ 50 := by
      rcases hfit with h | h
      · exact absurd hn h
      · exact h
    simp only [FFTFileGrid.swapNames, hn, hl, if_true]
    rw [setAccessMode_read_eq junk _ fs1 rfl]
    simp only [Option.some_bind, h2]
    rw [key { s with accMode := AccMode.READ, fNameIn := some s.fNameOut,
                     fNameOut := FFTFileGrid.bName s.fNameOut,
                     inFile := some vs, outFile := none } rfl rfl rfl]
    rfl

/-- C2 (sequential write/read round trip), evaluated on the first write of a
grid whose output name is longer than 48 characters: the writes succeed, but
`endAccess` prints the name and the appended `b` into a block of 50 bytes, which
is undefined behaviour, so the scenario does not return the written values. -/
theorem writeThenRead_first_write_long_name {α : Type} (junk : Nat → α) (vs : List α)
    (s : FFTFileGrid α) (fs : FileSys α) (hdom : s.istransformed = false)
    (hmode : s.accMode = AccMode.NONE) (hfirst : s.fNameIn = none)
    (hlong : 50 < s.fNameOut.length + 2) :
    s.writeThenRead junk vs fs = Except.error Fault.undefined := by
  obtain ⟨fs1, h1, -⟩ := setNextReals_write vs
    { s with outFile := some s.fNameOut, accMode := AccMode.WRITE }
    (fsWrite fs s.fNameOut []) s.fNameOut [] hdom (Or.inl rfl) rfl
    (fsRead_fsWrite_same fs s.fNameOut [])
  have hl : ¬ s.fNameOut.length + 2 ≤ 50 := by omega
  unfold FFTFileGrid.writeThenRead
  rw [setAccessMode_write_eq junk s fs hmode]
  simp only [bind, Except.bind]
  rw [h1]
  simp only []
  rw [endAccess_write_eq _ fs1 s.fNameOut rfl rfl]
  simp only [FFTFileGrid.swapNames, hfirst, hl, if_false]

/-- The first sequential write of `longNameGrid` (a 49-character name) does not complete. -/
theorem writeThenRead_first_write_long_name_witness :
    longNameGrid.istransformed = false ∧ longNameGrid.accMode = AccMode.NONE ∧
      longNameGrid.fNameIn = none ∧ 50 < longNameGrid.fNameOut.length + 2 ∧
      longNameGrid.writeThenRead (fun _ => 0) [1, 2, 3] [] = Except.error Fault.undefined :=
  ⟨by decide, by decide, by decide, by decide,
    writeThenRead_first_write_long_name (fun _ => 0) [1, 2, 3] longNameGrid []
      (by decide) (by decide) (by decide) (by decide)⟩

/-! ## The access-mode state machine -/

theorem load_total {α : Type} (junk : Nat → α) (s : FFTFileGrid α) (fs : FileSys α)
    (hmode : s.accMode = AccMode.NONE ∨ s.accMode = AccMode.RANDOMACCESS)
    (hp : s.InputPresent fs) :
    ∃ s1, s.load junk fs = Except.ok s1 ∧ s1.accMode = s.accMode ∧
      s1.modified = s.modified ∧ s1.fNameIn = s.fNameIn ∧ s1.fNameOut = s.fNameOut := by
  unfold FFTFileGrid.InputPresent at hp
  cases hn : s.fNameIn with
  | none =>
    simp only [FFTFileGrid.load, hmode, if_true, hn]
    exact ⟨_, rfl, rfl, rfl, hn.symm ▸ rfl, rfl⟩
  | some name =>
    rw [hn] at hp
    simp only [Option.map_some', Option.getD_some, Option.isSome_iff_exists] at hp
    obtain ⟨file, hfile⟩ := hp
    simp only [FFTFileGrid.load, hmode, if_true, hn, hfile]
    exact ⟨_, rfl, rfl, rfl, hn.symm ▸ rfl, rfl⟩

/-- C5 (`setAccessMode` is legal from `NONE` only).  From every mode other than
`NONE`, `setAccessMode(m)` fails with a precondition violation for every `m`;
from `NONE` it succeeds and leaves the access mode equal to `m` (for
`RANDOMACCESS`, which loads the buffer, provided the named input file exists). -/
theorem setAccessMode_only_from_none {α : Type} (junk : Nat → α) (s : FFTFileGrid α)
    (fs : FileSys α) (m : AccMode) :
    (s.accMode ≠ AccMode.NONE → s.setAccessMode junk m fs = Except.error Fault.assertion) ∧
    (s.accMode = AccMode.NONE → (m = AccMode.RANDOMACCESS → s.InputPresent fs) →
      ∃ s1 fs1, s.setAccessMode junk m fs = Except.ok (s1, fs1) ∧ s1.accMode = m) := by
  constructor
  · intro h
    simp only [FFTFileGrid.setAccessMode, h, if_false]
  · intro h hp
    cases m with
    | NONE => exact ⟨_, _, by simp only [FFTFileGrid.setAccessMode, h, if_true]; rfl, rfl⟩
    | READ => exact ⟨_, _, by simp only [FFTFileGrid.setAccessMode, h, if_true]; rfl, rfl⟩
    | WRITE => exact ⟨_, _, by simp only [FFTFileGrid.setAccessMode, h, if_true]; rfl, rfl⟩
    | READANDWRITE => exact ⟨_, _, by simp only [FFTFileGrid.setAccessMode, h, if_true]; rfl, rfl⟩
    | RANDOMACCESS =>
      obtain ⟨s1, h1, -⟩ := load_total junk { s with modified := 0 } fs (Or.inl h) (hp rfl)
      refine ⟨{ s1 with accMode := AccMode.RANDOMACCESS }, fs, ?_, rfl⟩
      simp only [FFTFileGrid.setAccessMode, if_pos h]
      rw [h1]

/-- From the open session of `openGrid` a second `setAccessMode` fails; from `savedGrid`, in mode `NONE`, it opens a random-access session. -/
theorem setAccessMode_only_from_none_witness :
    openGrid.accMode ≠ AccMode.NONE ∧
    openGrid.setAccessMode (fun _ => 0) AccMode.READ savedFiles =
      Except.error Fault.assertion ∧
    savedGrid.accMode = AccMode.NONE ∧ savedGrid.InputPresent savedFiles ∧
    ∃ s1 fs1, savedGrid.setAccessMode (fun _ => 0) AccMode.RANDOMACCESS savedFiles =
      Except.ok (s1, fs1) ∧ s1.accMode = AccMode.RANDOMACCESS :=
  ⟨by decide,
    (setAccessMode_only_from_none (fun _ => 0) openGrid savedFiles AccMode.READ).1
      (by decide),
    by decide, by decide,
    (setAccessMode_only_from_none (fun _ => 0) savedGrid savedFiles AccMode.RANDOMACCESS).2
      (by decide) (fun _ => by decide)⟩

/-! ## Access-mode and domain discipline of element access -/

theorem getNextReal_assertion_iff {α : Type} (s : FFTFileGrid α) :
    s.getNextReal = Except.error Fault.assertion ↔
      (s.istransformed = true ∨ (s.accMode ≠ AccMode.READ ∧ s.accMode ≠ AccMode.READANDWRITE)) := by
  unfold FFTFileGrid.getNextReal
  cases hd : s.istransformed <;> cases hm : s.accMode <;> simp <;> split <;> simp

theorem getNextComplex_assertion_iff {α : Type} (s : FFTFileGrid α) :
    s.getNextComplex = Except.error Fault.assertion ↔
      (s.istransformed = false ∨ (s.accMode ≠ AccMode.READ ∧ s.accMode ≠ AccMode.READANDWRITE)) := by
  unfold FFTFileGrid.getNextComplex
  cases hd : s.istransformed <;> cases hm : s.accMode <;> simp <;> split <;> simp

theorem setNextReal_assertion_iff {α : Type} (s : FFTFileGrid α) (fs : FileSys α) (v : α) :
    s.setNextReal fs v = Except.error Fault.assertion ↔
      (s.istransformed = true ∨ (s.accMode ≠ AccMode.WRITE ∧ s.accMode ≠ AccMode.READANDWRITE)) := by
  unfold FFTFileGrid.setNextReal
  cases hd : s.istransformed <;> cases hm : s.accMode <;> simp <;> split <;> simp

theorem setNextComplex_assertion_iff {α : Type} (s : FFTFileGrid α) (fs : FileSys α)
    (c : α × α) :
    s.setNextComplex fs c = Except.error Fault.assertion ↔
      (s.istransformed = false ∨ (s.accMode ≠ AccMode.WRITE ∧ s.accMode ≠ AccMode.READANDWRITE)) := by
  unfold FFTFileGrid.setNextComplex
  cases hd : s.istransformed <;> cases hm : s.accMode <;> simp <;> split <;> simp

/-- C6 (sequential access-mode discipline).  `getNextReal` and `getNextComplex`
fail with a precondition violation in every access mode other than `READ` and
`READANDWRITE` (in particular in `WRITE`), `setNextReal` and `setNextComplex` in
every mode other than `WRITE` and `READANDWRITE` (in particular in `READ`); and
whether a call is a precondition violation is the same for any two grids with
the same access mode and domain flag, whatever the arguments and files. -/
theorem sequential_mode_discipline {α : Type} (s : FFTFileGrid α) (fs : FileSys α) (v : α)
    (c : α × α) :
    (s.accMode ≠ AccMode.READ → s.accMode ≠ AccMode.READANDWRITE →
      s.getNextReal = Except.error Fault.assertion ∧
      s.getNextComplex = Except.error Fault.assertion) ∧
    (s.accMode ≠ AccMode.WRITE → s.accMode ≠ AccMode.READANDWRITE →
      s.setNextReal fs v = Except.error Fault.assertion ∧
      s.setNextComplex fs c = Except.error Fault.assertion) ∧
    (s.accMode = AccMode.WRITE →
      s.getNextReal = Except.error Fault.assertion ∧
      s.getNextComplex = Except.error Fault.assertion) ∧
    (s.accMode = AccMode.READ →
      s.setNextReal fs v = Except.error Fault.assertion ∧
      s.setNextComplex fs c = Except.error Fault.assertion) ∧
    (∀ (t : FFTFileGrid α) (fs2 : FileSys α) (v2 : α) (c2 : α × α),
      t.accMode = s.accMode → t.istransformed = s.istransformed →
        (t.getNextReal = Except.error Fault.assertion ↔
          s.getNextReal = Except.error Fault.assertion) ∧
        (t.getNextComplex = Except.error Fault.assertion ↔
          s.getNextComplex = Except.error Fault.assertion) ∧
        (t.setNextReal fs2 v2 = Except.error Fault.assertion ↔
          s.setNextReal fs v = Except.error Fault.assertion) ∧
        (t.setNextComplex fs2 c2 = Except.error Fault.assertion ↔
          s.setNextComplex fs c = Except.error Fault.assertion)) := by
  refine ⟨fun h1 h2 => ⟨?_, ?_⟩, fun h1 h2 => ⟨?_, ?_⟩, fun h => ⟨?_, ?_⟩,
    fun h => ⟨?_, ?_⟩, ?_⟩
  · exact (getNextReal_assertion_iff s).2 (Or.inr ⟨h1, h2⟩)
  · exact (getNextComplex_assertion_iff s).2 (Or.inr ⟨h1, h2⟩)
  · exact (setNextReal_assertion_iff s fs v).2 (Or.inr ⟨h1, h2⟩)
  · exact (setNextComplex_assertion_iff s fs c).2 (Or.inr ⟨h1, h2⟩)
  · exact (getNextReal_assertion_iff s).2 (Or.inr (by rw [h]; decide))
  · exact (getNextComplex_assertion_iff s).2 (Or.inr (by rw [h]; decide))
  · exact (setNextReal_assertion_iff s fs v).2 (Or.inr (by rw [h]; decide))
  · exact (setNextComplex_assertion_iff s fs c).2 (Or.inr (by rw [h]; decide))
  · intro t fs2 v2 c2 hm hd
    rw [getNextReal_assertion_iff, getNextReal_assertion_iff, getNextComplex_assertion_iff,
      getNextComplex_assertion_iff, setNextReal_assertion_iff, setNextReal_assertion_iff,
      setNextComplex_assertion_iff, setNextComplex_assertion_iff, hm, hd]
    exact ⟨Iff.rfl, Iff.rfl, Iff.rfl, Iff.rfl⟩

/-- In the random-access session of `openGrid` all four sequential members are precondition violations. -/
theorem sequential_mode_discipline_witness :
    openGrid.accMode ≠ AccMode.READ ∧ openGrid.accMode ≠ AccMode.READANDWRITE ∧
    openGrid.accMode ≠ AccMode.WRITE ∧
    openGrid.getNextReal = Except.error Fault.assertion ∧
    openGrid.getNextComplex = Except.error Fault.assertion ∧
    openGrid.setNextReal savedFiles 5 = Except.error Fault.assertion ∧
    openGrid.setNextComplex savedFiles (5, 6) = Except.error Fault.assertion :=
  have h := sequential_mode_discipline openGrid savedFiles 5 (5, 6)
  ⟨by decide, by decide, by decide, (h.1 (by decide) (by decide)).1,
    (h.1 (by decide) (by decide)).2, (h.2.1 (by decide) (by decide)).1,
    (h.2.1 (by decide) (by decide)).2⟩

/-- C7 (random access is valid only in `RANDOMACCESS`).  In every other access
mode `getRealValue` and `setRealValue` fail with a precondition violation for
all arguments; the failure hands back no grid, so nothing is modified, and it is
the same whatever the buffer pointer holds, so the buffer is not read. -/
theorem random_access_needs_session {α : Type} (s : FFTFileGrid α) (i j k : Int) (v : α)
    (h : s.accMode ≠ AccMode.RANDOMACCESS) :
    s.getRealValue i j k = Except.error Fault.assertion ∧
    s.setRealValue i j k v = Except.error Fault.assertion ∧
    ∀ buf : Option (List α),
      ({ s with rvalue := buf } : FFTFileGrid α).getRealValue i j k =
        Except.error Fault.assertion ∧
      ({ s with rvalue := buf } : FFTFileGrid α).setRealValue i j k v =
        Except.error Fault.assertion := by
  refine ⟨?_, ?_, fun buf => ⟨?_, ?_⟩⟩
  · unfold FFTFileGrid.getRealValue
    rw [if_neg h]; split <;> rfl
  · unfold FFTFileGrid.setRealValue
    rw [if_neg h]; split <;> rfl
  · unfold FFTFileGrid.getRealValue
    rw [if_neg (show ¬ ({ s with rvalue := buf } : FFTFileGrid α).accMode
      = AccMode.RANDOMACCESS from h)]
    split <;> rfl
  · unfold FFTFileGrid.setRealValue
    rw [if_neg (show ¬ ({ s with rvalue := buf } : FFTFileGrid α).accMode
      = AccMode.RANDOMACCESS from h)]
    split <;> rfl

/-- Outside a session (`savedGrid`) both random-access members are precondition violations. -/
theorem random_access_needs_session_witness :
    savedGrid.accMode ≠ AccMode.RANDOMACCESS ∧
    savedGrid.getRealValue 1 0 0 = Except.error Fault.assertion ∧
    savedGrid.setRealValue 1 0 0 99 = Except.error Fault.assertion :=
  have h := random_access_needs_session savedGrid 1 0 0 99 (by decide)
  ⟨by decide, h.1, h.2.1⟩

/-- C8 (domain discipline of element access).  On a grid in the frequency domain
(`istransformed_` true) `getNextReal`, `setNextReal`, `getRealValue` and
`setRealValue` fail with a precondition violation, and on a grid in the spatial
domain `getNextComplex` and `setNextComplex` do, in every access mode and for
all arguments. -/
theorem domain_discipline {α : Type} (s : FFTFileGrid α) :
    (s.istransformed = true →
      s.getNextReal = Except.error Fault.assertion ∧
      (∀ (fs : FileSys α) (v : α), s.setNextReal fs v = Except.error Fault.assertion) ∧
      (∀ i j k : Int, s.getRealValue i j k = Except.error Fault.assertion) ∧
      (∀ (i j k : Int) (v : α), s.setRealValue i j k v = Except.error Fault.assertion)) ∧
    (s.istransformed = false →
      s.getNextComplex = Except.error Fault.assertion ∧
      (∀ (fs : FileSys α) (c : α × α),
        s.setNextComplex fs c = Except.error Fault.assertion)) := by
  constructor
  · intro h
    refine ⟨?_, fun fs v => ?_, fun i j k => ?_, fun i j k v => ?_⟩
    · exact (getNextReal_assertion_iff s).2 (Or.inl h)
    · exact (setNextReal_assertion_iff s fs v).2 (Or.inl h)
    · simp only [FFTFileGrid.getRealValue, h, Bool.true_eq_false, if_false]
    · simp only [FFTFileGrid.setRealValue, h, Bool.true_eq_false, if_false]
  · intro h
    exact ⟨(getNextComplex_assertion_iff s).2 (Or.inl h),
      fun fs c => (setNextComplex_assertion_iff s fs c).2 (Or.inl h)⟩

/-- On `openGrid`, in the spatial domain, `getNextComplex` fails; with the domain flag flipped `getRealValue` fails. -/
theorem domain_discipline_witness :
    openGrid.istransformed = false ∧
    openGrid.getNextComplex = Except.error Fault.assertion ∧
    ({ openGrid with istransformed := true } : FFTFileGrid Int).istransformed = true ∧
    ({ openGrid with istransformed := true } : FFTFileGrid Int).getRealValue 1 0 0 =
      Except.error Fault.assertion :=
  ⟨by decide, ((domain_discipline openGrid).2 (by decide)).1, by decide,
    ((domain_discipline ({ openGrid with istransformed := true } : FFTFileGrid Int)).1
      (by decide)).2.2.1 1 0 0⟩

/-! ## Closing a session -/

theorem save_mode {α : Type} (s s1 : FFTFileGrid α) (fs fs1 : FileSys α)
    (h : s.save fs = Except.ok (s1, fs1)) : s1.accMode = s.accMode := by
  unfold FFTFileGrid.save at h
  split at h
  · dsimp only at h
    split at h
    · exact absurd h (by simp)
    · split at h <;>
        (simp only [Except.ok.injEq, Prod.mk.injEq] at h; rw [← h.1]; rfl)
  · exact absurd h (by simp)

theorem save_loaded {α : Type} (s : FFTFileGrid α) (fs : FileSys α) (buf : List α)
    (hmode : s.accMode = AccMode.NONE ∨ s.accMode = AccMode.RANDOMACCESS)
    (hb : s.rvalue = some buf) (hl : buf.length = s.rsize.toNat) :
    s.save fs =
      Except.ok ({ FFTFileGrid.unload { s with outFile := none } with
                    fNameIn := some s.fNameOut
                    fNameOut := s.fNameIn.getD (FFTFileGrid.bName s.fNameOut) },
        fsWrite fs s.fNameOut buf) := by
  have ht : buf.take s.rsize.toNat = buf := by rw [← hl]; exact List.take_length buf
  have hlt : ¬ buf.length < s.rsize.toNat := by omega
  unfold FFTFileGrid.save
  rw [if_pos hmode]
  dsimp only
  by_cases hz : s.rsize.toNat = 0
  · have hnil : buf = [] := List.length_eq_zero.mp (by omega)
    rw [if_pos hz]
    cases hn : s.fNameIn <;> simp [hnil]
  · rw [if_neg hz, hb]
    dsimp only
    rw [if_neg hlt, ht]
    cases hn : s.fNameIn <;> simp

theorem endAccess_mode_none {α : Type} (s s1 : FFTFileGrid α) (fs fs1 : FileSys α)
    (h : s.endAccess fs = Except.ok (s1, fs1)) : s1.accMode = AccMode.NONE := by
  unfold FFTFileGrid.endAccess at h
  split at h
  · simp only [Except.ok.injEq, Prod.mk.injEq] at h; rw [← h.1]
  · split at h
    · exact absurd h (by simp)
    · simp only [Except.ok.injEq, Prod.mk.injEq] at h; rw [← h.1]
  · split at h
    · split at h
      · exact absurd h (by simp)
      · simp only [Except.ok.injEq, Prod.mk.injEq] at h; rw [← h.1]
    · exact absurd h (by simp)
  · split at h
    · exact absurd h (by simp)
    · split at h
      · exact absurd h (by simp)
      · simp only [Except.ok.injEq, Prod.mk.injEq] at h; rw [← h.1]
  · split at h
    · split at h
      · exact absurd h (by simp)
      · simp only [Except.ok.injEq, Prod.mk.injEq] at h; rw [← h.1]
    · simp only [Except.ok.injEq, Prod.mk.injEq] at h; rw [← h.1]

theorem endAccess_from_none {α : Type} (s : FFTFileGrid α) (fs : FileSys α)
    (h : s.accMode = AccMode.NONE) : s.endAccess fs = Except.ok (s, fs) := by
  unfold FFTFileGrid.endAccess
  rw [h]
  dsimp only
  rw [← h]

theorem swapNames_ready {α : Type} (s : FFTFileGrid α)
    (h : s.fNameIn.isSome = true ∨ s.fNameOut.length + 2 ≤ 50) :
    ∃ s1, FFTFileGrid.swapNames s = Except.ok s1 := by
  unfold FFTFileGrid.swapNames
  cases hn : s.fNameIn with
  | some tmp => exact ⟨_, rfl⟩
  | none =>
    rw [hn] at h
    simp only [Option.isSome_none, Bool.false_eq_true, false_or] at h
    dsimp only
    rw [if_pos h]
    exact ⟨_, rfl⟩

theorem swapNames_not_assertion {α : Type} (s : FFTFileGrid α) :
    FFTFileGrid.swapNames s ≠ Except.error Fault.assertion := by
  unfold FFTFileGrid.swapNames
  split
  · simp
  · split <;> simp

theorem save_not_assertion {α : Type} (s : FFTFileGrid α) (fs : FileSys α)
    (hmode : s.accMode = AccMode.NONE ∨ s.accMode = AccMode.RANDOMACCESS) :
    s.save fs ≠ Except.error Fault.assertion := by
  unfold FFTFileGrid.save
  rw [if_pos hmode]
  dsimp only
  intro h
  split at h
  · rename_i e he
    simp only [Except.error.injEq] at h
    subst h
    split at he
    · exact absurd he (by simp)
    · split at he
      · exact absurd he (by simp)
      · split at he <;> exact absurd he (by simp)
  · exact absurd h (by simp)

theorem endAccess_ready {α : Type} (s : FFTFileGrid α) (fs : FileSys α)
    (h : s.SessionReady) : ∃ s1 fs1, s.endAccess fs = Except.ok (s1, fs1) := by
  unfold FFTFileGrid.SessionReady at h
  unfold FFTFileGrid.endAccess
  cases hm : s.accMode with
  | NONE => exact ⟨_, _, rfl⟩
  | READ =>
    rw [hm] at h
    dsimp only at h ⊢
    obtain ⟨x, hx⟩ := Option.isSome_iff_exists.mp h
    rw [hx]
    exact ⟨_, _, rfl⟩
  | WRITE =>
    rw [hm] at h
    dsimp only at h ⊢
    obtain ⟨x, hx⟩ := Option.isSome_iff_exists.mp h.1
    obtain ⟨s1, h1⟩ := swapNames_ready
      { s with outFile := none, accMode := AccMode.WRITE } h.2
    rw [hx]
    dsimp only
    rw [h1]
    exact ⟨_, _, rfl⟩
  | READANDWRITE =>
    rw [hm] at h
    dsimp only at h ⊢
    obtain ⟨x, hx⟩ := Option.isSome_iff_exists.mp h.1
    obtain ⟨y, hy⟩ := Option.isSome_iff_exists.mp h.2.1
    obtain ⟨s1, h1⟩ := swapNames_ready
      { s with inFile := none, outFile := none, accMode := AccMode.READANDWRITE } h.2.2
    rw [hx, hy]
    dsimp only
    rw [h1]
    exact ⟨_, _, rfl⟩
  | RANDOMACCESS =>
    rw [hm] at h
    dsimp only at h ⊢
    by_cases hmod : s.modified = 0
    · rw [if_neg (by simpa using hmod)]
      exact ⟨_, _, rfl⟩
    · rw [if_pos hmod]
      have hl : s.toFFTGrid.Loaded := h.resolve_left hmod
      obtain ⟨buf, hb, hlen⟩ := loaded_cases _ hl
      rw [save_loaded s fs buf (Or.inr hm) hb hlen]
      exact ⟨_, _, rfl⟩

/-- Where `endAccess` returns to `NONE`.  For every grid state, in every starting
access mode, whenever `endAccess` returns the access mode is `NONE` and a second
`endAccess` changes nothing; from `NONE` it always returns, with the grid (file
names, modified flag, buffer) and the files unchanged; it never fails an
assertion; and it does return from every session whose streams are open and
whose name fits (`SessionReady`). -/
theorem endAccess_returns_to_none {α : Type} (s : FFTFileGrid α) (fs : FileSys α) :
    (∀ s1 fs1, s.endAccess fs = Except.ok (s1, fs1) →
      s1.accMode = AccMode.NONE ∧ s1.endAccess fs1 = Except.ok (s1, fs1)) ∧
    (s.accMode = AccMode.NONE → s.endAccess fs = Except.ok (s, fs)) ∧
    (s.SessionReady → ∃ s1 fs1, s.endAccess fs = Except.ok (s1, fs1)) ∧
    s.endAccess fs ≠ Except.error Fault.assertion := by
  refine ⟨fun s1 fs1 h => ?_, endAccess_from_none s fs, endAccess_ready s fs, ?_⟩
  · have h1 := endAccess_mode_none s s1 fs fs1 h
    exact ⟨h1, endAccess_from_none s1 fs1 h1⟩
  · intro h
    unfold FFTFileGrid.endAccess at h
    split at h
    · exact absurd h (by simp)
    · split at h <;> exact absurd h (by simp)
    · split at h
      · split at h
        · rename_i e he
          simp only [Except.error.injEq] at h
          subst h
          exact swapNames_not_assertion _ he
        · exact absurd h (by simp)
      · exact absurd h (by simp)
    · split at h
      · exact absurd h (by simp)
      · split at h
        · rename_i e he
          simp only [Except.error.injEq] at h
          subst h
          exact swapNames_not_assertion _ he
        · exact absurd h (by simp)
    · rename_i hm
      split at h
      · split at h
        · rename_i e he
          simp only [Except.error.injEq] at h
          subst h
          exact save_not_assertion s fs (Or.inr hm) he
        · exact absurd h (by simp)
      · exact absurd h (by simp)

/-- The write session of `writingGrid` closes; closing `savedGrid`, already in mode `NONE`, changes nothing. -/
theorem endAccess_returns_to_none_witness :
    writingGrid.SessionReady ∧
    (∃ s1 fs1, writingGrid.endAccess [] = Except.ok (s1, fs1)) ∧
    savedGrid.accMode = AccMode.NONE ∧
    savedGrid.endAccess savedFiles = Except.ok (savedGrid, savedFiles) :=
  ⟨by decide, (endAccess_returns_to_none writingGrid []).2.2.1 (by decide), by decide,
    (endAccess_returns_to_none savedGrid savedFiles).2.1 (by decide)⟩

/-! ## Operations outside and inside a random-access session -/

theorem viaBase_outside_session {α β : Type} (junk : Nat → α)
    (base : FFTGrid α → Except Fault (FFTGrid α × β)) (s : FFTFileGrid α) (fs : FileSys α)
    (name : String) (b : List α) (hmode : s.accMode = AccMode.NONE)
    (hn : s.fNameIn = some name) (hf : fsRead fs name = some b)
    (hl : b.length = s.rsize.toNat) :
    FFTFileGrid.MatchesResident (base (s.resident b)) (FFTFileGrid.viaBase junk base s fs) := by
  have hne : s.accMode ≠ AccMode.RANDOMACCESS := by rw [hmode]; decide
  unfold FFTFileGrid.viaBase
  rw [if_pos (Or.inl hmode)]
  dsimp only
  rw [if_pos hne, load_saved junk s fs name b (Or.inl hmode) hn hf hl]
  dsimp only
  unfold FFTFileGrid.MatchesResident
  cases hb : base (s.resident b) with
  | error e => rfl
  | ok r =>
    obtain ⟨g1, out⟩ := r
    dsimp only
    intro hload
    obtain ⟨b1, hb1, hlen1⟩ := loaded_cases _ hload
    rw [if_pos hne]
    rw [save_loaded { s with toFFTGrid := g1, inFile := none } fs b1 (Or.inl hmode) hb1
      hlen1]
    dsimp only
    refine ⟨_, _, b1, rfl, hb1, rfl, hmode, fun junk1 => ?_⟩
    refine ⟨_, load_saved junk1 _ _ s.fNameOut b1 ?_ ?_ ?_ ?_, rfl⟩
    · exact Or.inl hmode
    · rfl
    · exact fsRead_fsWrite_same fs s.fNameOut b1
    · exact hlen1

/-- C4 (disk-backed equals memory-resident outside a session).  On a grid in
mode `NONE` whose input file holds a full buffer `b`, each of `square`,
`expTransf`, `logTransf`, `collapseAndAdd`, `fftInPlace`, `invFFTInPlace`,
`multiplyByScalar` and `fillInComplexNoise` matches the memory-resident
operation applied to the grid holding `b` (`MatchesResident`): it fails when
that fails, and otherwise leaves mode `NONE`, the buffer released, and files
from which the next `load` yields the memory-resident result. -/
theorem disk_equals_resident_outside_session {α ρ : Type} (B : BaseOps α ρ)
    (junk : Nat → α) (s : FFTFileGrid α) (fs : FileSys α) (name : String) (b : List α)
    (grid : List α) (scalar : α) (ranGen : ρ) (hmode : s.accMode = AccMode.NONE)
    (hn : s.fNameIn = some name) (hf : fsRead fs name = some b)
    (hl : b.length = s.rsize.toNat) :
    FFTFileGrid.MatchesResident (FFTFileGrid.plain B.square (s.resident b))
      (s.square B junk fs) ∧
    FFTFileGrid.MatchesResident (FFTFileGrid.plain B.expTransf (s.resident b))
      (s.expTransf B junk fs) ∧
    FFTFileGrid.MatchesResident (FFTFileGrid.plain B.logTransf (s.resident b))
      (s.logTransf B junk fs) ∧
    FFTFileGrid.MatchesResident (B.collapseAndAdd grid (s.resident b))
      (s.collapseAndAdd B junk grid fs) ∧
    FFTFileGrid.MatchesResident (FFTFileGrid.plain B.fftInPlace (s.resident b))
      (s.fftInPlace B junk fs) ∧
    FFTFileGrid.MatchesResident (FFTFileGrid.plain B.invFFTInPlace (s.resident b))
      (s.invFFTInPlace B junk fs) ∧
    FFTFileGrid.MatchesResident
      (FFTFileGrid.plain (B.multiplyByScalar scalar) (s.resident b))
      (s.multiplyByScalar B junk scalar fs) ∧
    FFTFileGrid.MatchesResident (B.fillInComplexNoise ranGen (s.resident b))
      (s.fillInComplexNoise B junk ranGen fs) :=
  ⟨viaBase_outside_session junk _ s fs name b hmode hn hf hl,
    viaBase_outside_session junk _ s fs name b hmode hn hf hl,
    viaBase_outside_session junk _ s fs name b hmode hn hf hl,
    viaBase_outside_session junk _ s fs name b hmode hn hf hl,
    viaBase_outside_session junk _ s fs name b hmode hn hf hl,
    viaBase_outside_session junk _ s fs name b hmode hn hf hl,
    viaBase_outside_session junk _ s fs name b hmode hn hf hl,
    viaBase_outside_session junk _ s fs name b hmode hn hf hl⟩

/-- On `savedGrid` with the example operations: `square` outside a session writes the squared samples to the other backing file and swaps the names. -/
theorem disk_equals_resident_outside_session_witness :
    savedGrid.accMode = AccMode.NONE ∧ savedGrid.fNameIn = some "tmpgrid0" ∧
    fsRead savedFiles "tmpgrid0" = some [10, 20, 30, 40] ∧
    [10, 20, 30, 40].length = savedGrid.rsize.toNat ∧
    FFTFileGrid.MatchesResident
      (FFTFileGrid.plain demoOps.square (savedGrid.resident [10, 20, 30, 40]))
      (savedGrid.square demoOps (fun _ => 0) savedFiles) ∧
    FFTFileGrid.MatchesResident
      (FFTFileGrid.plain demoOps.fftInPlace (savedGrid.resident [10, 20, 30, 40]))
      (savedGrid.fftInPlace demoOps (fun _ => 0) savedFiles) ∧
    savedGrid.square demoOps (fun _ => 0) savedFiles =
      Except.ok ((), { savedGrid with fNameIn := some "tmpgrid0b", fNameOut := "tmpgrid0" },
        [("tmpgrid0b", [100, 400, 900, 1600]), ("tmpgrid0", [10, 20, 30, 40])]) :=
  have h := disk_equals_resident_outside_session demoOps (fun _ => 0) savedGrid savedFiles
    "tmpgrid0" [10, 20, 30, 40] [0] 3 0 (by decide) (by decide) (by decide) (by decide)
  ⟨by decide, by decide, by decide, by decide, h.1, h.2.2.2.2.1, by decide⟩

theorem viaBase_in_session {α β : Type} (junk : Nat → α)
    (base : FFTGrid α → Except Fault (FFTGrid α × β)) (s : FFTFileGrid α) (fs : FileSys α)
    (hmode : s.accMode = AccMode.RANDOMACCESS) :
    FFTFileGrid.Deferred s fs (base s.toFFTGrid) (FFTFileGrid.viaBase junk base s fs) := by
  have hnn : ¬ s.accMode ≠ AccMode.RANDOMACCESS := by simp [hmode]
  unfold FFTFileGrid.viaBase
  rw [if_pos (Or.inr hmode)]
  dsimp only
  rw [if_neg hnn]
  dsimp only
  unfold FFTFileGrid.Deferred
  cases hb : base s.toFFTGrid with
  | error e => rfl
  | ok r =>
    obtain ⟨g1, out⟩ := r
    dsimp only
    rw [if_neg hnn]
    exact ⟨_, rfl, rfl, rfl, rfl, rfl, rfl⟩

theorem combine_in_session {α σ : Type} (A : GridArg σ α) (f : α → α → α) (junk : Nat → α)
    (s : FFTFileGrid α) (fftGrid : σ) (fs : FileSys α)
    (hmode : s.accMode = AccMode.RANDOMACCESS) (s1 : FFTFileGrid α) (a1 : σ)
    (fs1 : FileSys α)
    (h : FFTFileGrid.combine A f junk s fftGrid fs = Except.ok (s1, a1, fs1)) :
    s1.modified = 1 ∧ fs1 = fs ∧ s1.fNameIn = s.fNameIn ∧ s1.fNameOut = s.fNameOut ∧
      s1.accMode = s.accMode := by
  have hnn : ¬ s.accMode ≠ AccMode.RANDOMACCESS := by simp [hmode]
  unfold FFTFileGrid.combine at h
  rw [if_pos (Or.inr hmode)] at h
  dsimp only at h
  rw [if_neg hnn] at h
  dsimp only at h
  repeat' (split at h)
  all_goals first
    | (simp only [Except.ok.injEq, Prod.mk.injEq] at h
       obtain ⟨h1, -, h3⟩ := h
       rw [← h1, ← h3]
       exact ⟨rfl, rfl, rfl, rfl, rfl⟩)
    | exact absurd (by assumption) hnn
    | (simp at h)

/-- C10 (deferred write inside a random-access session).  In mode
`RANDOMACCESS` each of `square`, `expTransf`, `logTransf`, `collapseAndAdd`,
`fftInPlace`, `invFFTInPlace`, `multiplyByScalar` and `fillInComplexNoise` runs
the memory-resident operation on the buffer in memory and returns with the
modified flag set and the files, both file names and the access mode unchanged
(`Deferred`); so do `add` and `multiply` whenever they return.  `endAccess` from
`RANDOMACCESS` leaves the files untouched and only releases the buffer when the
modified flag is zero, and otherwise is `save`: it writes the loaded buffer to
the output file. -/
theorem deferred_write_in_session {α ρ σ : Type} [Add α] [Mul α] (B : BaseOps α ρ)
    (A : GridArg σ α) (junk : Nat → α) (s : FFTFileGrid α) (fs : FileSys α) (grid : List α)
    (scalar : α) (ranGen : ρ) (fftGrid : σ) (hmode : s.accMode = AccMode.RANDOMACCESS) :
    FFTFileGrid.Deferred s fs (FFTFileGrid.plain B.square s.toFFTGrid) (s.square B junk fs) ∧
    FFTFileGrid.Deferred s fs (FFTFileGrid.plain B.expTransf s.toFFTGrid)
      (s.expTransf B junk fs) ∧
    FFTFileGrid.Deferred s fs (FFTFileGrid.plain B.logTransf s.toFFTGrid)
      (s.logTransf B junk fs) ∧
    FFTFileGrid.Deferred s fs (B.collapseAndAdd grid s.toFFTGrid)
      (s.collapseAndAdd B junk grid fs) ∧
    FFTFileGrid.Deferred s fs (FFTFileGrid.plain B.fftInPlace s.toFFTGrid)
      (s.fftInPlace B junk fs) ∧
    FFTFileGrid.Deferred s fs (FFTFileGrid.plain B.invFFTInPlace s.toFFTGrid)
      (s.invFFTInPlace B junk fs) ∧
    FFTFileGrid.Deferred s fs (FFTFileGrid.plain (B.multiplyByScalar scalar) s.toFFTGrid)
      (s.multiplyByScalar B junk scalar fs) ∧
    FFTFileGrid.Deferred s fs (B.fillInComplexNoise ranGen s.toFFTGrid)
      (s.fillInComplexNoise B junk ranGen fs) ∧
    (∀ s1 a1 fs1, s.add A junk fftGrid fs = Except.ok (s1, a1, fs1) →
      s1.modified = 1 ∧ fs1 = fs ∧ s1.fNameIn = s.fNameIn ∧ s1.fNameOut = s.fNameOut ∧
        s1.accMode = s.accMode) ∧
    (∀ s1 a1 fs1, s.multiply A junk fftGrid fs = Except.ok (s1, a1, fs1) →
      s1.modified = 1 ∧ fs1 = fs ∧ s1.fNameIn = s.fNameIn ∧ s1.fNameOut = s.fNameOut ∧
        s1.accMode = s.accMode) ∧
    (s.modified = 0 →
      s.endAccess fs = Except.ok ({ s.unload with accMode := AccMode.NONE }, fs)) ∧
    (s.modified ≠ 0 →
      s.endAccess fs =
        match s.save fs with
        | Except.error e => Except.error e
        | Except.ok (s1, fs1) => Except.ok ({ s1 with accMode := AccMode.NONE }, fs1)) ∧
    (s.modified ≠ 0 → s.toFFTGrid.Loaded →
      ∃ buf s1, s.rvalue = some buf ∧
        s.endAccess fs = Except.ok (s1, fsWrite fs s.fNameOut buf) ∧
        s1.rvalue = none ∧ s1.accMode = AccMode.NONE) := by
  refine ⟨viaBase_in_session junk _ s fs hmode, viaBase_in_session junk _ s fs hmode,
    viaBase_in_session junk _ s fs hmode, viaBase_in_session junk _ s fs hmode,
    viaBase_in_session junk _ s fs hmode, viaBase_in_session junk _ s fs hmode,
    viaBase_in_session junk _ s fs hmode, viaBase_in_session junk _ s fs hmode,
    fun s1 a1 fs1 h => combine_in_session A _ junk s fftGrid fs hmode s1 a1 fs1 h,
    fun s1 a1 fs1 h => combine_in_session A _ junk s fftGrid fs hmode s1 a1 fs1 h,
    endAccess_unmodified s fs hmode, ?_, ?_⟩
  · intro hmod
    simp only [FFTFileGrid.endAccess, hmode, hmod, ne_eq, not_false_eq_true, if_true]
  · intro hmod hload
    obtain ⟨buf, hb, hlen⟩ := loaded_cases _ hload
    refine ⟨buf, { FFTFileGrid.unload { s with outFile := none } with
                    fNameIn := some s.fNameOut
                    fNameOut := s.fNameIn.getD (FFTFileGrid.bName s.fNameOut)
                    accMode := AccMode.NONE }, hb, ?_, rfl, rfl⟩
    have hE : s.endAccess fs =
        match s.save fs with
        | Except.error e => Except.error e
        | Except.ok (s1, fs1) => Except.ok ({ s1 with accMode := AccMode.NONE }, fs1) := by
      simp only [FFTFileGrid.endAccess, hmode, hmod, ne_eq, not_false_eq_true, if_true]
    rw [hE, save_loaded s fs buf (Or.inr hmode) hb hlen]

/-- In the session of `openGrid`: `add` of `otherGrid` changes the buffer in memory only and sets the modified flag. -/
theorem deferred_write_in_session_witness :
    openGrid.accMode = AccMode.RANDOMACCESS ∧
    openGrid.add (fileArg (fun _ => 0) twoFiles) (fun _ => 0) otherGrid twoFiles =
      Except.ok ({ openGrid with rvalue := some [11, 22, 33, 44], modified := 1 },
        otherGrid, twoFiles) ∧
    FFTFileGrid.Deferred openGrid twoFiles
      (FFTFileGrid.plain demoOps.square openGrid.toFFTGrid)
      (openGrid.square demoOps (fun _ => 0) twoFiles) ∧
    (({ openGrid with rvalue := some [11, 22, 33, 44], modified := 1 } :
        FFTFileGrid Int).modified = 1 ∧
      twoFiles = twoFiles ∧
      ({ openGrid with rvalue := some [11, 22, 33, 44], modified := 1 } :
        FFTFileGrid Int).fNameIn = openGrid.fNameIn ∧
      ({ openGrid with rvalue := some [11, 22, 33, 44], modified := 1 } :
        FFTFileGrid Int).fNameOut = openGrid.fNameOut ∧
      ({ openGrid with rvalue := some [11, 22, 33, 44], modified := 1 } :
        FFTFileGrid Int).accMode = openGrid.accMode) ∧
    openGrid.endAccess twoFiles =
      Except.ok ({ openGrid.unload with accMode := AccMode.NONE }, twoFiles) :=
  have h := deferred_write_in_session demoOps (fileArg (fun _ => 0) twoFiles) (fun _ => 0)
    openGrid twoFiles [0] 3 0 otherGrid (by decide)
  have hadd : openGrid.add (fileArg (fun _ => 0) twoFiles) (fun _ => 0) otherGrid twoFiles =
      Except.ok ({ openGrid with rvalue := some [11, 22, 33, 44], modified := 1 },
        otherGrid, twoFiles) := by decide
  ⟨by decide, hadd, h.1, h.2.2.2.2.2.2.2.2.1 _ _ _ hadd,
    h.2.2.2.2.2.2.2.2.2.2.1 (by decide)⟩

/-! ## File-name ping-pong -/

theorem bName_ne (name : String) : FFTFileGrid.bName name ≠ name := by
  intro h
  have hl := congrArg String.length h
  simp only [FFTFileGrid.bName, String.length_append] at hl
  have hb : "b".length = 1 := by decide
  omega

theorem swapNames_names {α : Type} (s s1 : FFTFileGrid α)
    (h : FFTFileGrid.swapNames s = Except.ok s1) :
    s1.fNameIn = some s.fNameOut ∧
      s1.fNameOut = s.fNameIn.getD (FFTFileGrid.bName s.fNameOut) := by
  unfold FFTFileGrid.swapNames at h
  split at h
  · rename_i tmp htmp
    simp only [Except.ok.injEq] at h
    rw [← h, htmp]
    exact ⟨rfl, rfl⟩
  · rename_i htmp
    split at h
    · simp only [Except.ok.injEq] at h
      rw [← h, htmp]
      exact ⟨rfl, rfl⟩
    · exact absurd h (by simp)

theorem save_names {α : Type} (s s1 : FFTFileGrid α) (fs fs1 : FileSys α)
    (h : s.save fs = Except.ok (s1, fs1)) :
    s1.fNameIn = some s.fNameOut ∧
      s1.fNameOut = s.fNameIn.getD (FFTFileGrid.bName s.fNameOut) ∧
      ∃ file, fs1 = fsWrite fs s.fNameOut file := by
  unfold FFTFileGrid.save at h
  split at h
  · dsimp only at h
    split at h
    · exact absurd h (by simp)
    · rename_i file hfile
      split at h <;>
        (rename_i htmp
         simp only [Except.ok.injEq, Prod.mk.injEq] at h
         rw [← h.1, ← h.2, htmp]
         exact ⟨rfl, rfl, file, rfl⟩)
  · exact absurd h (by simp)

theorem endAccess_names {α : Type} (s s1 : FFTFileGrid α) (fs fs1 : FileSys α)
    (hmode : s.accMode = AccMode.WRITE ∨ s.accMode = AccMode.READANDWRITE)
    (h : s.endAccess fs = Except.ok (s1, fs1)) :
    s1.fNameIn = some s.fNameOut ∧
      s1.fNameOut = s.fNameIn.getD (FFTFileGrid.bName s.fNameOut) ∧ fs1 = fs := by
  unfold FFTFileGrid.endAccess at h
  rcases hmode with hm | hm
  · rw [hm] at h
    dsimp only at h
    split at h
    · exact absurd h (by simp)
    · split at h
      · exact absurd h (by simp)
      · rename_i t ht
        simp only [Except.ok.injEq, Prod.mk.injEq] at h
        obtain ⟨h1, h2⟩ := swapNames_names _ _ ht
        rw [← h.1, ← h.2]
        exact ⟨h1, h2, rfl⟩
  · rw [hm] at h
    dsimp only at h
    split at h
    · split at h
      · exact absurd h (by simp)
      · rename_i t ht
        simp only [Except.ok.injEq, Prod.mk.injEq] at h
        obtain ⟨h1, h2⟩ := swapNames_names _ _ ht
        rw [← h.1, ← h.2]
        exact ⟨h1, h2, rfl⟩
    · exact absurd h (by simp)

theorem swapped_distinct (fin : Option String) (fout : String) (h : fin ≠ some fout) :
    some fout ≠ some (fin.getD (FFTFileGrid.bName fout)) := by
  cases fin with
  | none =>
    simp only [Option.getD_none, ne_eq, Option.some.injEq]
    exact fun e => bName_ne fout e.symm
  | some t =>
    simp only [Option.getD_some, ne_eq, Option.some.injEq]
    exact fun e => h (by rw [e])

/-- File-name ping-pong wherever the swap completes: after `save`, and after an
`endAccess` that closes a `WRITE` or `READANDWRITE` session, the new input name
is the old output name, the new output name is the old input name or, if there
was none, the old output name followed by `b`; the two new names differ when the
old ones did; and after `save` of a loaded buffer the file under the new input
name holds that buffer. -/
theorem pingpong_when_complete {α : Type} (s s1 : FFTFileGrid α) (fs fs1 : FileSys α) :
    (s.save fs = Except.ok (s1, fs1) ∨
      ((s.accMode = AccMode.WRITE ∨ s.accMode = AccMode.READANDWRITE) ∧
        s.endAccess fs = Except.ok (s1, fs1)) →
      s1.fNameIn = some s.fNameOut ∧
      s1.fNameOut = s.fNameIn.getD (FFTFileGrid.bName s.fNameOut) ∧
      (s.fNameIn ≠ some s.fNameOut → s1.fNameIn ≠ some s1.fNameOut)) ∧
    (∀ buf, s.save fs = Except.ok (s1, fs1) → s.rvalue = some buf →
      buf.length = s.rsize.toNat →
      ∃ name, s1.fNameIn = some name ∧ fsRead fs1 name = some buf) := by
  constructor
  · intro h
    have hn : s1.fNameIn = some s.fNameOut ∧
        s1.fNameOut = s.fNameIn.getD (FFTFileGrid.bName s.fNameOut) := by
      rcases h with h | ⟨hm, h⟩
      · exact ⟨(save_names s s1 fs fs1 h).1, (save_names s s1 fs fs1 h).2.1⟩
      · exact ⟨(endAccess_names s s1 fs fs1 hm h).1, (endAccess_names s s1 fs fs1 hm h).2.1⟩
    refine ⟨hn.1, hn.2, fun hd => ?_⟩
    rw [hn.1, hn.2]
    exact swapped_distinct _ _ hd
  · intro buf h hb hl
    have hmode : s.accMode = AccMode.NONE ∨ s.accMode = AccMode.RANDOMACCESS := by
      unfold FFTFileGrid.save at h
      by_contra hc
      rw [if_neg hc] at h
      exact absurd h (by simp)
    rw [save_loaded s fs buf hmode hb hl] at h
    simp only [Except.ok.injEq, Prod.mk.injEq] at h
    refine ⟨s.fNameOut, ?_, ?_⟩
    · rw [← h.1]
    · rw [← h.2]; exact fsRead_fsWrite_same fs s.fNameOut buf

/-- C11 (file-name ping-pong), evaluated where the code misses it: closing the
first sequential write session of a grid (no input file yet) whose output name
is longer than 48 characters, `endAccess` prints the name and the appended `b`
into a block of 50 bytes, which is undefined behaviour, so no new pair of names
results.  `save` sizes the block by the name and has no such limit. -/
theorem endAccess_first_write_name_overrun {α : Type} (s : FFTFileGrid α) (fs : FileSys α)
    (name : String) (hmode : s.accMode = AccMode.WRITE) (hout : s.outFile = some name)
    (hfirst : s.fNameIn = none) (hlong : 50 < s.fNameOut.length + 2) :
    s.endAccess fs = Except.error Fault.undefined := by
  have hl : ¬ s.fNameOut.length + 2 ≤ 50 := by omega
  rw [endAccess_write_eq s fs name hmode hout]
  simp only [FFTFileGrid.swapNames, hfirst, hl, if_false]

/-- Closing the first write session of `longWritingGrid` (a 49-character name)
does not complete. -/
theorem endAccess_first_write_name_overrun_witness :
    longWritingGrid.accMode = AccMode.WRITE ∧
    longWritingGrid.outFile = some "/home/crava/projects/north/run1/output/tmpgrid123" ∧
    longWritingGrid.fNameIn = none ∧ 50 < longWritingGrid.fNameOut.length + 2 ∧
    longWritingGrid.endAccess [] = Except.error Fault.undefined :=
  ⟨by decide, by decide, by decide, by decide,
    endAccess_first_write_name_overrun longWritingGrid []
      "/home/crava/projects/north/run1/output/tmpgrid123" (by decide) (by decide)
      (by decide) (by decide)⟩

/-! ## Random-access reads and the frame of a write -/

theorem get?_set_same {α : Type} (l : List α) (n : Nat) (v : α) (h : n < l.length) :
    (l.set n v).get? n = some v := by
  simp [List.getElem?_set, h]

theorem get?_set_other {α : Type} (l : List α) (n p : Nat) (v : α) (h : p ≠ n) :
    (l.set n v).get? p = l.get? p := by
  simp [List.getElem?_set, h.symm]

theorem getRealValue32_eq_of_fits {α : Type} (s : FFTFileGrid α) (i j k : Int)
    (h : s.IndexFits i j k) : s.getRealValue32 i j k = s.getRealValue i j k := by
  unfold FFTFileGrid.getRealValue32 FFTFileGrid.getRealValue
  rw [index32_eq_of_fits s i j k h]

/-- Two reads on `openGrid` outside the logical extents: the index `(-1,0,0)`
maps to position -1, before the start of the buffer; and for the index
`(0,0,2^30)` the product `k*rnxp_*nyp_ = 2^32` does not fit an `int`, the `int`
position wraps to 0 while the exact one is `2^32`, and the read returns cell 0
of the buffer, the sample 10 of the index `(0,0,0)`. -/
theorem getRealValue_negative_and_overflowing :
    openGrid.toFFTGrid.Outside (-1) 0 0 ∧ openGrid.IndexFits (-1) 0 0 ∧
    openGrid.index32 (-1) 0 0 = -1 ∧
    openGrid.getRealValue32 (-1) 0 0 = Except.error Fault.undefined ∧
    openGrid.toFFTGrid.Outside 0 0 1073741824 ∧
    FitsInt 1073741824 ∧ ¬ openGrid.IndexFits 0 0 1073741824 ∧
    openGrid.index 0 0 1073741824 = 4294967296 ∧ openGrid.index32 0 0 1073741824 = 0 ∧
    openGrid.getRealValue32 0 0 1073741824 = Except.ok 10 := by
  decide

/-- C15, as the code has it.  `createRealGrid` and `createComplexGrid` have no
failing path and do not look at the access mode: in every mode, with a session
open or not, they set the domain flag to spatial and to frequency respectively
and leave every other member as it was. -/
theorem create_sets_domain_flag {α : Type} (s : FFTFileGrid α) :
    s.createRealGrid = { s with istransformed := false } ∧
    s.createComplexGrid = { s with istransformed := true } ∧
    s.createRealGrid.istransformed = false ∧ s.createComplexGrid.istransformed = true ∧
    s.createRealGrid.accMode = s.accMode ∧ s.createComplexGrid.accMode = s.accMode :=
  ⟨rfl, rfl, rfl, rfl, rfl, rfl⟩

/-- In the open random-access session of `openGrid`, a spatial grid,
`createComplexGrid` returns and the domain flag has changed. -/
theorem create_in_open_session :
    openGrid.accMode = AccMode.RANDOMACCESS ∧ openGrid.istransformed = false ∧
    openGrid.createComplexGrid.istransformed = true ∧
    openGrid.createComplexGrid.istransformed ≠ openGrid.istransformed := by
  decide

/-! ## Elementwise algebra: the shape check -/

theorem load_ok_fields {α : Type} (junk : Nat → α) (s s1 : FFTFileGrid α) (fs : FileSys α)
    (h : s.load junk fs = Except.ok s1) :
    s1.nxp = s.nxp ∧ s1.rsize = s.rsize ∧ s1.csize = s.csize ∧
      s1.istransformed = s.istransformed ∧ s1.accMode = s.accMode ∧
      s1.fNameIn = s.fNameIn ∧ s1.fNameOut = s.fNameOut := by
  unfold FFTFileGrid.load at h
  split at h
  · dsimp only at h
    split at h
    · simp only [Except.ok.injEq] at h
      rw [← h]
      cases hd : s.istransformed <;>
        simp [FFTGrid.createRealGrid, FFTGrid.createComplexGrid, hd]
    · split at h
      · exact absurd h (by simp)
      · simp only [Except.ok.injEq] at h
        rw [← h]
        cases hd : s.istransformed <;>
          simp [FFTGrid.createRealGrid, FFTGrid.createComplexGrid, hd]
  · exact absurd h (by simp)

theorem combine_nxp_mismatch {α σ : Type} (A : GridArg σ α) (f : α → α → α)
    (junk : Nat → α) (s : FFTFileGrid α) (fftGrid : σ) (fs : FileSys α)
    (hn : s.nxp ≠ A.getNxp fftGrid) (hp : s.accMode = AccMode.NONE → s.InputPresent fs) :
    FFTFileGrid.combine A f junk s fftGrid fs = Except.error Fault.assertion := by
  unfold FFTFileGrid.combine
  by_cases hm : s.accMode = AccMode.NONE ∨ s.accMode = AccMode.RANDOMACCESS
  · rw [if_pos hm]
    dsimp only
    by_cases hr : s.accMode = AccMode.RANDOMACCESS
    · rw [if_neg (by simpa using hr)]
      dsimp only
      rw [if_neg hn]
    · have hnone : s.accMode = AccMode.NONE := hm.resolve_right hr
      rw [if_pos hr]
      obtain ⟨s1, h1, -⟩ := load_total junk s fs hm (hp hnone)
      have hx := (load_ok_fields junk s s1 fs h1).1
      rw [h1]
      dsimp only
      rw [if_neg (by rw [hx]; exact hn)]
  · rw [if_neg hm]

/-- C13, as the code has it.  `add` and `multiply` compare `nxp_` only: whenever
the argument grid's `nxp` differs from the receiver's they fail with a
precondition violation, in every access mode, before the argument grid is
opened and without handing back a changed receiver (outside a session the
receiver's input file, if it has one, must exist for `load` to complete). -/
theorem algebra_checks_nxp {α σ : Type} [Add α] [Mul α] (A : GridArg σ α)
    (junk : Nat → α) (s : FFTFileGrid α) (fftGrid : σ) (fs : FileSys α)
    (hn : s.nxp ≠ A.getNxp fftGrid) (hp : s.accMode = AccMode.NONE → s.InputPresent fs) :
    s.add A junk fftGrid fs = Except.error Fault.assertion ∧
    s.multiply A junk fftGrid fs = Except.error Fault.assertion :=
  ⟨combine_nxp_mismatch A _ junk s fftGrid fs hn hp,
    combine_nxp_mismatch A _ junk s fftGrid fs hn hp⟩

/-- With `tallGrid` widened to `nxp = 4`, `add` and `multiply` on `savedGrid`
(`nxp = 2`) fail their assertion. -/
theorem algebra_checks_nxp_witness :
    savedGrid.nxp ≠ (fileArg (fun _ => 0) tallFiles).getNxp { tallGrid with nxp := 4 } ∧
    savedGrid.InputPresent tallFiles ∧
    savedGrid.add (fileArg (fun _ => 0) tallFiles) (fun _ => 0) { tallGrid with nxp := 4 }
      tallFiles = Except.error Fault.assertion ∧
    savedGrid.multiply (fileArg (fun _ => 0) tallFiles) (fun _ => 0)
      { tallGrid with nxp := 4 } tallFiles = Except.error Fault.assertion :=
  ⟨by decide, by decide,
    algebra_checks_nxp (fileArg (fun _ => 0) tallFiles) (fun _ => 0) savedGrid
      { tallGrid with nxp := 4 } tallFiles (by decide) (fun _ => by decide)⟩

/-- A difference in `nyp` alone is not a precondition violation: `add` of
`tallGrid` (padded 2 x 2 x 1) to `openGrid` (padded 2 x 1 x 1) returns, and the
receiver's samples have changed. -/
theorem add_accepts_other_nyp :
    tallGrid.nyp ≠ openGrid.nyp ∧ tallGrid.nxp = openGrid.nxp ∧
    openGrid.add (fileArg (fun _ => 0) tallFiles) (fun _ => 0) tallGrid tallFiles =
      Except.ok ({ openGrid with rvalue := some [11, 22, 33, 44], modified := 1 },
        tallGrid, tallFiles) := by
  decide

/-! ## Elementwise algebra: the samples -/

theorem realLoop_spec {α σ : Type} (A : GridArg σ α) (f : α → α → α) :
    ∀ (n i : Nat) (b : List α) (a : σ) (vs : List α) (a2 : σ),
      A.readReals n a = Except.ok (vs, a2) → i + n ≤ b.length →
      ∃ b1, FFTFileGrid.realLoop A f n i (some b) a = Except.ok (some b1, a2) ∧
        b1.length = b.length ∧
        (∀ p, p < i ∨ i + n ≤ p → b1.get? p = b.get? p) ∧
        (∀ q, q < n → ∃ x v, b.get? (i + q) = some x ∧ vs.get? q = some v ∧
          b1.get? (i + q) = some (f x v)) := by
  intro n
  induction n with
  | zero =>
    intro i b a vs a2 hr _
    simp only [GridArg.readReals, Except.ok.injEq, Prod.mk.injEq] at hr
    refine ⟨b, ?_, rfl, fun p _ => rfl, fun q hq => absurd hq (Nat.not_lt_zero q)⟩
    rw [← hr.2]; rfl
  | succ n ih =>
    intro i b a vs a2 hr hlen
    unfold GridArg.readReals at hr
    split at hr
    · exact absurd hr (by simp)
    · rename_i v a1 hv
      split at hr
      · exact absurd hr (by simp)
      · rename_i vs1 a3 hvs
        simp only [Except.ok.injEq, Prod.mk.injEq] at hr
        obtain ⟨hvs_eq, ha⟩ := hr
        subst ha
        have hi : i < b.length := by omega
        have hx : b.get? i = some (b.get ⟨i, hi⟩) := List.get?_eq_get hi
        obtain ⟨b1, h1, h2, h3, h4⟩ := ih (i + 1) (b.set i (f (b.get ⟨i, hi⟩) v)) a1 vs1 a3 hvs
          (by rw [List.length_set]; omega)
        refine ⟨b1, ?_, ?_, ?_, ?_⟩
        · unfold FFTFileGrid.realLoop
          rw [hv]
          dsimp only
          rw [hx]
          exact h1
        · rw [h2, List.length_set]
        · intro p hp
          rw [h3 p (by omega)]
          exact get?_set_other b i p _ (by omega)
        · intro q hq
          cases q with
          | zero =>
            refine ⟨b.get ⟨i, hi⟩, v, hx, by rw [← hvs_eq]; rfl, ?_⟩
            rw [Nat.add_zero, h3 i (by omega)]
            exact get?_set_same b i _ hi
          | succ q =>
            obtain ⟨x, w, hx1, hw, hb1⟩ := h4 q (by omega)
            have e : i + (q + 1) = i + 1 + q := by omega
            refine ⟨x, w, ?_, by rw [← hvs_eq]; exact hw, by rw [e]; exact hb1⟩
            rw [e, ← hx1]
            exact (get?_set_other b i (i + 1 + q) _ (by omega)).symm

theorem complexLoop_spec {α σ : Type} (A : GridArg σ α) (f : α → α → α) :
    ∀ (n i : Nat) (b : List α) (a : σ) (cs : List (α × α)) (a2 : σ),
      A.readComplexes n a = Except.ok (cs, a2) → 2 * (i + n) ≤ b.length →
      ∃ b1, FFTFileGrid.complexLoop A f n i (some b) a = Except.ok (some b1, a2) ∧
        b1.length = b.length ∧
        (∀ p, p < 2 * i ∨ 2 * (i + n) ≤ p → b1.get? p = b.get? p) ∧
        (∀ q, q < n → ∃ re im c, b.get? (2 * (i + q)) = some re ∧
          b.get? (2 * (i + q) + 1) = some im ∧ cs.get? q = some c ∧
          b1.get? (2 * (i + q)) = some (f re c.1) ∧
          b1.get? (2 * (i + q) + 1) = some (f im c.2)) := by
  intro n
  induction n with
  | zero =>
    intro i b a cs a2 hr _
    simp only [GridArg.readComplexes, Except.ok.injEq, Prod.mk.injEq] at hr
    refine ⟨b, ?_, rfl, fun p _ => rfl, fun q hq => absurd hq (Nat.not_lt_zero q)⟩
    rw [← hr.2]; rfl
  | succ n ih =>
    intro i b a cs a2 hr hlen
    unfold GridArg.readComplexes at hr
    split at hr
    · exact absurd hr (by simp)
    · rename_i c a1 hc
      split at hr
      · exact absurd hr (by simp)
      · rename_i cs1 a3 hcs
        simp only [Except.ok.injEq, Prod.mk.injEq] at hr
        obtain ⟨hcs_eq, ha⟩ := hr
        subst ha
        have hi0 : 2 * i < b.length := by omega
        have hi1 : 2 * i + 1 < b.length := by omega
        have hre : b.get? (2 * i) = some (b.get ⟨2 * i, hi0⟩) := List.get?_eq_get hi0
        have him : b.get? (2 * i + 1) = some (b.get ⟨2 * i + 1, hi1⟩) := List.get?_eq_get hi1
        have hl2 : ((b.set (2 * i) (f (b.get ⟨2 * i, hi0⟩) c.1)).set (2 * i + 1)
            (f (b.get ⟨2 * i + 1, hi1⟩) c.2)).length = b.length := by
          rw [List.length_set, List.length_set]
        obtain ⟨b1, h1, h2, h3, h4⟩ := ih (i + 1)
          ((b.set (2 * i) (f (b.get ⟨2 * i, hi0⟩) c.1)).set (2 * i + 1)
            (f (b.get ⟨2 * i + 1, hi1⟩) c.2)) a1 cs1 a3 hcs (by rw [hl2]; omega)
        have hkeep : ∀ p, p ≠ 2 * i → p ≠ 2 * i + 1 →
            ((b.set (2 * i) (f (b.get ⟨2 * i, hi0⟩) c.1)).set (2 * i + 1)
              (f (b.get ⟨2 * i + 1, hi1⟩) c.2)).get? p = b.get? p := by
          intro p hp0 hp1
          rw [get?_set_other _ _ p _ hp1, get?_set_other _ _ p _ hp0]
        refine ⟨b1, ?_, ?_, ?_, ?_⟩
        · unfold FFTFileGrid.complexLoop
          rw [hc]
          dsimp only
          rw [hre, him]
          exact h1
        · rw [h2, hl2]
        · intro p hp
          rw [h3 p (by omega)]
          exact hkeep p (by omega) (by omega)
        · intro q hq
          cases q with
          | zero =>
            refine ⟨b.get ⟨2 * i, hi0⟩, b.get ⟨2 * i + 1, hi1⟩, c, hre, him,
              by rw [← hcs_eq]; rfl, ?_, ?_⟩
            · show b1.get? (2 * i) = _
              rw [h3 (2 * i) (by omega), get?_set_other _ _ (2 * i) _ (by omega)]
              exact get?_set_same b (2 * i) _ hi0
            · show b1.get? (2 * i + 1) = _
              rw [h3 (2 * i + 1) (by omega)]
              exact get?_set_same _ (2 * i + 1) _ (by rw [List.length_set]; exact hi1)
          | succ q =>
            obtain ⟨re, im, d, hre1, him1, hd, hb0, hb1⟩ := h4 q (by omega)
            have e : i + (q + 1) = i + 1 + q := by omega
            refine ⟨re, im, d, ?_, ?_, by rw [← hcs_eq]; exact hd, by rw [e]; exact hb0,
              by rw [e]; exact hb1⟩
            · rw [e, ← hre1]
              exact (hkeep _ (by omega) (by omega)).symm
            · rw [e, ← him1]
              exact (hkeep _ (by omega) (by omega)).symm

theorem combine_samples {α σ : Type} (A : GridArg σ α) (f : α → α → α) (junk : Nat → α)
    (s : FFTFileGrid α) (fftGrid a1 a2 a3 : σ) (fs : FileSys α) (b b1 : List α)
    (hold : s.Holds fs b) (hlen : b.length = s.rsize.toNat)
    (hn : s.nxp = A.getNxp fftGrid)
    (hopen : A.setAccessMode AccMode.READ fftGrid = Except.ok a1)
    (hloop : (if s.istransformed = true then
        FFTFileGrid.complexLoop A f s.csize.toNat 0 (some b) a1
      else FFTFileGrid.realLoop A f s.rsize.toNat 0 (some b) a1) = Except.ok (some b1, a2))
    (hlen1 : b1.length = b.length) (hclose : A.endAccess a2 = Except.ok a3) :
    ∃ s1 fs1, FFTFileGrid.combine A f junk s fftGrid fs = Except.ok (s1, a3, fs1) ∧
      s1.Holds fs1 b1 ∧ s1.accMode = s.accMode ∧ s1.istransformed = s.istransformed := by
  rcases hold with ⟨hm, hb, hc⟩ | ⟨hm, name, hname, hfile⟩
  · have hnn : ¬ s.accMode ≠ AccMode.RANDOMACCESS := by simp [hm]
    have hcond : ¬ (s.istransformed = true ∧ s.cvalue = false) := by simp [hc]
    refine ⟨{ s with modified := 1, rvalue := some b1 }, fs, ?_, Or.inl ⟨hm, rfl, hc⟩, rfl, rfl⟩
    unfold FFTFileGrid.combine
    rw [if_pos (Or.inr hm)]
    dsimp only
    rw [if_neg hnn]
    dsimp only
    rw [if_pos hn, hopen]
    dsimp only
    rw [hc, hb, if_pos rfl, hloop]
    dsimp only
    rw [hclose]
    dsimp only
    rw [if_neg hnn, if_neg (by simp)]
  · have hne : s.accMode ≠ AccMode.RANDOMACCESS := by rw [hm]; decide
    refine ⟨{ FFTFileGrid.unload { s with toFFTGrid := { s.resident b with rvalue := some b1 },
                                          inFile := none, outFile := none } with
              fNameIn := some s.fNameOut
              fNameOut := name },
      fsWrite fs s.fNameOut b1, ?_,
      Or.inr ⟨hm, s.fNameOut, rfl, fsRead_fsWrite_same fs s.fNameOut b1⟩, rfl, rfl⟩
    unfold FFTFileGrid.combine
    rw [if_pos (Or.inl hm)]
    dsimp only
    rw [if_pos hne, load_saved junk s fs name b (Or.inl hm) hname hfile hlen]
    dsimp only
    rw [if_pos (show (s.resident b).nxp = A.getNxp fftGrid from hn), hopen]
    dsimp only
    have hloop2 : (if (s.resident b).istransformed = true then
          FFTFileGrid.complexLoop A f (s.resident b).csize.toNat 0
            (if (s.resident b).cvalue = true then (s.resident b).rvalue else none) a1
        else FFTFileGrid.realLoop A f (s.resident b).rsize.toNat 0 (s.resident b).rvalue a1)
        = Except.ok (some b1, a2) := hloop
    rw [hloop2]
    dsimp only
    rw [hclose]
    dsimp only
    rw [if_pos hne]
    have hcond : ¬ ((s.resident b).istransformed = true ∧ (s.resident b).cvalue = false) := by
      simp [FFTFileGrid.resident]
    rw [if_neg hcond]
    rw [save_loaded { s with toFFTGrid := { s.resident b with rvalue := some b1 },
                             inFile := none } fs b1 (Or.inl hm) rfl
      (by rw [hlen1, hlen]; rfl)]
    simp only [hname, Option.getD_some]

theorem shaped_rsize {α : Type} (g : FFTGrid α) (hs : g.Shaped) : g.rsize = 2 * g.csize := by
  obtain ⟨-, h2, h3, h4, -⟩ := hs
  rw [h4, h3, h2]; ring

/-- C12 (`multiply` is component-wise).  For a grid with the constructor's
derived sizes whose samples are `b` (in memory inside a random-access session,
in the input file outside one), and an argument grid with the same `nxp` that
opens for reading, yields its samples and closes: on a frequency-domain grid
`multiply` returns with samples `b1` where for every `i < csize_` the real part
is `old.re * other.re` and the imaginary part `old.im * other.im`, `other` being
the `i`-th complex sample read from the argument; on a spatial grid every real
sample `i < rsize_` becomes `old * other`. -/
theorem multiply_componentwise {α σ : Type} [Mul α] (A : GridArg σ α) (junk : Nat → α)
    (s : FFTFileGrid α) (fftGrid a1 a2 a3 : σ) (fs : FileSys α) (b : List α)
    (hold : s.Holds fs b) (hlen : b.length = s.rsize.toNat) (hs : s.toFFTGrid.Shaped)
    (hn : s.nxp = A.getNxp fftGrid)
    (hopen : A.setAccessMode AccMode.READ fftGrid = Except.ok a1)
    (hclose : A.endAccess a2 = Except.ok a3) :
    (s.istransformed = true → ∀ cs, A.readComplexes s.csize.toNat a1 = Except.ok (cs, a2) →
      ∃ s1 fs1 b1, s.multiply A junk fftGrid fs = Except.ok (s1, a3, fs1) ∧
        s1.Holds fs1 b1 ∧ b1.length = b.length ∧
        ∀ i, i < s.csize.toNat → ∃ re im c, b.get? (2 * i) = some re ∧
          b.get? (2 * i + 1) = some im ∧ cs.get? i = some c ∧
          b1.get? (2 * i) = some (re * c.1) ∧ b1.get? (2 * i + 1) = some (im * c.2)) ∧
    (s.istransformed = false → ∀ vs, A.readReals s.rsize.toNat a1 = Except.ok (vs, a2) →
      ∃ s1 fs1 b1, s.multiply A junk fftGrid fs = Except.ok (s1, a3, fs1) ∧
        s1.Holds fs1 b1 ∧ b1.length = b.length ∧
        ∀ i, i < s.rsize.toNat → ∃ x v, b.get? i = some x ∧ vs.get? i = some v ∧
          b1.get? i = some (x * v)) := by
  have h2 := shaped_rsize _ hs
  constructor
  · intro hd cs hcs
    obtain ⟨b1, hl, hlen1, -, hpt⟩ := complexLoop_spec A (fun x y => x * y) s.csize.toNat 0 b
      a1 cs a2 hcs (by omega)
    obtain ⟨s1, fs1, hc, hh, -⟩ := combine_samples A (fun x y => x * y) junk s fftGrid a1 a2
      a3 fs b b1 hold hlen hn hopen (by rw [if_pos hd]; exact hl) hlen1 hclose
    refine ⟨s1, fs1, b1, hc, hh, hlen1, fun i hi => ?_⟩
    obtain ⟨re, im, c, e1, e2, e3, e4, e5⟩ := hpt i hi
    rw [Nat.zero_add] at e1 e2 e4 e5
    exact ⟨re, im, c, e1, e2, e3, e4, e5⟩
  · intro hd vs hvs
    obtain ⟨b1, hl, hlen1, -, hpt⟩ := realLoop_spec A (fun x y => x * y) s.rsize.toNat 0 b
      a1 vs a2 hvs (by omega)
    obtain ⟨s1, fs1, hc, hh, -⟩ := combine_samples A (fun x y => x * y) junk s fftGrid a1 a2
      a3 fs b b1 hold hlen hn hopen
      (by rw [if_neg (by rw [hd]; decide)]; exact hl) hlen1 hclose
    refine ⟨s1, fs1, b1, hc, hh, hlen1, fun i hi => ?_⟩
    obtain ⟨x, v, e1, e2, e3⟩ := hpt i hi
    rw [Nat.zero_add] at e1 e3
    exact ⟨x, v, e1, e2, e3⟩

/-- On `freqGrid` (samples `10 + 20i`, `30 + 40i`) times `freqOther` (samples
`1 + 2i`, `3 + 4i`): the result is `10 + 40i`, `90 + 160i`, the products of the
parts, not the complex products. -/
theorem multiply_componentwise_witness :
    freqGrid.Holds twoFiles [10, 20, 30, 40] ∧
    [10, 20, 30, 40].length = freqGrid.rsize.toNat ∧ freqGrid.toFFTGrid.Shaped ∧
    freqGrid.nxp = (fileArg (fun _ => 0) twoFiles).getNxp freqOther ∧
    freqGrid.istransformed = true ∧
    (∃ s1 fs1 b1, freqGrid.multiply (fileArg (fun _ => 0) twoFiles) (fun _ => 0) freqOther
        twoFiles = Except.ok (s1, freqOther, fs1) ∧ s1.Holds fs1 b1 ∧ b1.length = 4) ∧
    freqGrid.multiply (fileArg (fun _ => 0) twoFiles) (fun _ => 0) freqOther twoFiles =
      Except.ok ({ freqGrid with rvalue := some [10, 40, 90, 160], modified := 1 },
        freqOther, twoFiles) := by
  have hold : freqGrid.Holds twoFiles [10, 20, 30, 40] :=
    Or.inl ⟨by decide, by decide, by decide⟩
  refine ⟨hold, by decide, by decide, by decide, by decide, ?_, by decide⟩
  obtain ⟨s1, fs1, b1, h1, h2, h3, -⟩ :=
    (multiply_componentwise (fileArg (fun _ => 0) twoFiles) (fun _ => 0) freqGrid freqOther
      { freqOther with inFile := some [1, 2, 3, 4], accMode := AccMode.READ }
      { freqOther with inFile := some [], accMode := AccMode.READ }
      freqOther twoFiles [10, 20, 30, 40] hold (by decide) (by decide) (by decide)
      (by decide) (by decide)).1 (by decide) [(1, 2), (3, 4)] (by decide)
  exact ⟨s1, fs1, b1, h1, h2, h3⟩

/-! ## Destruction -/

theorem fsRead_fsRemove_same {α : Type} (fs : FileSys α) (name : String) :
    fsRead (fsRemove fs name) name = none := by
  induction fs with
  | nil => rfl
  | cons e rest ih =>
    obtain ⟨n, c⟩ := e
    by_cases h : n = name
    · simp only [fsRemove, List.filter, h, ne_eq, not_true_eq_false, decide_False] at ih ⊢
      exact ih
    · simp only [fsRemove, List.filter, h, ne_eq, not_false_eq_true, decide_True, fsRead,
        if_false] at ih ⊢
      exact ih

theorem fsRead_fsRemove_none {α : Type} (fs : FileSys α) (name other : String)
    (h : fsRead fs other = none) : fsRead (fsRemove fs name) other = none := by
  induction fs with
  | nil => rfl
  | cons e rest ih =>
    obtain ⟨n, c⟩ := e
    by_cases hn : n = other
    · simp [fsRead, hn] at h
    · simp only [fsRead, hn, if_false] at h
      by_cases h2 : n = name
      · simp only [fsRemove, List.filter, h2, ne_eq, not_true_eq_false, decide_False]
        exact ih h
      · simp only [fsRemove, List.filter, h2, ne_eq, not_false_eq_true, decide_True, fsRead,
          hn, if_false]
        exact ih h

theorem endAccess_keeps_names {α : Type} (s s1 : FFTFileGrid α) (fs fs1 : FileSys α)
    (h : s.endAccess fs = Except.ok (s1, fs1)) :
    (s1.fNameIn = some s.fNameOut ∨ s1.fNameOut = s.fNameOut) ∧
    (∀ n, s.fNameIn = some n → s1.fNameIn = some n ∨ s1.fNameOut = n) := by
  have swapped : s1.fNameIn = some s.fNameOut →
      s1.fNameOut = s.fNameIn.getD (FFTFileGrid.bName s.fNameOut) →
      (s1.fNameIn = some s.fNameOut ∨ s1.fNameOut = s.fNameOut) ∧
      (∀ n, s.fNameIn = some n → s1.fNameIn = some n ∨ s1.fNameOut = n) := by
    intro h1 h2
    refine ⟨Or.inl h1, fun n hn => Or.inr ?_⟩
    rw [h2, hn]; rfl
  cases hm : s.accMode with
  | NONE =>
    rw [endAccess_from_none s fs hm] at h
    simp only [Except.ok.injEq, Prod.mk.injEq] at h
    rw [← h.1]
    exact ⟨Or.inr rfl, fun n hn => Or.inl hn⟩
  | READ =>
    unfold FFTFileGrid.endAccess at h
    rw [hm] at h
    dsimp only at h
    split at h
    · exact absurd h (by simp)
    · simp only [Except.ok.injEq, Prod.mk.injEq] at h
      rw [← h.1]
      exact ⟨Or.inr rfl, fun n hn => Or.inl hn⟩
  | WRITE =>
    obtain ⟨h1, h2, -⟩ := endAccess_names s s1 fs fs1 (Or.inl hm) h
    exact swapped h1 h2
  | READANDWRITE =>
    obtain ⟨h1, h2, -⟩ := endAccess_names s s1 fs fs1 (Or.inr hm) h
    exact swapped h1 h2
  | RANDOMACCESS =>
    unfold FFTFileGrid.endAccess at h
    rw [hm] at h
    dsimp only at h
    split at h
    · split at h
      · exact absurd h (by simp)
      · rename_i t fs2 ht
        simp only [Except.ok.injEq, Prod.mk.injEq] at h
        obtain ⟨h1, h2, -⟩ := save_names s t fs fs2 ht
        exact swapped (by rw [← h.1]; exact h1) (by rw [← h.1]; exact h2)
    · simp only [Except.ok.injEq, Prod.mk.injEq] at h
      rw [← h.1]
      exact ⟨Or.inr rfl, fun n hn => Or.inl hn⟩

theorem destroy_removes_final_names {α : Type} (s : FFTFileGrid α) (fs fs2 : FileSys α)
    (h : s.destroy fs = Except.ok fs2) :
    ∃ s1 fs1, s.endAccess fs = Except.ok (s1, fs1) ∧ fsRead fs2 s1.fNameOut = none ∧
      ∀ n, s1.fNameIn = some n → fsRead fs2 n = none := by
  unfold FFTFileGrid.destroy at h
  split at h
  · exact absurd h (by simp)
  · rename_i s1 fs1 he
    simp only [Except.ok.injEq] at h
    refine ⟨s1, fs1, he, ?_, fun n hn => ?_⟩
    · rw [← h]; exact fsRead_fsRemove_same _ _
    · rw [← h, hn]
      exact fsRead_fsRemove_none _ _ _ (fsRead_fsRemove_same _ _)

/-- Where the destructor removes the backing files.  For every grid state, in
every access mode and with or without an input file, whenever the destructor
returns no file exists under the grid's output name, under its input name, or
under either name the grid has after the `endAccess` the destructor starts
with; in particular the file being written in a still-open `WRITE` session is
gone.  The destructor returns from every session whose streams are open and
whose name fits (`SessionReady`). -/
theorem destructor_removes_backing_files {α : Type} (s : FFTFileGrid α) (fs : FileSys α) :
    (∀ fs2, s.destroy fs = Except.ok fs2 →
      fsRead fs2 s.fNameOut = none ∧ (∀ n, s.fNameIn = some n → fsRead fs2 n = none) ∧
      (∀ n, s.accMode = AccMode.WRITE → s.outFile = some n → n = s.fNameOut →
        fsRead fs2 n = none) ∧
      ∃ s1 fs1, s.endAccess fs = Except.ok (s1, fs1) ∧ fsRead fs2 s1.fNameOut = none ∧
        ∀ n, s1.fNameIn = some n → fsRead fs2 n = none) ∧
    (s.SessionReady → ∃ fs2, s.destroy fs = Except.ok fs2) := by
  constructor
  · intro fs2 h
    obtain ⟨s1, fs1, he, hout, hin⟩ := destroy_removes_final_names s fs fs2 h
    obtain ⟨k1, k2⟩ := endAccess_keeps_names s s1 fs fs1 he
    have hpre : fsRead fs2 s.fNameOut = none := by
      rcases k1 with k | k
      · exact hin _ k
      · rw [← k]; exact hout
    refine ⟨hpre, fun n hn => ?_, fun n _ _ hfn => by rw [hfn]; exact hpre,
      s1, fs1, he, hout, hin⟩
    rcases k2 n hn with k | k
    · exact hin _ k
    · rw [← k]; exact hout
  · intro hr
    obtain ⟨s1, fs1, he⟩ := endAccess_ready s fs hr
    unfold FFTFileGrid.destroy
    rw [he]
    exact ⟨_, rfl⟩

/-- Destroying `writingGrid` in its open write session removes the file being
written: no file is left. -/
theorem destructor_removes_backing_files_witness :
    writingGrid.SessionReady ∧ fsRead writingFiles writingGrid.fNameOut = some [1, 2] ∧
    (∃ fs2, writingGrid.destroy writingFiles = Except.ok fs2) ∧
    writingGrid.destroy writingFiles = Except.ok [] ∧
    fsRead ([] : FileSys Int) writingGrid.fNameOut = none :=
  have h := destructor_removes_backing_files writingGrid writingFiles
  ⟨by decide, by decide, h.2 (by decide), by decide, (h.1 [] (by decide)).1⟩

/-! ## Generated file names -/

theorem digitValue_digitChar (d : Nat) (h : d < 10) : digitValue (Nat.digitChar d) = d := by
  interval_cases d <;> rfl

theorem digitChar_ne_b (d : Nat) (h : d < 10) : Nat.digitChar d ≠ 'b' := by
  interval_cases d <;> decide

theorem toDigitsCore_step (fuel n : Nat) (ds : List Char) :
    Nat.toDigitsCore 10 (fuel + 1) n ds =
      if n / 10 = 0 then Nat.digitChar (n % 10) :: ds
      else Nat.toDigitsCore 10 fuel (n / 10) (Nat.digitChar (n % 10) :: ds) := by
  simp [Nat.toDigitsCore]

theorem toDigitsCore_value (fuel : Nat) : ∀ (n : Nat) (ds : List Char), n < fuel →
    decimalValue (Nat.toDigitsCore 10 fuel n ds) = n * 10 ^ ds.length + decimalValue ds := by
  induction fuel with
  | zero => intro n ds h; exact absurd h (Nat.not_lt_zero n)
  | succ fuel ih =>
    intro n ds h
    rw [toDigitsCore_step]
    have hd := digitValue_digitChar (n % 10) (Nat.mod_lt n (by decide))
    by_cases h0 : n / 10 = 0
    · rw [if_pos h0]
      have hn : n % 10 = n := by omega
      simp only [decimalValue, hd]
      rw [hn]
    · rw [if_neg h0, ih (n / 10) _ (by omega)]
      simp only [decimalValue, hd, List.length_cons, pow_succ]
      have hn : n = 10 * (n / 10) + n % 10 := (Nat.div_add_mod n 10).symm
      generalize n / 10 = q at hn ⊢
      generalize n % 10 = r at hn ⊢
      subst hn
      ring

theorem toDigitsCore_no_b (fuel : Nat) : ∀ (n : Nat) (ds : List Char), 'b' ∉ ds →
    'b' ∉ Nat.toDigitsCore 10 fuel n ds := by
  induction fuel with
  | zero => intro n ds h; simpa [Nat.toDigitsCore] using h
  | succ fuel ih =>
    intro n ds h
    have hd := digitChar_ne_b (n % 10) (Nat.mod_lt n (by decide))
    have hcons : 'b' ∉ Nat.digitChar (n % 10) :: ds := by
      simp only [List.mem_cons, not_or]
      exact ⟨fun e => hd e.symm, h⟩
    rw [toDigitsCore_step]
    by_cases h0 : n / 10 = 0
    · rw [if_pos h0]; exact hcons
    · rw [if_neg h0]; exact ih _ _ hcons

theorem toString_nat_injective (m n : Nat) (h : toString m = toString n) : m = n := by
  have hd : Nat.toDigits 10 m = Nat.toDigits 10 n := congrArg String.data h
  have hv := congrArg decimalValue hd
  unfold Nat.toDigits at hv
  rw [toDigitsCore_value _ m [] (by omega), toDigitsCore_value _ n [] (by omega)] at hv
  simpa [decimalValue] using hv

theorem toString_nat_no_b (n : Nat) : 'b' ∉ (toString n).data := by
  show 'b' ∉ Nat.toDigits 10 n
  exact toDigitsCore_no_b _ n [] (by simp)

theorem entered_names {α : Type} (junk : Nat → α) (s s1 : FFTFileGrid α) (fs : FileSys α)
    (h : (if s.accMode ≠ AccMode.RANDOMACCESS then s.load junk fs
      else Except.ok { s with modified := 1 }) = Except.ok s1) :
    s1.fNameIn = s.fNameIn ∧ s1.fNameOut = s.fNameOut ∧ s1.accMode = s.accMode := by
  split at h
  · obtain ⟨-, -, -, -, h5, h6, h7⟩ := load_ok_fields junk s s1 fs h
    exact ⟨h6, h7, h5⟩
  · simp only [Except.ok.injEq] at h
    rw [← h]
    exact ⟨rfl, rfl, rfl⟩

theorem viaBase_names {α β : Type} (junk : Nat → α)
    (base : FFTGrid α → Except Fault (FFTGrid α × β)) (s s1 : FFTFileGrid α)
    (fs fs1 : FileSys α) (out : β)
    (h : FFTFileGrid.viaBase junk base s fs = Except.ok (out, s1, fs1)) :
    FFTFileGrid.NameStep s s1 := by
  unfold FFTFileGrid.viaBase at h
  split at h
  · dsimp only at h
    split at h
    · exact absurd h (by simp)
    · rename_i t ht
      obtain ⟨e1, e2, -⟩ := entered_names junk s t fs ht
      split at h
      · exact absurd h (by simp)
      · rename_i g o hg
        split at h
        · split at h
          · exact absurd h (by simp)
          · rename_i t3 fs3 hsave
            simp only [Except.ok.injEq, Prod.mk.injEq] at h
            obtain ⟨k1, k2, -⟩ := save_names _ t3 fs fs3 hsave
            rw [← h.2.1]
            exact Or.inr ⟨by rw [k1, ← e2], by rw [k2, ← e1, ← e2]⟩
        · simp only [Except.ok.injEq, Prod.mk.injEq] at h
          rw [← h.2.1]
          exact Or.inl ⟨e1, e2⟩
  · exact absurd h (by simp)

theorem combine_names {α σ : Type} (A : GridArg σ α) (f : α → α → α) (junk : Nat → α)
    (s s1 : FFTFileGrid α) (a a1 : σ) (fs fs1 : FileSys α)
    (h : FFTFileGrid.combine A f junk s a fs = Except.ok (s1, a1, fs1)) :
    FFTFileGrid.NameStep s s1 := by
  unfold FFTFileGrid.combine at h
  split at h
  · dsimp only at h
    split at h
    · exact absurd h (by simp)
    · rename_i t ht
      obtain ⟨e1, e2, -⟩ := entered_names junk s t fs ht
      split at h
      · split at h
        · exact absurd h (by simp)
        · split at h
          · exact absurd h (by simp)
          · split at h
            · exact absurd h (by simp)
            · split at h
              · split at h
                · exact absurd h (by simp)
                · rename_i t3 fs3 hsave
                  simp only [Except.ok.injEq, Prod.mk.injEq] at h
                  obtain ⟨k1, k2, -⟩ := save_names _ t3 fs fs3 hsave
                  rw [← h.1]
                  exact Or.inr ⟨by rw [k1, ← e2], by rw [k2, ← e1, ← e2]⟩
              · simp only [Except.ok.injEq, Prod.mk.injEq] at h
                rw [← h.1]
                exact Or.inl ⟨e1, e2⟩
      · exact absurd h (by simp)
  · exact absurd h (by simp)

theorem setAccessMode_names {α : Type} (junk : Nat → α) (mode : AccMode)
    (s s1 : FFTFileGrid α) (fs fs1 : FileSys α)
    (h : s.setAccessMode junk mode fs = Except.ok (s1, fs1)) :
    FFTFileGrid.NameStep s s1 := by
  unfold FFTFileGrid.setAccessMode at h
  split at h
  · cases mode with
    | RANDOMACCESS =>
      dsimp only at h
      split at h
      · exact absurd h (by simp)
      · rename_i t ht
        obtain ⟨-, -, -, -, -, h6, h7⟩ := load_ok_fields junk _ t fs ht
        simp only [Except.ok.injEq, Prod.mk.injEq] at h
        rw [← h.1]
        exact Or.inl ⟨h6, h7⟩
    | _ =>
      simp only [Except.ok.injEq, Prod.mk.injEq] at h
      rw [← h.1]
      exact Or.inl ⟨rfl, rfl⟩
  · exact absurd h (by simp)

theorem endAccess_name_step {α : Type} (s s1 : FFTFileGrid α) (fs fs1 : FileSys α)
    (h : s.endAccess fs = Except.ok (s1, fs1)) : FFTFileGrid.NameStep s s1 := by
  cases hm : s.accMode with
  | NONE =>
    rw [endAccess_from_none s fs hm] at h
    simp only [Except.ok.injEq, Prod.mk.injEq] at h
    rw [← h.1]
    exact Or.inl ⟨rfl, rfl⟩
  | READ =>
    unfold FFTFileGrid.endAccess at h
    rw [hm] at h
    dsimp only at h
    split at h
    · exact absurd h (by simp)
    · simp only [Except.ok.injEq, Prod.mk.injEq] at h
      rw [← h.1]
      exact Or.inl ⟨rfl, rfl⟩
  | WRITE =>
    obtain ⟨h1, h2, -⟩ := endAccess_names s s1 fs fs1 (Or.inl hm) h
    exact Or.inr ⟨h1, h2⟩
  | READANDWRITE =>
    obtain ⟨h1, h2, -⟩ := endAccess_names s s1 fs fs1 (Or.inr hm) h
    exact Or.inr ⟨h1, h2⟩
  | RANDOMACCESS =>
    unfold FFTFileGrid.endAccess at h
    rw [hm] at h
    dsimp only at h
    split at h
    · split at h
      · exact absurd h (by simp)
      · rename_i t fs2 ht
        simp only [Except.ok.injEq, Prod.mk.injEq] at h
        obtain ⟨h1, h2, -⟩ := save_names s t fs fs2 ht
        exact Or.inr ⟨by rw [← h.1]; exact h1, by rw [← h.1]; exact h2⟩
    · simp only [Except.ok.injEq, Prod.mk.injEq] at h
      rw [← h.1]
      exact Or.inl ⟨rfl, rfl⟩

theorem setRealValue_names {α : Type} (s s1 : FFTFileGrid α) (i j k : Int) (v : α) (r : Int)
    (h : s.setRealValue i j k v = Except.ok (r, s1)) : FFTFileGrid.NameStep s s1 := by
  by_cases hd : s.istransformed = false
  · by_cases hm : s.accMode = AccMode.RANDOMACCESS
    · by_cases ho : s.toFFTGrid.Outside i j k
      · rw [setRealValue_outside s i j k v hd hm ho] at h
        simp only [Except.ok.injEq, Prod.mk.injEq] at h
        rw [← h.2]
        exact Or.inl ⟨rfl, rfl⟩
      · have hc : (decide (i < s.nx) && decide (j < s.ny) && decide (k < s.nz) &&
            (decide (i > -1) && decide (j > -1) && decide (k > -1))) = true := by
          simp only [FFTGrid.Outside, not_or, not_lt, not_le] at ho
          simp only [Bool.and_eq_true, decide_eq_true_eq, gt_iff_lt]
          omega
        simp only [FFTFileGrid.setRealValue, hd, hm, if_true, hc] at h
        split at h
        · exact absurd h (by simp)
        · split at h
          · simp only [Except.ok.injEq, Prod.mk.injEq] at h
            rw [← h.2]
            exact Or.inl ⟨rfl, rfl⟩
          · exact absurd h (by simp)
    · simp only [FFTFileGrid.setRealValue, hd, hm, if_true, if_false] at h
      exact absurd h (by simp)
  · simp only [FFTFileGrid.setRealValue, hd, if_false] at h
    exact absurd h (by simp)

theorem step_names {α : Type} (s s1 : FFTFileGrid α) (h : FFTFileGrid.Step s s1) :
    FFTFileGrid.NameStep s s1 := by
  cases h with
  | setAccessMode junk mode _ _ fs fs1 h => exact setAccessMode_names junk mode s s1 fs fs1 h
  | endAccess _ _ fs fs1 h => exact endAccess_name_step s s1 fs fs1 h
  | createRealGrid _ => exact Or.inl ⟨rfl, rfl⟩
  | createComplexGrid _ => exact Or.inl ⟨rfl, rfl⟩
  | getNextComplex _ _ c h =>
    unfold FFTFileGrid.getNextComplex at h
    repeat' (split at h)
    all_goals first
      | (simp only [Except.ok.injEq, Prod.mk.injEq] at h
         rw [← h.2]
         exact Or.inl ⟨rfl, rfl⟩)
      | (simp at h)
  | getNextReal _ _ v h =>
    unfold FFTFileGrid.getNextReal at h
    repeat' (split at h)
    all_goals first
      | (simp only [Except.ok.injEq, Prod.mk.injEq] at h
         rw [← h.2]
         exact Or.inl ⟨rfl, rfl⟩)
      | (simp at h)
  | setRealValue _ _ i j k v r h => exact setRealValue_names s s1 i j k v r h
  | setNextComplex _ _ fs fs1 c r h =>
    unfold FFTFileGrid.setNextComplex at h
    repeat' (split at h)
    all_goals first
      | (simp only [Except.ok.injEq, Prod.mk.injEq] at h
         rw [← h.2.1]
         exact Or.inl ⟨rfl, rfl⟩)
      | (simp at h)
  | setNextReal _ _ fs fs1 v r h =>
    unfold FFTFileGrid.setNextReal at h
    repeat' (split at h)
    all_goals first
      | (simp only [Except.ok.injEq, Prod.mk.injEq] at h
         rw [← h.2.1]
         exact Or.inl ⟨rfl, rfl⟩)
      | (simp at h)
  | viaBase junk base _ _ fs fs1 out h => exact viaBase_names junk base s s1 fs fs1 out h
  | combine A f junk _ _ a a1 fs fs1 h => exact combine_names A f junk s s1 a a1 fs fs1 h
  | load junk _ _ fs h =>
    obtain ⟨-, -, -, -, -, h6, h7⟩ := load_ok_fields junk s s1 fs h
    exact Or.inl ⟨h6, h7⟩
  | save _ _ fs fs1 h =>
    obtain ⟨h1, h2, -⟩ := save_names s s1 fs fs1 h
    exact Or.inr ⟨h1, h2⟩
  | unload _ => exact Or.inl ⟨rfl, rfl⟩

theorem namesOf_step {α : Type} (base : String) (s s1 : FFTFileGrid α)
    (hn : FFTFileGrid.NamesOf base s) (h : FFTFileGrid.Step s s1) :
    FFTFileGrid.NamesOf base s1 := by
  rcases step_names s s1 h with ⟨e1, e2⟩ | ⟨e1, e2⟩
  · unfold FFTFileGrid.NamesOf
    rw [e1, e2]
    exact hn
  · unfold FFTFileGrid.NamesOf
    rcases hn with ⟨h1, h2⟩ | ⟨h1, h2⟩ | ⟨h1, h2⟩
    · rw [h1, h2] at e2
      rw [h2] at e1
      exact Or.inr (Or.inl ⟨e1, e2⟩)
    · rw [h1, h2] at e2
      rw [h2] at e1
      exact Or.inr (Or.inr ⟨e1, e2⟩)
    · rw [h1, h2] at e2
      rw [h2] at e1
      exact Or.inr (Or.inl ⟨e1, e2⟩)

theorem namesOf_reach {α : Type} (base : String) (s s1 : FFTFileGrid α)
    (hn : FFTFileGrid.NamesOf base s) (h : Relation.ReflTransGen FFTFileGrid.Step s s1) :
    FFTFileGrid.NamesOf base s1 := by
  induction h with
  | refl => exact hn
  | tail _ hstep ih => exact namesOf_step base _ _ ih hstep

theorem baseName_injective (p : String) (m n : Nat) (h : baseName p m = baseName p n) :
    m = n := by
  have hd := congrArg String.data h
  simp only [baseName, makeFullFileName, String.data_append] at hd
  have h2 := List.append_cancel_left (List.append_cancel_left hd)
  exact toString_nat_injective m n (String.ext h2)

theorem baseName_ne_bName (p : String) (m n : Nat) :
    baseName p m ≠ FFTFileGrid.bName (baseName p n) := by
  intro h
  have hd := congrArg String.data h
  simp only [baseName, makeFullFileName, FFTFileGrid.bName, String.data_append,
    List.append_assoc] at hd
  have h2 := List.append_cancel_left (List.append_cancel_left hd)
  have hb : 'b' ∈ (toString m).data := by
    rw [h2]
    exact List.mem_append_right _ (by decide)
  exact toString_nat_no_b m hb

theorem bName_injective (x y : String) (h : FFTFileGrid.bName x = FFTFileGrid.bName y) :
    x = y := by
  have hd := congrArg String.data h
  simp only [FFTFileGrid.bName, String.data_append] at hd
  exact String.ext (List.append_cancel_right hd)

theorem namesOf_mem {α : Type} (base : String) (s : FFTFileGrid α)
    (hn : FFTFileGrid.NamesOf base s) (x : String) (hx : x ∈ s.names) :
    x = base ∨ x = FFTFileGrid.bName base := by
  unfold FFTFileGrid.names at hx
  rcases hn with ⟨h1, h2⟩ | ⟨h1, h2⟩ | ⟨h1, h2⟩ <;>
    (rw [h1, h2] at hx
     simp only [Option.toList, List.mem_cons, List.mem_singleton, List.not_mem_nil,
       or_false] at hx
     tauto)

theorem namesOf_disjoint {α : Type} (p : String) (m n : Nat) (s t : FFTFileGrid α)
    (hmn : m ≠ n) (hs : FFTFileGrid.NamesOf (baseName p m) s)
    (ht : FFTFileGrid.NamesOf (baseName p n) t) :
    ∀ x ∈ s.names, ∀ y ∈ t.names, x ≠ y := by
  intro x hx y hy hxy
  rcases namesOf_mem _ s hs x hx with ex | ex <;>
    rcases namesOf_mem _ t ht y hy with ey | ey
  · exact hmn (baseName_injective p m n (by rw [← ex, ← ey, hxy]))
  · exact baseName_ne_bName p m n (by rw [← ex, ← ey, hxy])
  · exact baseName_ne_bName p n m (by rw [← ex, ← ey, hxy])
  · exact hmn (baseName_injective p m n (bName_injective _ _ (by rw [← ex, ← ey, hxy])))

theorem constructAll_spec {α : Type} (p : String) :
    ∀ (raws : List (FFTFileGrid α)) (g : Nat),
      (FFTFileGrid.constructAll p g raws).2 = g + raws.length ∧
      ∀ i s, (FFTFileGrid.constructAll p g raws).1.get? i = some s →
        FFTFileGrid.NamesOf (baseName p (g + i)) s ∧ s.accMode = AccMode.NONE := by
  intro raws
  induction raws with
  | nil =>
    intro g
    refine ⟨rfl, fun i s h => ?_⟩
    simp [FFTFileGrid.constructAll] at h
  | cons raw rest ih =>
    intro g
    obtain ⟨ih1, ih2⟩ := ih (g + 1)
    refine ⟨?_, fun i s h => ?_⟩
    · show (FFTFileGrid.constructAll p (g + 1) rest).2 = g + (rest.length + 1)
      rw [ih1]; omega
    · cases i with
      | zero =>
        have hs : s = (FFTFileGrid.construct p g raw).1 := by
          simp only [FFTFileGrid.constructAll, List.get?_cons_zero, Option.some.injEq] at h
          exact h.symm
        rw [hs]
        exact ⟨Or.inl ⟨rfl, rfl⟩, rfl⟩
      | succ i =>
        have h2 : (FFTFileGrid.constructAll p (g + 1) rest).1.get? i = some s := h
        have e : g + (i + 1) = g + 1 + i := by omega
        rw [e]
        exact ih2 i s h2

/-- C17 (backing-file names never collide).  `genFileName` names the grid
`tmpgrid<n>` for the current value `n` of the global counter and leaves the
counter at `n + 1`; grids constructed one after the other therefore get
consecutive counter values; after any sequence of member-function calls the
`i`-th grid still holds only its own full name of `tmpgrid<n>` and that name
followed by `b`; and the names held by two different grids, whatever calls each
has gone through, are pairwise different. -/
theorem backing_names_never_collide {α : Type} (p : String) (g0 : Nat)
    (raws : List (FFTFileGrid α)) :
    (∀ n, genFileName p n = ((none, makeFullFileName p ("tmpgrid" ++ toString n)), n + 1)) ∧
    (FFTFileGrid.constructAll p g0 raws).2 = g0 + raws.length ∧
    (∀ i s s1, (FFTFileGrid.constructAll p g0 raws).1.get? i = some s →
      Relation.ReflTransGen FFTFileGrid.Step s s1 →
      FFTFileGrid.NamesOf (baseName p (g0 + i)) s1) ∧
    (∀ i j s t s1 t1, i ≠ j →
      (FFTFileGrid.constructAll p g0 raws).1.get? i = some s →
      (FFTFileGrid.constructAll p g0 raws).1.get? j = some t →
      Relation.ReflTransGen FFTFileGrid.Step s s1 →
      Relation.ReflTransGen FFTFileGrid.Step t t1 →
      ∀ x ∈ s1.names, ∀ y ∈ t1.names, x ≠ y) := by
  obtain ⟨h1, h2⟩ := constructAll_spec p raws g0
  refine ⟨fun n => rfl, h1, fun i s s1 hs hr => ?_, fun i j s t s1 t1 hij hs ht hrs hrt => ?_⟩
  · exact namesOf_reach _ s s1 (h2 i s hs).1 hr
  · exact namesOf_disjoint p (g0 + i) (g0 + j) s1 t1 (by omega)
      (namesOf_reach _ s s1 (h2 i s hs).1 hrs) (namesOf_reach _ t t1 (h2 j t ht).1 hrt)

/-- Two grids constructed in the directory `out/` from counter 0 are named
`out/tmpgrid0` and `out/tmpgrid1`; after the first has closed a write session
(names `out/tmpgrid0` and `out/tmpgrid0b`) its names still differ from the
second's. -/
theorem backing_names_never_collide_witness :
    (0 : Nat) ≠ 1 ∧
    (FFTFileGrid.constructAll "out/" 0 [freshGrid, freshGrid]).1.get? 0 =
      some { freshGrid with fNameOut := "out/tmpgrid0" } ∧
    (FFTFileGrid.constructAll "out/" 0 [freshGrid, freshGrid]).1.get? 1 =
      some { freshGrid with fNameOut := "out/tmpgrid1" } ∧
    (FFTFileGrid.constructAll "out/" 0 [freshGrid, freshGrid]).2 = 2 ∧
    ∀ x ∈ ({ freshGrid with fNameIn := some "out/tmpgrid0",
                            fNameOut := "out/tmpgrid0b" } : FFTFileGrid Int).names,
      ∀ y ∈ ({ freshGrid with fNameOut := "out/tmpgrid1" } : FFTFileGrid Int).names,
        x ≠ y := by
  have h := backing_names_never_collide "out/" 0 [freshGrid, freshGrid]
  have h0 : (FFTFileGrid.constructAll "out/" 0 [freshGrid, freshGrid]).1.get? 0 =
      some { freshGrid with fNameOut := "out/tmpgrid0" } := by decide
  have h1 : (FFTFileGrid.constructAll "out/" 0 [freshGrid, freshGrid]).1.get? 1 =
      some { freshGrid with fNameOut := "out/tmpgrid1" } := by decide
  have hw : ({ freshGrid with fNameOut := "out/tmpgrid0", accMode := AccMode.WRITE,
                              outFile := some "out/tmpgrid0" } : FFTFileGrid Int).endAccess []
      = Except.ok ({ freshGrid with fNameIn := some "out/tmpgrid0",
                                    fNameOut := "out/tmpgrid0b" }, []) := by decide
  have hopen : ({ freshGrid with fNameOut := "out/tmpgrid0" } : FFTFileGrid Int).setAccessMode
      (fun _ => 0) AccMode.WRITE [] =
      Except.ok ({ freshGrid with fNameOut := "out/tmpgrid0", accMode := AccMode.WRITE,
                                  outFile := some "out/tmpgrid0" }, [("out/tmpgrid0", [])]) := by
    decide
  exact ⟨by decide, h0, h1, h.2.1,
    h.2.2.2 0 1 _ _ _ _ (by decide) h0 h1
      ((Relation.ReflTransGen.single
          (FFTFileGrid.Step.setAccessMode _ _ _ _ _ _ hopen)).tail
        (FFTFileGrid.Step.endAccess _ _ _ _ hw))
      Relation.ReflTransGen.refl⟩

/-! ## Transform round trip -/

theorem viaBase_outside_eq {α β : Type} (junk : Nat → α)
    (base : FFTGrid α → Except Fault (FFTGrid α × β)) (s : FFTFileGrid α) (fs : FileSys α)
    (name : String) (b b1 : List α) (g1 : FFTGrid α) (out : β)
    (hmode : s.accMode = AccMode.NONE) (hn : s.fNameIn = some name)
    (hf : fsRead fs name = some b) (hl : b.length = s.rsize.toNat)
    (hbase : base (s.resident b) = Except.ok (g1, out)) (hb1 : g1.rvalue = some b1)
    (hl1 : b1.length = g1.rsize.toNat) :
    FFTFileGrid.viaBase junk base s fs =
      Except.ok (out,
        { s with toFFTGrid := { g1 with rvalue := none, cvalue := false }
                 inFile := none, outFile := none
                 fNameIn := some s.fNameOut, fNameOut := name },
        fsWrite fs s.fNameOut b1) := by
  have hne : s.accMode ≠ AccMode.RANDOMACCESS := by rw [hmode]; decide
  unfold FFTFileGrid.viaBase
  rw [if_pos (Or.inl hmode)]
  dsimp only
  rw [if_pos hne, load_saved junk s fs name b (Or.inl hmode) hn hf hl]
  dsimp only
  rw [hbase]
  dsimp only
  rw [if_pos hne]
  rw [save_loaded { s with toFFTGrid := g1, inFile := none } fs b1 (Or.inl hmode) hb1 hl1]
  simp only [hn, Option.getD_some]
  rfl

theorem fftInPlace_outside_eq {α ρ : Type} (B : BaseOps α ρ) (T : Transforms α)
    (junk : Nat → α) (s : FFTFileGrid α) (fs : FileSys α) (name : String) (b : List α)
    (hfft : B.fftInPlace = FFTGrid.fftInPlace T) (hT : T.RoundTrip)
    (hmode : s.accMode = AccMode.NONE) (hdom : s.istransformed = false)
    (hn : s.fNameIn = some name) (hf : fsRead fs name = some b)
    (hl : b.length = s.rsize.toNat) :
    FFTFileGrid.fftInPlace B junk s fs =
      Except.ok ((),
        { s with toFFTGrid := { s.resident b with istransformed := true, rvalue := none,
                                                  cvalue := false }
                 inFile := none, outFile := none
                 fNameIn := some s.fNameOut, fNameOut := name },
        fsWrite fs s.fNameOut (T.fft b)) := by
  unfold FFTFileGrid.fftInPlace
  rw [viaBase_outside_eq junk (FFTFileGrid.plain B.fftInPlace) s fs name b (T.fft b)
    { s.resident b with istransformed := true, rvalue := some (T.fft b) } () hmode hn hf hl
    ?_ rfl ?_]
  · rw [hfft]
    simp [FFTFileGrid.plain, FFTGrid.fftInPlace, FFTFileGrid.resident, hdom]
  · show (T.fft b).length = s.rsize.toNat
    rw [(hT b).1, hl]

theorem invFFTInPlace_outside_eq {α ρ : Type} (B : BaseOps α ρ) (T : Transforms α)
    (junk : Nat → α) (s : FFTFileGrid α) (fs : FileSys α) (name : String) (b : List α)
    (hinv : B.invFFTInPlace = FFTGrid.invFFTInPlace T) (hT : T.RoundTrip)
    (hmode : s.accMode = AccMode.NONE) (hdom : s.istransformed = true)
    (hn : s.fNameIn = some name) (hf : fsRead fs name = some b)
    (hl : b.length = s.rsize.toNat) :
    FFTFileGrid.invFFTInPlace B junk s fs =
      Except.ok ((),
        { s with toFFTGrid := { s.resident b with istransformed := false, rvalue := none,
                                                  cvalue := false }
                 inFile := none, outFile := none
                 fNameIn := some s.fNameOut, fNameOut := name },
        fsWrite fs s.fNameOut (T.inv b)) := by
  unfold FFTFileGrid.invFFTInPlace
  rw [viaBase_outside_eq junk (FFTFileGrid.plain B.invFFTInPlace) s fs name b (T.inv b)
    { s.resident b with istransformed := false, rvalue := some (T.inv b) } () hmode hn hf hl
    ?_ rfl ?_]
  · rw [hinv]
    simp [FFTFileGrid.plain, FFTGrid.invFFTInPlace, FFTFileGrid.resident, hdom]
  · show (T.inv b).length = s.rsize.toNat
    rw [(hT b).2.1, hl]

/-- C18: transform round trip on the disk-backed realization. With the base
transforms as the spec describes them (each flips the domain flag, transforms the
buffer in place and is only legal outside its target domain; forward then inverse
reproduces a buffer to tolerance), for a disk-backed grid of any shape in mode
NONE and in the spatial domain whose input file holds the buffer `b`:
`fftInPlace` returns with the grid in the frequency domain, `invFFTInPlace` then
returns with the grid in the spatial domain, in mode NONE, of the same size, and
the file under its input name holds exactly `inv (fft b)`, the buffer the
memory-resident transforms produce, which is `b` to tolerance: the loads and
saves around each transform alter no sample. -/
theorem transform_round_trip_on_disk {α ρ : Type} (B : BaseOps α ρ) (T : Transforms α)
    (junk1 junk2 : Nat → α) (s : FFTFileGrid α) (fs : FileSys α) (name : String)
    (b : List α)
    (hfft : B.fftInPlace = FFTGrid.fftInPlace T)
    (hinv : B.invFFTInPlace = FFTGrid.invFFTInPlace T) (hT : T.RoundTrip)
    (hmode : s.accMode = AccMode.NONE) (hdom : s.istransformed = false)
    (hn : s.fNameIn = some name) (hf : fsRead fs name = some b)
    (hl : b.length = s.rsize.toNat) :
    ∃ s1 fs1 s2 fs2 c,
      FFTFileGrid.fftInPlace B junk1 s fs = Except.ok ((), s1, fs1) ∧
      s1.istransformed = true ∧ s1.accMode = AccMode.NONE ∧ s1.Holds fs1 (T.fft b) ∧
      FFTFileGrid.invFFTInPlace B junk2 s1 fs1 = Except.ok ((), s2, fs2) ∧
      s2.istransformed = false ∧ s2.accMode = AccMode.NONE ∧ s2.rvalue = none ∧
      s2.rsize = s.rsize ∧ s2.Holds fs2 c ∧ c = T.inv (T.fft b) ∧
      c.length = b.length ∧ T.close b c := by
  have h1 := fftInPlace_outside_eq B T junk1 s fs name b hfft hT hmode hdom hn hf hl
  have hr1 : fsRead (fsWrite fs s.fNameOut (T.fft b)) s.fNameOut = some (T.fft b) :=
    fsRead_fsWrite_same _ _ _
  have h2 := invFFTInPlace_outside_eq B T junk2
    { s with toFFTGrid := { s.resident b with istransformed := true, rvalue := none,
                                              cvalue := false }
             inFile := none, outFile := none
             fNameIn := some s.fNameOut, fNameOut := name }
    (fsWrite fs s.fNameOut (T.fft b)) s.fNameOut (T.fft b) hinv hT hmode rfl rfl hr1
    (by show (T.fft b).length = s.rsize.toNat; rw [(hT b).1, hl])
  refine ⟨_, _, _, _, T.inv (T.fft b), h1, rfl, hmode, ?_, h2, rfl, hmode, rfl, rfl, ?_, rfl,
    ?_, (hT b).2.2⟩
  · exact Or.inr ⟨hmode, s.fNameOut, rfl, hr1⟩
  · exact Or.inr ⟨hmode, name, rfl, fsRead_fsWrite_same _ _ _⟩
  · rw [(hT (T.fft b)).2.1, (hT b).1]

theorem transform_round_trip_on_disk_witness :
    ∃ s1 fs1 s2 fs2 c,
      FFTFileGrid.fftInPlace transformOps (fun _ => 0) savedGrid savedFiles =
        Except.ok ((), s1, fs1) ∧
      s1.istransformed = true ∧ s1.accMode = AccMode.NONE ∧
      s1.Holds fs1 (demoTransforms.fft [10, 20, 30, 40]) ∧
      FFTFileGrid.invFFTInPlace transformOps (fun _ => 0) s1 fs1 = Except.ok ((), s2, fs2) ∧
      s2.istransformed = false ∧ s2.accMode = AccMode.NONE ∧ s2.rvalue = none ∧
      s2.rsize = savedGrid.rsize ∧ s2.Holds fs2 c ∧
      c = demoTransforms.inv (demoTransforms.fft [10, 20, 30, 40]) ∧
      c.length = [10, 20, 30, 40].length ∧ demoTransforms.close [10, 20, 30, 40] c :=
  transform_round_trip_on_disk transformOps demoTransforms (fun _ => 0) (fun _ => 0)
    savedGrid savedFiles "tmpgrid0" [10, 20, 30, 40] rfl rfl
    (fun _ => ⟨rfl, rfl, rfl⟩) (by decide) (by decide) (by decide) (by decide) (by decide)

/-! ## Phase order of an inversion run -/

theorem nat_land_two_pow_pos (m k : Nat) : 0 < m &&& 2 ^ k ↔ m.testBit k = true := by
  constructor
  · intro h
    by_contra hb
    have : m &&& 2 ^ k = 0 := by
      apply Nat.eq_of_testBit_eq
      intro i
      rw [Nat.testBit_land, Nat.testBit_two_pow, Nat.zero_testBit]
      by_cases hk : k = i
      · subst hk; simp [hb]
      · simp [hk]
    omega
  · intro h
    have : (m &&& 2 ^ k).testBit k = true := by
      rw [Nat.testBit_land, Nat.testBit_two_pow, h]; simp
    rcases Nat.eq_zero_or_pos (m &&& 2 ^ k) with h0 | h0
    · rw [h0, Nat.zero_testBit] at this; cases this
    · exact h0

theorem nat_ldiff_two_pow_pos (m k : Nat) :
    0 < Nat.ldiff (2 ^ k) m ↔ m.testBit k = false := by
  constructor
  · intro h
    by_contra hb
    have : Nat.ldiff (2 ^ k) m = 0 := by
      apply Nat.eq_of_testBit_eq
      intro i
      rw [Nat.testBit_ldiff, Nat.testBit_two_pow, Nat.zero_testBit]
      by_cases hk : k = i
      · subst hk; simp at hb; simp [hb]
      · simp [hk]
    omega
  · intro h
    have : (Nat.ldiff (2 ^ k) m).testBit k = true := by
      rw [Nat.testBit_ldiff, Nat.testBit_two_pow, h]; simp
    rcases Nat.eq_zero_or_pos (Nat.ldiff (2 ^ k) m) with h0 | h0
    · rw [h0, Nat.zero_testBit] at this; cases this
    · exact h0

theorem int_land_two_pow_pos (flag : Int) (k : Nat) :
    Int.land flag (2 ^ k) > 0 ↔ flag.testBit k = true := by
  have h2 : (2 : Int) ^ k = ((2 ^ k : Nat) : Int) := by push_cast; rfl
  rw [h2]
  cases flag with
  | ofNat m =>
    show 0 < ((m &&& 2 ^ k : Nat) : Int) ↔ m.testBit k = true
    rw [← nat_land_two_pow_pos]; omega
  | negSucc m =>
    show 0 < ((Nat.ldiff (2 ^ k) m : Nat) : Int) ↔ (!m.testBit k) = true
    rw [Bool.not_eq_true', ← nat_ldiff_two_pow_pos]; omega

theorem engineCall_foldl_stopped (returns : EngineCall → Bool) (plan : List EngineCall)
    (t : List EngineCall) :
    plan.foldl (engineCall returns) (t, false) = (t, false) := by
  induction plan with
  | nil => rfl
  | cons c cs ih => simpa [List.foldl, engineCall] using ih

theorem engineCall_foldl_prefix (returns : EngineCall → Bool) (plan : List EngineCall) :
    ∀ st : List EngineCall × Bool,
      (plan.foldl (engineCall returns) st).1 <+: st.1 ++ plan := by
  induction plan with
  | nil => intro st; simp
  | cons c cs ih =>
    intro st
    rcases st with ⟨t, alive⟩
    cases alive with
    | false =>
      rw [engineCall_foldl_stopped]
      exact List.prefix_append _ _
    | true =>
      have h := ih (t ++ [c], returns c)
      simpa [List.foldl, engineCall] using h

theorem engineCall_foldl_all (plan : List EngineCall) :
    ∀ t : List EngineCall,
      plan.foldl (engineCall (fun _ => true)) (t, true) = (t ++ plan, true) := by
  induction plan with
  | nil => intro t; simp
  | cons c cs ih =>
    intro t
    have h := ih (t ++ [c])
    simpa [List.foldl, engineCall] using h

theorem main_inversion_eq (k : Nat) (returns : EngineCall → Bool) (model : Model)
    (hf : model.failed = false) (hg : model.generateSeismic = false)
    (hd : model.doInversion = true) :
    main (2 ^ k) returns 2 model =
      (((inversionCalls model.numberOfSimulations (model.outputFlag.testBit k)).foldl
          (engineCall returns) ([], true)).1,
        if ((inversionCalls model.numberOfSimulations (model.outputFlag.testBit k)).foldl
          (engineCall returns) ([], true)).2 = true then some 0 else none) := by
  have hc := int_land_two_pow_pos model.outputFlag k
  unfold main
  rw [if_neg (by decide), if_neg (by rw [hf]; decide)]
  dsimp only
  rw [if_pos hg, if_pos hd]
  by_cases hn : model.numberOfSimulations > 0
  · by_cases hb : model.outputFlag.testBit k = true
    · rw [if_pos hn, if_pos (hc.2 hb)]
      simp [inversionCalls, show 0 < model.numberOfSimulations from hn, hb, List.foldl]
    · rw [if_pos hn, if_neg (fun h => hb (hc.1 h))]
      simp [inversionCalls, show 0 < model.numberOfSimulations from hn, hb, List.foldl]
  · by_cases hb : model.outputFlag.testBit k = true
    · rw [if_neg hn, if_pos (hc.2 hb)]
      simp [inversionCalls, show ¬ 0 < model.numberOfSimulations from hn, hb, List.foldl]
    · rw [if_neg hn, if_neg (fun h => hb (hc.1 h))]
      simp [inversionCalls, show ¬ 0 < model.numberOfSimulations from hn, hb, List.foldl]

theorem inversionCalls_facts (n : Int) (c : Bool) :
    List.Sublist (inversionCalls n c) phaseOrder ∧
    (inversionCalls n c).count EngineCall.computePostMeanResidAndFFTCov = 1 ∧
    (EngineCall.simulate ∈ inversionCalls n c ↔ 0 < n) ∧
    (EngineCall.computePostCov ∈ inversionCalls n c ↔ c = true) := by
  by_cases hn : 0 < n <;> cases c <;>
    simp only [inversionCalls, hn, if_true, if_false] <;>
    refine ⟨by decide, by decide, ?_, ?_⟩ <;> simp

/-- C19: phase order of an inversion run in `main`, for `CORRELATION` a single
flag bit `2 ^ k`. With the model parsed without failure, generate-seismic off and
do-inversion on: when every engine call returns, `main` makes exactly the calls of
`inversionCalls` in that order and returns 0: the engine is constructed first,
`computePostMeanResidAndFFTCov` is called exactly once, `simulate` is called if
and only if the number of simulations is greater than 0, `computePostCov` if and
only if bit `k` of the output flag is set, then the facies-probability step; and
whether or not the calls return, the calls made are an initial part of that list,
which follows `phaseOrder`. For a model whose parsing failed, no engine call is
made and `main` returns 1. -/
theorem main_inversion_phase_order (k : Nat) (returns : EngineCall → Bool) (model : Model)
    (hf : model.failed = false) (hg : model.generateSeismic = false)
    (hd : model.doInversion = true) :
    main (2 ^ k) (fun _ => true) 2 model =
      (inversionCalls model.numberOfSimulations (model.outputFlag.testBit k), some 0) ∧
    (main (2 ^ k) returns 2 model).1 <+:
      inversionCalls model.numberOfSimulations (model.outputFlag.testBit k) ∧
    List.Sublist (main (2 ^ k) returns 2 model).1 phaseOrder ∧
    (inversionCalls model.numberOfSimulations (model.outputFlag.testBit k)).head? =
      some EngineCall.construct ∧
    (inversionCalls model.numberOfSimulations (model.outputFlag.testBit k)).count
      EngineCall.computePostMeanResidAndFFTCov = 1 ∧
    (EngineCall.simulate ∈
        inversionCalls model.numberOfSimulations (model.outputFlag.testBit k) ↔
      0 < model.numberOfSimulations) ∧
    (EngineCall.computePostCov ∈
        inversionCalls model.numberOfSimulations (model.outputFlag.testBit k) ↔
      model.outputFlag.testBit k = true) ∧
    (∀ (argc : Int) (m : Model),
      main (2 ^ k) returns argc { m with failed := true } = ([], some 1)) := by
  have hfacts := inversionCalls_facts model.numberOfSimulations (model.outputFlag.testBit k)
  have hpre : (main (2 ^ k) returns 2 model).1 <+:
      inversionCalls model.numberOfSimulations (model.outputFlag.testBit k) := by
    rw [main_inversion_eq k returns model hf hg hd]
    have h := engineCall_foldl_prefix returns
      (inversionCalls model.numberOfSimulations (model.outputFlag.testBit k)) ([], true)
    simpa using h
  refine ⟨?_, hpre, hpre.sublist.trans hfacts.1, rfl, hfacts.2.1, hfacts.2.2.1, hfacts.2.2.2, ?_⟩
  · rw [main_inversion_eq k _ model hf hg hd, engineCall_foldl_all]
    simp
  · intro argc m
    unfold main
    by_cases ha : argc ≠ 2
    · rw [if_pos ha]
    · rw [if_neg ha, if_pos rfl]

theorem main_inversion_phase_order_witness :
    main (2 ^ 1) (fun _ => true) 2 inversionModel =
      (inversionCalls inversionModel.numberOfSimulations (inversionModel.outputFlag.testBit 1),
        some 0) ∧
    (main (2 ^ 1) (fun c => decide (c ≠ EngineCall.simulate)) 2 inversionModel).1 <+:
      inversionCalls inversionModel.numberOfSimulations (inversionModel.outputFlag.testBit 1) ∧
    List.Sublist (main (2 ^ 1) (fun c => decide (c ≠ EngineCall.simulate)) 2 inversionModel).1
      phaseOrder ∧
    (inversionCalls inversionModel.numberOfSimulations
      (inversionModel.outputFlag.testBit 1)).head? = some EngineCall.construct ∧
    (inversionCalls inversionModel.numberOfSimulations
      (inversionModel.outputFlag.testBit 1)).count EngineCall.computePostMeanResidAndFFTCov = 1 ∧
    (EngineCall.simulate ∈
        inversionCalls inversionModel.numberOfSimulations
          (inversionModel.outputFlag.testBit 1) ↔
      0 < inversionModel.numberOfSimulations) ∧
    (EngineCall.computePostCov ∈
        inversionCalls inversionModel.numberOfSimulations
          (inversionModel.outputFlag.testBit 1) ↔
      inversionModel.outputFlag.testBit 1 = true) ∧
    (∀ (argc : Int) (m : Model),
      main (2 ^ 1) (fun c => decide (c ≠ EngineCall.simulate)) argc { m with failed := true } =
        ([], some 1)) :=
  main_inversion_phase_order 1 (fun c => decide (c ≠ EngineCall.simulate)) inversionModel
    (by decide) (by decide) (by decide)

theorem main_inversion_run_example :
    main 2 (fun _ => true) 2 inversionModel =
      ([EngineCall.construct, EngineCall.getWarning, EngineCall.printEnergyToScreen,
        EngineCall.computePostMeanResidAndFFTCov, EngineCall.simulate,
        EngineCall.computePostCov, EngineCall.computeFaciesProb, EngineCall.destroy],
        some 0) ∧
    main 2 (fun _ => true) 2 { inversionModel with numberOfSimulations := 0, outputFlag := 5 } =
      ([EngineCall.construct, EngineCall.getWarning, EngineCall.printEnergyToScreen,
        EngineCall.computePostMeanResidAndFFTCov, EngineCall.computeFaciesProb,
        EngineCall.destroy], some 0) ∧
    main 2 (fun c => decide (c ≠ EngineCall.simulate)) 2 inversionModel =
      ([EngineCall.construct, EngineCall.getWarning, EngineCall.printEnergyToScreen,
        EngineCall.computePostMeanResidAndFFTCov, EngineCall.simulate], none) := by
  decide

/-! ## The padded buffer holds the logical data -/

theorem two_tdiv_two_gt (n : Int) : 2 * (Int.tdiv n 2 + 1) > n := by
  rcases le_or_lt 0 n with h | h
  · rw [Int.tdiv_eq_ediv h (by decide)]; omega
  · obtain ⟨m, hm⟩ : ∃ m : Int, n = -m := ⟨-n, by omega⟩
    subst hm
    rw [Int.neg_tdiv, Int.tdiv_eq_ediv (by omega) (by decide)]; omega

theorem derivedSizes_exact {α : Type} (g : FFTGrid α) (hn : 0 ≤ g.nxp) (hy : 0 < g.nyp)
    (hz : 0 < g.nzp) (hfit : 2 * (Int.tdiv g.nxp 2 + 1) * g.nyp * g.nzp ≤ 2147483647) :
    g.derivedSizes.cnxp = Int.tdiv g.nxp 2 + 1 ∧
    g.derivedSizes.rnxp = 2 * (Int.tdiv g.nxp 2 + 1) ∧
    g.derivedSizes.csize = (Int.tdiv g.nxp 2 + 1) * g.nyp * g.nzp ∧
    g.derivedSizes.rsize = 2 * (Int.tdiv g.nxp 2 + 1) * g.nyp * g.nzp := by
  have e0 : Int.tdiv g.nxp 2 = g.nxp / 2 := Int.tdiv_eq_ediv hn (by decide)
  have hc : 1 ≤ Int.tdiv g.nxp 2 + 1 := by rw [e0]; omega
  show wrap32 (Int.tdiv g.nxp 2 + 1) = Int.tdiv g.nxp 2 + 1 ∧
    wrap32 (2 * wrap32 (Int.tdiv g.nxp 2 + 1)) = 2 * (Int.tdiv g.nxp 2 + 1) ∧
    wrap32 (wrap32 (wrap32 (Int.tdiv g.nxp 2 + 1) * g.nyp) * g.nzp) =
      (Int.tdiv g.nxp 2 + 1) * g.nyp * g.nzp ∧
    wrap32 (wrap32 (wrap32 (2 * wrap32 (Int.tdiv g.nxp 2 + 1)) * g.nyp) * g.nzp) =
      2 * (Int.tdiv g.nxp 2 + 1) * g.nyp * g.nzp
  generalize Int.tdiv g.nxp 2 + 1 = c at hfit hc ⊢
  have p1 : 0 ≤ c * g.nyp := mul_nonneg (by omega) (by omega)
  have p2 : c ≤ c * g.nyp := le_mul_of_one_le_right (by omega) (by omega)
  have p3 : c * g.nyp ≤ c * g.nyp * g.nzp := le_mul_of_one_le_right p1 (by omega)
  have q1 : 2 * c * g.nyp = 2 * (c * g.nyp) := by ring
  have q2 : 2 * c * g.nyp * g.nzp = 2 * (c * g.nyp * g.nzp) := by ring
  have f1 : wrap32 c = c := wrap32_of_fits _ ⟨by omega, by omega⟩
  have f2 : wrap32 (2 * c) = 2 * c := wrap32_of_fits _ ⟨by omega, by omega⟩
  have f3 : wrap32 (c * g.nyp) = c * g.nyp := wrap32_of_fits _ ⟨by omega, by omega⟩
  have f4 : wrap32 (c * g.nyp * g.nzp) = c * g.nyp * g.nzp :=
    wrap32_of_fits _ ⟨by omega, by omega⟩
  have f5 : wrap32 (2 * c * g.nyp) = 2 * c * g.nyp := wrap32_of_fits _ ⟨by omega, by omega⟩
  have f6 : wrap32 (2 * c * g.nyp * g.nzp) = 2 * c * g.nyp * g.nzp :=
    wrap32_of_fits _ ⟨by omega, by omega⟩
  refine ⟨f1, ?_, ?_, ?_⟩
  · rw [f1, f2]
  · rw [f1, f3, f4]
  · rw [f1, f2, f5, f6]

theorem derivedSizes_shaped {α : Type} (g : FFTGrid α) (hn : 0 ≤ g.nxp)
    (hx : g.nx ≤ g.nxp) (hy : g.ny ≤ g.nyp) (hz : g.nz ≤ g.nzp) (hy0 : 0 < g.nyp)
    (hz0 : 0 < g.nzp) (hfit : 2 * (Int.tdiv g.nxp 2 + 1) * g.nyp * g.nzp ≤ 2147483647) :
    g.derivedSizes.Shaped := by
  obtain ⟨e1, e2, e3, e4⟩ := derivedSizes_exact g hn hy0 hz0 hfit
  have e0 : Int.tdiv g.nxp 2 = g.nxp / 2 := Int.tdiv_eq_ediv hn (by decide)
  refine ⟨?_, ?_, ?_, ?_, hx, hy, hz⟩
  · rw [e1, e0]; rfl
  · rw [e2, e1]
  · rw [e3, e1]; rfl
  · rw [e4, e2]; rfl

theorem index_fits_inside {α : Type} (s : FFTFileGrid α) (i j k : Int)
    (hs : s.toFFTGrid.Shaped) (hin : ¬ s.toFFTGrid.Outside i j k)
    (hfit : s.rsize ≤ 2147483647) : s.IndexFits i j k := by
  have h0 := index_nonneg s i j k hs hin
  have h1 := index_lt_rsize s i j k hs hin
  obtain ⟨c1, c2, -, c4, c5, c6, c7⟩ := hs
  simp only [FFTGrid.Outside, not_or, not_lt, not_le] at hin
  obtain ⟨hi, hi2, hj, hj2, hk, hk2⟩ := hin
  unfold FFTFileGrid.index at h0 h1
  have hr : 0 ≤ s.rnxp := by omega
  have a1 : 0 ≤ s.rnxp * j := mul_nonneg hr hj
  have a2 : 0 ≤ k * s.rnxp := mul_nonneg hk hr
  have a3 : 0 ≤ k * s.rnxp * s.nyp := mul_nonneg a2 (by omega)
  have a4 : k * s.rnxp ≤ k * s.rnxp * s.nyp := le_mul_of_one_le_right a2 (by omega)
  have b1 : s.nyp ≤ s.rnxp * s.nyp := le_mul_of_one_le_left (by omega) (by omega)
  have b2 : s.rnxp * s.nyp ≤ s.rnxp * s.nyp * s.nzp :=
    le_mul_of_one_le_right (by omega) (by omega)
  have b3 : s.nzp ≤ s.rnxp * s.nyp * s.nzp := le_mul_of_one_le_left (by omega) (by omega)
  unfold FFTFileGrid.IndexFits FitsInt
  omega

/-- C22, amended: logical data lies inside the padded buffer when the sizes fit
an `int`. For extents with `0 < nx <= nxp`, `0 < ny <= nyp`, `0 < nz <= nzp`
whose number of reals `2*(nxp/2+1)*nyp*nzp` is at most `INT_MAX`: the sizes the
constructor derives are `cnxp = nxp/2+1`, `rnxp = 2*cnxp`, `rsize = rnxp*nyp*nzp`
and `csize = cnxp*nyp*nzp` without overflow, `rsize = 2*csize` and `rnxp > nxp`;
for every `(i,j,k)` inside the logical extents the position
`i + rnxp*j + k*rnxp*nyp` is computed without overflow and lies in `[0, rsize)`
(so `getRealValue` in `int` arithmetic is `getRealValue` with the exact position),
and in a random-access session on a spatial grid with its buffer loaded
`setRealValue(i,j,k,v)` writes that cell of the buffer and returns 0. -/
theorem logical_data_inside_buffer {α : Type} (s : FFTFileGrid α)
    (hx0 : 0 < s.nx) (hx : s.nx ≤ s.nxp) (hy0 : 0 < s.ny) (hy : s.ny ≤ s.nyp)
    (hz0 : 0 < s.nz) (hz : s.nz ≤ s.nzp)
    (hfit : 2 * (Int.tdiv s.nxp 2 + 1) * s.nyp * s.nzp ≤ 2147483647) :
    (s.withDerivedSizes.cnxp = Int.tdiv s.nxp 2 + 1 ∧
      s.withDerivedSizes.rnxp = 2 * s.withDerivedSizes.cnxp ∧
      s.withDerivedSizes.rsize = s.withDerivedSizes.rnxp * s.nyp * s.nzp ∧
      s.withDerivedSizes.csize = s.withDerivedSizes.cnxp * s.nyp * s.nzp ∧
      s.withDerivedSizes.rsize = 2 * s.withDerivedSizes.csize ∧
      s.withDerivedSizes.rnxp > s.nxp ∧ FitsInt s.withDerivedSizes.rsize) ∧
    (∀ i j k : Int, 0 ≤ i → i < s.nx → 0 ≤ j → j < s.ny → 0 ≤ k → k < s.nz →
      0 ≤ i + s.withDerivedSizes.rnxp * j + k * s.withDerivedSizes.rnxp * s.nyp ∧
      i + s.withDerivedSizes.rnxp * j + k * s.withDerivedSizes.rnxp * s.nyp <
        s.withDerivedSizes.rsize ∧
      s.withDerivedSizes.IndexFits i j k ∧
      s.withDerivedSizes.index32 i j k =
        i + s.withDerivedSizes.rnxp * j + k * s.withDerivedSizes.rnxp * s.nyp ∧
      s.withDerivedSizes.getRealValue32 i j k = s.withDerivedSizes.getRealValue i j k ∧
      (s.istransformed = false → s.accMode = AccMode.RANDOMACCESS →
        s.withDerivedSizes.toFFTGrid.Loaded → ∀ v : α,
        ∃ buf, s.withDerivedSizes.rvalue = some buf ∧
          (i + s.withDerivedSizes.rnxp * j + k * s.withDerivedSizes.rnxp * s.nyp).toNat <
            buf.length ∧
          s.withDerivedSizes.setRealValue i j k v =
            Except.ok (0, { s.withDerivedSizes with
              rvalue := some (buf.set
                (i + s.withDerivedSizes.rnxp * j +
                  k * s.withDerivedSizes.rnxp * s.nyp).toNat v) }))) := by
  obtain ⟨e1, e2, e3, e4⟩ := derivedSizes_exact s.toFFTGrid (by omega) (by omega) (by omega) hfit
  have hsh : s.withDerivedSizes.toFFTGrid.Shaped :=
    derivedSizes_shaped s.toFFTGrid (by omega) hx hy hz (by omega) (by omega) hfit
  have hrs : s.withDerivedSizes.rsize ≤ 2147483647 := by
    show s.toFFTGrid.derivedSizes.rsize ≤ 2147483647
    rw [e4]; exact hfit
  have hrs0 : 0 ≤ s.withDerivedSizes.rsize := by
    show 0 ≤ s.toFFTGrid.derivedSizes.rsize
    rw [e4]
    have hc : 0 ≤ Int.tdiv s.nxp 2 + 1 := by
      rw [Int.tdiv_eq_ediv (by omega) (by decide)]; omega
    exact mul_nonneg (mul_nonneg (mul_nonneg (by decide) hc) (by omega)) (by omega)
  refine ⟨⟨e1, ?_, ?_, ?_, ?_, ?_, ⟨by omega, hrs⟩⟩, ?_⟩
  · show s.toFFTGrid.derivedSizes.rnxp = 2 * s.toFFTGrid.derivedSizes.cnxp
    rw [e2, e1]
  · show s.toFFTGrid.derivedSizes.rsize = s.toFFTGrid.derivedSizes.rnxp * s.nyp * s.nzp
    rw [e4, e2]
  · show s.toFFTGrid.derivedSizes.csize = s.toFFTGrid.derivedSizes.cnxp * s.nyp * s.nzp
    rw [e3, e1]
  · show s.toFFTGrid.derivedSizes.rsize = 2 * s.toFFTGrid.derivedSizes.csize
    rw [e4, e3]; ring
  · show s.toFFTGrid.derivedSizes.rnxp > s.nxp
    rw [e2]; exact two_tdiv_two_gt s.nxp
  · intro i j k hi hi2 hj hj2 hk hk2
    have hin : ¬ s.withDerivedSizes.toFFTGrid.Outside i j k := by
      show ¬ (i < 0 ∨ s.nx ≤ i ∨ j < 0 ∨ s.ny ≤ j ∨ k < 0 ∨ s.nz ≤ k)
      omega
    have h0 := index_nonneg s.withDerivedSizes i j k hsh hin
    have h1 := index_lt_rsize s.withDerivedSizes i j k hsh hin
    have hf := index_fits_inside s.withDerivedSizes i j k hsh hin hrs
    refine ⟨h0, h1, hf, index32_eq_of_fits _ i j k hf, getRealValue32_eq_of_fits _ i j k hf,
      fun hdom hmode hl v => ?_⟩
    obtain ⟨buf, hb, hlen⟩ := loaded_cases _ hl
    have hlt : (s.withDerivedSizes.index i j k).toNat < buf.length := by omega
    exact ⟨buf, hb, hlt,
      setRealValue_inside s.withDerivedSizes i j k v buf hdom hmode hin hsh hb hlen⟩

/-- On `openGrid` (padded 2 x 1 x 1): the derived sizes are `rnxp = 4 > 2` and
`rsize = 4 = 2*2`, and the logical index `(1,0,0)` maps to position 1. -/
theorem logical_data_inside_buffer_witness :
    openGrid.withDerivedSizes.rsize = 4 ∧ openGrid.withDerivedSizes.csize = 2 ∧
    openGrid.withDerivedSizes.rnxp = 4 ∧ openGrid.nxp = 2 ∧
    (0 : Int) ≤ 1 + openGrid.withDerivedSizes.rnxp * 0 +
      0 * openGrid.withDerivedSizes.rnxp * openGrid.nyp ∧
    1 + openGrid.withDerivedSizes.rnxp * 0 +
      0 * openGrid.withDerivedSizes.rnxp * openGrid.nyp < openGrid.withDerivedSizes.rsize ∧
    openGrid.withDerivedSizes.IndexFits 1 0 0 ∧
    openGrid.withDerivedSizes.setRealValue 1 0 0 99 =
      Except.ok (0, { openGrid with rvalue := some [10, 99, 30, 40] }) := by
  have h := (logical_data_inside_buffer openGrid (by decide) (by decide) (by decide)
    (by decide) (by decide) (by decide) (by decide)).2 1 0 0 (by decide) (by decide)
    (by decide) (by decide) (by decide) (by decide)
  exact ⟨by decide, by decide, by decide, by decide, h.1, h.2.1, h.2.2.1, by decide⟩

/-- Extents that each fit an `int` do not keep the derived sizes inside one: for
`wideGrid` (2048 x 2048 x 512, logical and padded) `csize_` is 1074790400 and
`rsize_ = 2050*2048*512` wraps to -2145386496, so `rsize = 2*csize` fails and the
position 0 of the logical index `(0,0,0)` is not below `rsize`. -/
theorem derived_sizes_overflow :
    0 < wideGrid.nx ∧ wideGrid.nx ≤ wideGrid.nxp ∧ 0 < wideGrid.ny ∧
    wideGrid.ny ≤ wideGrid.nyp ∧ 0 < wideGrid.nz ∧ wideGrid.nz ≤ wideGrid.nzp ∧
    FitsInt wideGrid.nxp ∧ FitsInt wideGrid.nyp ∧ FitsInt wideGrid.nzp ∧
    wideGrid.withDerivedSizes.cnxp = 1025 ∧ wideGrid.withDerivedSizes.rnxp = 2050 ∧
    wideGrid.withDerivedSizes.csize = 1074790400 ∧
    wideGrid.withDerivedSizes.rsize = -2145386496 ∧
    wideGrid.withDerivedSizes.rsize ≠ 2 * wideGrid.withDerivedSizes.csize ∧
    ¬ (0 + wideGrid.withDerivedSizes.rnxp * 0 + 0 * wideGrid.withDerivedSizes.rnxp *
      wideGrid.nyp < wideGrid.withDerivedSizes.rsize) := by
  decide

/-! ## Read-your-write inside a random-access session -/

theorem fsRead_filter_other {α : Type} (fs : FileSys α) (name other : String)
    (h : other ≠ name) :
    fsRead (fs.filter (fun e => decide (e.1 ≠ name))) other = fsRead fs other := by
  induction fs with
  | nil => rfl
  | cons e rest ih =>
    obtain ⟨n, c⟩ := e
    by_cases h2 : n = name
    · have hno : ¬ n = other := fun e => h (e.symm.trans h2)
      simp only [List.filter, h2, ne_eq, not_true_eq_false, decide_False, fsRead] at ih ⊢
      rw [if_neg (by rw [← h2]; exact hno)]
      exact ih
    · simp only [List.filter, h2, ne_eq, not_false_eq_true, decide_True, fsRead] at ih ⊢
      rw [ih]

theorem fsRead_fsWrite_other {α : Type} (fs : FileSys α) (name other : String) (c : List α)
    (h : other ≠ name) : fsRead (fsWrite fs name c) other = fsRead fs other := by
  unfold fsWrite
  simp only [fsRead]
  rw [if_neg (fun e => h e.symm)]
  exact fsRead_filter_other fs name other h

theorem combine_files {α σ : Type} (A : GridArg σ α) (f : α → α → α) (junk : Nat → α)
    (s s1 : FFTFileGrid α) (a a1 : σ) (fs fs1 : FileSys α)
    (h : FFTFileGrid.combine A f junk s a fs = Except.ok (s1, a1, fs1)) :
    fs1 = fs ∨ ∃ file, fs1 = fsWrite fs s.fNameOut file := by
  unfold FFTFileGrid.combine at h
  split at h
  · dsimp only at h
    split at h
    · exact absurd h (by simp)
    · rename_i t ht
      obtain ⟨e1, e2, -⟩ := entered_names junk s t fs ht
      split at h
      · split at h
        · exact absurd h (by simp)
        · split at h
          · exact absurd h (by simp)
          · split at h
            · exact absurd h (by simp)
            · split at h
              · split at h
                · exact absurd h (by simp)
                · rename_i t3 fs3 hsave
                  simp only [Except.ok.injEq, Prod.mk.injEq] at h
                  obtain ⟨-, -, file, k3⟩ := save_names _ t3 fs fs3 hsave
                  rw [← h.2.2, k3]
                  exact Or.inr ⟨file, by rw [← e2]⟩
              · simp only [Except.ok.injEq, Prod.mk.injEq] at h
                exact Or.inl h.2.2.symm
      · exact absurd h (by simp)
  · exact absurd h (by simp)

theorem combine_arg_not_opened {α σ : Type} (A : GridArg σ α) (f : α → α → α)
    (junk : Nat → α) (s : FFTFileGrid α) (fftGrid : σ) (fs : FileSys α) (b : List α)
    (e : Fault) (hold : s.Holds fs b) (hlen : b.length = s.rsize.toNat)
    (hn : s.nxp = A.getNxp fftGrid)
    (hopen : A.setAccessMode AccMode.READ fftGrid = Except.error e) :
    FFTFileGrid.combine A f junk s fftGrid fs = Except.error e := by
  rcases hold with ⟨hm, -, -⟩ | ⟨hm, name, hname, hfile⟩
  · have hnn : ¬ s.accMode ≠ AccMode.RANDOMACCESS := by simp [hm]
    unfold FFTFileGrid.combine
    rw [if_pos (Or.inr hm)]
    dsimp only
    rw [if_neg hnn]
    dsimp only
    rw [if_pos hn, hopen]
  · have hne : s.accMode ≠ AccMode.RANDOMACCESS := by rw [hm]; decide
    unfold FFTFileGrid.combine
    rw [if_pos (Or.inl hm)]
    dsimp only
    rw [if_pos hne, load_saved junk s fs name b (Or.inl hm) hname hfile hlen]
    dsimp only
    rw [if_pos (show (s.resident b).nxp = A.getNxp fftGrid from hn), hopen]

theorem fileArg_readReals {α : Type} (junk : Nat → α) (fs : FileSys α) :
    ∀ (n : Nat) (a : FFTFileGrid α) (c : List α), a.istransformed = false →
      a.accMode = AccMode.READ → a.inFile = some c → n ≤ c.length →
      (fileArg junk fs).readReals n a =
        Except.ok (c.take n, { a with inFile := some (c.drop n) }) := by
  intro n
  induction n with
  | zero =>
    intro a c _ _ hin _
    simp only [GridArg.readReals, List.take_zero, List.drop_zero]
    rw [← hin]
  | succ n ih =>
    intro a c hdom hmode hin hl
    cases c with
    | nil => simp at hl
    | cons v rest =>
      have hg : (fileArg junk fs).getNextReal a =
          Except.ok (v, { a with inFile := some rest }) := by
        show a.getNextReal = _
        simp only [FFTFileGrid.getNextReal, hdom, hmode, hin, if_true, true_or]
      have h1 := ih { a with inFile := some rest } rest hdom hmode rfl
        (by simpa using hl)
      simp only [GridArg.readReals, hg, h1, List.take_succ_cons, List.drop_succ_cons]

theorem fileArg_readComplexes {α : Type} (junk : Nat → α) (fs : FileSys α) :
    ∀ (n : Nat) (a : FFTFileGrid α) (c : List α), a.istransformed = true →
      a.accMode = AccMode.READ → a.inFile = some c → 2 * n ≤ c.length →
      ∃ cs, (fileArg junk fs).readComplexes n a =
          Except.ok (cs, { a with inFile := some (c.drop (2 * n)) }) ∧
        ∀ q, q < n → ∃ re im, c.get? (2 * q) = some re ∧ c.get? (2 * q + 1) = some im ∧
          cs.get? q = some (re, im) := by
  intro n
  induction n with
  | zero =>
    intro a c _ _ hin _
    refine ⟨[], ?_, fun q hq => absurd hq (by omega)⟩
    simp only [GridArg.readComplexes, Nat.mul_zero, List.drop_zero]
    rw [← hin]
  | succ n ih =>
    intro a c hdom hmode hin hl
    match c, hin, hl with
    | [], _, hl => simp at hl
    | [_], _, hl => simp at hl; omega
    | re :: im :: rest, hin, hl =>
      have hg : (fileArg junk fs).getNextComplex a =
          Except.ok ((re, im), { a with inFile := some rest }) := by
        show a.getNextComplex = _
        simp only [FFTFileGrid.getNextComplex, hdom, hmode, hin, if_true, true_or]
      obtain ⟨cs, h1, h2⟩ := ih { a with inFile := some rest } rest hdom hmode rfl
        (by simp only [List.length_cons] at hl; omega)
      refine ⟨(re, im) :: cs, ?_, fun q hq => ?_⟩
      · have e : 2 * (n + 1) = (2 * n + 1) + 1 := by ring
        simp only [GridArg.readComplexes, hg, h1, e, List.drop_succ_cons]
      · cases q with
        | zero => exact ⟨re, im, rfl, rfl, rfl⟩
        | succ q =>
          obtain ⟨r, i, e1, e2, e3⟩ := h2 q (by omega)
          have k1 : 2 * (q + 1) = (2 * q + 1) + 1 := by ring
          have k2 : 2 * (q + 1) + 1 = ((2 * q + 1) + 1) + 1 := by ring
          refine ⟨r, i, ?_, ?_, ?_⟩
          · rw [k1]; simpa using e1
          · rw [k2]; simpa using e2
          · simpa using e3

theorem fileArg_open {α : Type} (junk : Nat → α) (fs : FileSys α) (a : FFTFileGrid α)
    (an : String) (c : List α) (hmode : a.accMode = AccMode.NONE)
    (han : a.fNameIn = some an) (hc : fsRead fs an = some c) :
    (fileArg junk fs).setAccessMode AccMode.READ a =
      Except.ok { a with inFile := some c, accMode := AccMode.READ } := by
  show (match a.setAccessMode junk AccMode.READ fs with
    | Except.error e => Except.error e
    | Except.ok (a1, _) => Except.ok a1) = _
  have hb : a.fNameIn.bind (fsRead fs) = some c := by rw [han]; exact hc
  rw [setAccessMode_read_eq junk a fs hmode]
  dsimp only
  rw [hb]

theorem fileArg_open_fails {α : Type} (junk : Nat → α) (fs : FileSys α) (a : FFTFileGrid α)
    (hmode : a.accMode ≠ AccMode.NONE) :
    (fileArg junk fs).setAccessMode AccMode.READ a = Except.error Fault.assertion := by
  show (match a.setAccessMode junk AccMode.READ fs with
    | Except.error e => Except.error e
    | Except.ok (a1, _) => Except.ok a1) = _
  simp only [FFTFileGrid.setAccessMode, hmode, if_false]

theorem fileArg_close {α : Type} (junk : Nat → α) (fs : FileSys α) (a : FFTFileGrid α)
    (rest : List α) (hmode : a.accMode = AccMode.READ) (hin : a.inFile = some rest) :
    (fileArg junk fs).endAccess a =
      Except.ok { a with inFile := none, accMode := AccMode.NONE } := by
  show (match a.endAccess fs with
    | Except.error e => Except.error e
    | Except.ok (a1, _) => Except.ok a1) = _
  simp only [FFTFileGrid.endAccess, hmode, hin]

/-- C21: `add` is elementwise addition, for a disk-backed argument grid `a` of
the same `nxp` and domain whose input file holds `c`, `rsize_` reals, under a
name other than the receiver's output name. The receiver has the constructor's
derived sizes and samples `b` (in memory inside a random-access session, in its
input file outside one). When the argument is not in mode NONE, `add` fails its
assertion. When it is, `add` returns; on a spatial grid every real sample
`i < rsize_` becomes `old_i + other_i`, on a frequency grid every complex sample
`i < csize_` becomes `(old.re + other.re, old.im + other.im)`, where `other` is
the `i`-th sample of the argument's file; the argument is handed back in mode
NONE with its members as before and its file still holds `c`. -/
theorem add_elementwise {α : Type} [Add α] (junk junkA : Nat → α) (s a : FFTFileGrid α)
    (fs : FileSys α) (b c : List α) (an : String)
    (hold : s.Holds fs b) (hlen : b.length = s.rsize.toNat) (hs : s.toFFTGrid.Shaped)
    (hn : s.nxp = a.nxp) (hdom : a.istransformed = s.istransformed)
    (han : a.fNameIn = some an) (hc : fsRead fs an = some c)
    (hcl : c.length = s.rsize.toNat) (hne : an ≠ s.fNameOut) :
    (a.accMode ≠ AccMode.NONE →
      s.add (fileArg junkA fs) junk a fs = Except.error Fault.assertion) ∧
    (a.accMode = AccMode.NONE →
      ∃ s1 fs1 b1,
        s.add (fileArg junkA fs) junk a fs = Except.ok (s1, { a with inFile := none }, fs1) ∧
        s1.Holds fs1 b1 ∧ b1.length = b.length ∧
        s1.istransformed = s.istransformed ∧ s1.accMode = s.accMode ∧
        (s.istransformed = false → ∀ i, i < s.rsize.toNat →
          ∃ x v, b.get? i = some x ∧ c.get? i = some v ∧ b1.get? i = some (x + v)) ∧
        (s.istransformed = true → ∀ i, i < s.csize.toNat →
          ∃ re im vre vim, b.get? (2 * i) = some re ∧ b.get? (2 * i + 1) = some im ∧
            c.get? (2 * i) = some vre ∧ c.get? (2 * i + 1) = some vim ∧
            b1.get? (2 * i) = some (re + vre) ∧ b1.get? (2 * i + 1) = some (im + vim)) ∧
        ({ a with inFile := none } : FFTFileGrid α).accMode = AccMode.NONE ∧
        fsRead fs1 an = some c) := by
  have h2 := shaped_rsize _ hs
  constructor
  · intro hm
    exact combine_arg_not_opened (fileArg junkA fs) _ junk s a fs b Fault.assertion hold hlen hn
      (fileArg_open_fails junkA fs a hm)
  · intro hm
    have hopen := fileArg_open junkA fs a an c hm han hc
    have hfiles : ∀ s1 a3 fs1, s.add (fileArg junkA fs) junk a fs = Except.ok (s1, a3, fs1) →
        fsRead fs1 an = some c := by
      intro s1 a3 fs1 h
      rcases combine_files (fileArg junkA fs) _ junk s s1 a a3 fs fs1 h with e | ⟨file, e⟩
      · rw [e]; exact hc
      · rw [e, fsRead_fsWrite_other fs s.fNameOut an file hne]; exact hc
    have hback : ∀ rest : List α,
        ({ ({ a with inFile := some c, accMode := AccMode.READ } : FFTFileGrid α) with
            inFile := some rest } : FFTFileGrid α) =
          { a with inFile := some rest, accMode := AccMode.READ } := fun _ => rfl
    have hclose : ∀ rest : List α,
        (fileArg junkA fs).endAccess
          ({ a with inFile := some rest, accMode := AccMode.READ } : FFTFileGrid α) =
          Except.ok { a with inFile := none } := by
      intro rest
      rw [fileArg_close junkA fs _ rest rfl rfl]
      show Except.ok ({ a with inFile := none, accMode := AccMode.NONE } : FFTFileGrid α) = _
      rw [← hm]
    cases hd : s.istransformed with
    | false =>
      have hread := fileArg_readReals junkA fs s.rsize.toNat
        { a with inFile := some c, accMode := AccMode.READ } c (by rw [← hd]; exact hdom) rfl rfl
        (by omega)
      rw [hback] at hread
      obtain ⟨b1, hl, hlen1, -, hpt⟩ := realLoop_spec (fileArg junkA fs) (fun x y => x + y)
        s.rsize.toNat 0 b _ _ _ hread (by omega)
      obtain ⟨s1, fs1, hcmb, hh, hmode1, hdom1⟩ := combine_samples (fileArg junkA fs)
        (fun x y => x + y) junk s a _ _ _ fs b b1 hold hlen hn hopen
        (by rw [if_neg (by rw [hd]; decide)]; exact hl) hlen1 (hclose _)
      refine ⟨s1, fs1, b1, hcmb, hh, hlen1, by rw [hdom1, hd], hmode1, fun _ i hi => ?_,
        fun h => absurd h (by decide), hm, hfiles _ _ _ hcmb⟩
      obtain ⟨x, v, e1, e2, e3⟩ := hpt i hi
      rw [Nat.zero_add] at e1 e3
      refine ⟨x, v, e1, ?_, e3⟩
      rw [← e2, List.get?_eq_getElem?, List.get?_eq_getElem?, List.getElem?_take]
      simp [hi]
    | true =>
      obtain ⟨cs, hread, hcs⟩ := fileArg_readComplexes junkA fs s.csize.toNat
        { a with inFile := some c, accMode := AccMode.READ } c (by rw [← hd]; exact hdom) rfl rfl
        (by omega)
      rw [hback] at hread
      obtain ⟨b1, hl, hlen1, -, hpt⟩ := complexLoop_spec (fileArg junkA fs) (fun x y => x + y)
        s.csize.toNat 0 b _ _ _ hread (by omega)
      obtain ⟨s1, fs1, hcmb, hh, hmode1, hdom1⟩ := combine_samples (fileArg junkA fs)
        (fun x y => x + y) junk s a _ _ _ fs b b1 hold hlen hn hopen
        (by rw [if_pos hd]; exact hl) hlen1 (hclose _)
      refine ⟨s1, fs1, b1, hcmb, hh, hlen1, by rw [hdom1, hd], hmode1,
        fun h => absurd h (by decide), fun _ i hi => ?_, hm, hfiles _ _ _ hcmb⟩
      obtain ⟨re, im, cc, e1, e2, e3, e4, e5⟩ := hpt i hi
      obtain ⟨vre, vim, k1, k2, k3⟩ := hcs i hi
      rw [Nat.zero_add] at e1 e2 e4 e5
      rw [k3] at e3
      have hcc : cc = (vre, vim) := (Option.some.inj e3).symm
      subst hcc
      exact ⟨re, im, vre, vim, e1, e2, k1, k2, e4, e5⟩

/-- Adding `otherGrid` (file 1, 2, 3, 4) to `savedGrid` (file 10, 20, 30, 40)
outside a session: the receiver's new input file holds 11, 22, 33, 44, and the
argument is handed back unchanged with its file as before. -/
theorem add_elementwise_witness :
    savedGrid.Holds twoFiles [10, 20, 30, 40] ∧ savedGrid.toFFTGrid.Shaped ∧
    savedGrid.nxp = otherGrid.nxp ∧ otherGrid.accMode = AccMode.NONE ∧
    (∃ s1 fs1 b1, savedGrid.add (fileArg (fun _ => 0) twoFiles) (fun _ => 0) otherGrid twoFiles =
        Except.ok (s1, { otherGrid with inFile := none }, fs1) ∧
      s1.Holds fs1 b1 ∧ b1.length = 4 ∧ fsRead fs1 "tmpgrid1" = some [1, 2, 3, 4]) ∧
    savedGrid.add (fileArg (fun _ => 0) twoFiles) (fun _ => 0) otherGrid twoFiles =
      Except.ok ({ savedGrid with fNameIn := some "tmpgrid0b", fNameOut := "tmpgrid0" },
        otherGrid, fsWrite twoFiles "tmpgrid0b" [11, 22, 33, 44]) := by
  have hold : savedGrid.Holds twoFiles [10, 20, 30, 40] :=
    Or.inr ⟨by decide, "tmpgrid0", by decide, by decide⟩
  refine ⟨hold, by decide, by decide, by decide, ?_, by decide⟩
  obtain ⟨s1, fs1, b1, h1, h2, h3, -, -, -, -, -, h4⟩ :=
    (add_elementwise (fun _ => 0) (fun _ => 0) savedGrid otherGrid twoFiles [10, 20, 30, 40]
      [1, 2, 3, 4] "tmpgrid1" hold (by decide) (by decide) (by decide) (by decide) (by decide)
      (by decide) (by decide) (by decide)).2 (by decide)
  exact ⟨s1, fs1, b1, h1, h2, h3, h4⟩

/-! ## Volume fractions of a fluid mix -/

theorem take_set_self {α : Type} (l : List α) (n : Nat) (a : α) :
    (l.set n a).take n = l.take n := by
  apply List.ext_getElem?
  intro i
  by_cases h : i < n
  · rw [List.getElem?_take_of_lt h, List.getElem?_take_of_lt h, List.getElem?_set]
    rw [if_neg (by omega)]
  · rw [List.getElem?_eq_none (by simp; omega), List.getElem?_eq_none (by simp; omega)]

theorem sum_split_at {K : Type} [Ring K] (l : List K) (n : Nat) (x : K)
    (h : l.get? n = some x) :
    l.sum = (l.take n).sum + x + (l.drop (n + 1)).sum := by
  have hn : n < l.length := by
    rw [List.get?_eq_getElem?] at h
    exact (List.getElem?_eq_some_iff.mp h).1
  have hx : l[n] = x := by
    rw [List.get?_eq_getElem?, List.getElem?_eq_getElem hn] at h
    exact Option.some.inj h
  rw [← List.sum_take_add_sum_drop l n, List.drop_eq_getElem_cons hn, List.sum_cons, hx]
  abel

theorem fractionLoop_spec {K : Type} [DecidableEq K] (R : K)
    (distr : List (Option (K → K → K → K))) (u : List K) (t0 t1 : K) (rest : List K)
    (n : Nat) (hu : n ≤ u.length)
    (hd : ∀ i ui, i < n → u.get? i = some ui → ui ≠ R → ∃ d, distr.get? i = some (some d)) :
    ∀ (m i : Nat) (vf : List K) (mi : Nat), i + m = n → vf.length = n →
      ∃ vf1 mi1,
        DistributionsFluidMix.fractionLoop R distr u (t0 :: t1 :: rest) m i vf mi =
          Except.ok (vf1, mi1) ∧
        vf1.length = n ∧
        (∀ j, j < i → vf1.get? j = vf.get? j) ∧
        (∀ j ui, i ≤ j → j < n → u.get? j = some ui → ui ≠ R →
          ∃ d, distr.get? j = some (some d) ∧ vf1.get? j = some (d ui t0 t1)) ∧
        (∀ j, i ≤ j → j < n → u.get? j = some R → vf1.get? j = vf.get? j) ∧
        ((mi1 = mi ∧ ∀ j, i ≤ j → j < n → u.get? j ≠ some R) ∨
          (i ≤ mi1 ∧ mi1 < n ∧ u.get? mi1 = some R ∧
            ∀ j, mi1 < j → j < n → u.get? j ≠ some R)) := by
  intro m
  induction m with
  | zero =>
    intro i vf mi him hlen
    refine ⟨vf, mi, rfl, hlen, fun _ _ => rfl, fun j ui h1 h2 => absurd h2 (by omega),
      fun j h1 h2 => absurd h2 (by omega), Or.inl ⟨rfl, fun j h1 h2 => absurd h2 (by omega)⟩⟩
  | succ m ih =>
    intro i vf mi him hlen
    have hi : i < n := by omega
    have hiu : i < u.length := by omega
    have hget : u.get? i = some (u.get ⟨i, hiu⟩) := List.get?_eq_get hiu
    by_cases hR : u.get ⟨i, hiu⟩ = R
    · obtain ⟨vf1, mi1, h1, h2, h3, h4, h5, h6⟩ := ih (i + 1) vf i (by omega) hlen
      have hgetR : u.get? i = some R := by rw [hget, hR]
      refine ⟨vf1, mi1, ?_, h2, fun j hj => h3 j (by omega), fun j ui hj1 hj2 hj3 hj4 => ?_,
        fun j hj1 hj2 hj3 => ?_, ?_⟩
      · simp only [DistributionsFluidMix.fractionLoop, hget, hR, ne_eq, not_true_eq_false,
          if_false]
        exact h1
      · have hne : j ≠ i := by
          intro e; subst e; rw [hgetR] at hj3; exact hj4 (Option.some.inj hj3).symm
        exact h4 j ui (by omega) hj2 hj3 hj4
      · by_cases e : j = i
        · subst e; exact h3 j (by omega)
        · exact h5 j (by omega) hj2 hj3
      · rcases h6 with ⟨e, hnone⟩ | ⟨e1, e2, e3, e4⟩
        · exact Or.inr ⟨by omega, by omega, by rw [e]; exact hgetR,
            fun j hj1 hj2 => hnone j (by omega) hj2⟩
        · exact Or.inr ⟨by omega, e2, e3, e4⟩
    · obtain ⟨d, hdi⟩ := hd i _ hi hget hR
      obtain ⟨vf1, mi1, h1, h2, h3, h4, h5, h6⟩ :=
        ih (i + 1) (vf.set i (d (u.get ⟨i, hiu⟩) t0 t1)) mi (by omega)
          (by rw [List.length_set]; exact hlen)
      refine ⟨vf1, mi1, ?_, h2, fun j hj => ?_, fun j ui hj1 hj2 hj3 hj4 => ?_,
        fun j hj1 hj2 hj3 => ?_, ?_⟩
      · simp only [DistributionsFluidMix.fractionLoop, hget, hR, ne_eq, not_false_eq_true,
          if_true, hdi]
        exact h1
      · rw [h3 j (by omega)]
        exact get?_set_other vf i j _ (by omega)
      · by_cases e : j = i
        · subst e
          rw [hget] at hj3
          have hui : u.get ⟨j, hiu⟩ = ui := Option.some.inj hj3
          refine ⟨d, hdi, ?_⟩
          rw [h3 j (by omega), ← hui]
          exact get?_set_same vf j _ (by omega)
        · exact h4 j ui (by omega) hj2 hj3 hj4
      · have hne : j ≠ i := by
          intro e; subst e; rw [hget] at hj3; exact hR (Option.some.inj hj3)
        rw [h5 j (by omega) hj2 hj3]
        exact get?_set_other vf i j _ hne
      · rcases h6 with ⟨e, hnone⟩ | ⟨e1, e2, e3, e4⟩
        · refine Or.inl ⟨e, fun j hj1 hj2 => ?_⟩
          by_cases ej : j = i
          · subst ej; rw [hget]; exact fun h => hR (Option.some.inj h)
          · exact hnone j (by omega) hj2
        · exact Or.inr ⟨by omega, e2, e3, e4⟩

theorem generateU_ready {K : Type} (R : K) (draws : Nat → K) :
    ∀ (distr : List (Option (K → K → K → K))) (k i : Nat) (ui : K),
      (DistributionsFluidMix.generateU R draws distr k).get? i = some ui → ui ≠ R →
      ∃ d, distr.get? i = some (some d) := by
  intro distr
  induction distr with
  | nil => intro k i ui h _; simp [DistributionsFluidMix.generateU] at h
  | cons e rest ih =>
    intro k i ui h hne
    cases e with
    | none =>
      cases i with
      | zero =>
        simp only [DistributionsFluidMix.generateU, List.get?_cons_zero, Option.some.injEq] at h
        exact absurd h.symm hne
      | succ i =>
        simp only [DistributionsFluidMix.generateU, List.get?_cons_succ] at h
        simpa using ih k i ui h hne
    | some d =>
      cases i with
      | zero => exact ⟨d, rfl⟩
      | succ i =>
        simp only [DistributionsFluidMix.generateU, List.get?_cons_succ] at h
        simpa using ih (k + 1) i ui h hne

theorem generateU_length {K : Type} (R : K) (draws : Nat → K) :
    ∀ (distr : List (Option (K → K → K → K))) (k : Nat),
      (DistributionsFluidMix.generateU R draws distr k).length = distr.length := by
  intro distr
  induction distr with
  | nil => intro k; rfl
  | cons e rest ih =>
    intro k
    cases e <;> simp [DistributionsFluidMix.generateU, ih]

/-- C24: the volume fractions of `GetSample`. When `u` has an entry for each of
the `n` fluids, every fluid with `u[i] != RMISSING` has a volume-fraction
distribution, and two trend parameters are given, `GetSample` returns `n`
fractions: a fluid whose `u[i]` is not `RMISSING` gets the quantile value of its
distribution at `u[i]` (so with no missing entry the fractions are the quantile
values); when at least one `u[i]` is `RMISSING` the fractions sum to 1; and when
`l` is the last index with `u[l] = RMISSING`, every other missing fluid gets 0
and fluid `l` gets 1 minus the sum of all the others. -/
theorem getSample_fractions {K : Type} [Ring K] [DecidableEq K] (R : K)
    (distr : List (Option (K → K → K → K))) (u : List K) (t0 t1 : K) (rest : List K)
    (n : Nat) (hu : n ≤ u.length)
    (hd : ∀ i ui, i < n → u.get? i = some ui → ui ≠ R → ∃ d, distr.get? i = some (some d)) :
    ∃ vf, DistributionsFluidMix.GetSample R distr u (t0 :: t1 :: rest) n = Except.ok vf ∧
      vf.length = n ∧
      (∀ j ui, j < n → u.get? j = some ui → ui ≠ R →
        ∃ d, distr.get? j = some (some d) ∧ vf.get? j = some (d ui t0 t1)) ∧
      ((∃ i, i < n ∧ u.get? i = some R) → vf.sum = 1) ∧
      (∀ l, l < n → u.get? l = some R → (∀ j, l < j → j < n → u.get? j ≠ some R) →
        vf.get? l = some (1 - ((vf.take l).sum + (vf.drop (l + 1)).sum)) ∧
        vf.sum = 1 ∧
        ∀ j, j < n → j ≠ l → u.get? j = some R → vf.get? j = some 0) := by
  obtain ⟨vf1, mi1, h1, h2, -, h4, h5, h6⟩ :=
    fractionLoop_spec R distr u t0 t1 rest n hu hd n 0 (List.replicate n 0) n (by omega)
      (List.length_replicate n 0)
  have hzero : ∀ j, j < n → u.get? j = some R → vf1.get? j = some 0 := by
    intro j hj hjR
    rw [h5 j (by omega) hj hjR, List.get?_eq_getElem?, List.getElem?_replicate, if_pos hj]
  rcases h6 with ⟨e, hnone⟩ | ⟨-, e2, e3, e4⟩
  · refine ⟨vf1, ?_, h2, fun j ui hj hju hne => h4 j ui (by omega) hj hju hne,
      fun ⟨i, hi, hiR⟩ => absurd hiR (hnone i (by omega) hi),
      fun l hl hlR _ => absurd hlR (hnone l (by omega) hl)⟩
    simp only [DistributionsFluidMix.GetSample, h1, e, ne_eq, not_true_eq_false, if_false]
  · have hmi : mi1 ≠ n := by omega
    have hlt : mi1 < vf1.length := by omega
    have hsum : vf1.foldl (fun acc x => acc + x) 0 = vf1.sum := List.sum_eq_foldl.symm
    have hsplit := sum_split_at vf1 mi1 0 (hzero mi1 e2 e3)
    have hsum1 : (vf1.set mi1 (1 - vf1.sum)).sum = 1 := by
      rw [List.sum_set, if_pos hlt, hsplit]
      abel
    refine ⟨vf1.set mi1 (1 - vf1.sum), ?_, by rw [List.length_set]; exact h2,
      fun j ui hj hju hne => ?_, fun _ => hsum1, fun l hl hlR hlast => ?_⟩
    · simp only [DistributionsFluidMix.GetSample, h1, hmi, ne_eq, not_false_eq_true, if_true,
        hsum]
    · obtain ⟨d, hdj, hv⟩ := h4 j ui (by omega) hj hju hne
      have hjm : j ≠ mi1 := by
        intro e; subst e; rw [e3] at hju; exact hne (Option.some.inj hju).symm
      exact ⟨d, hdj, by rw [get?_set_other vf1 mi1 j _ hjm]; exact hv⟩
    · have hl1 : l = mi1 := by
        rcases lt_trichotomy l mi1 with h | h | h
        · exact absurd e3 (hlast mi1 h e2)
        · exact h
        · exact absurd hlR (e4 l h hl)
      subst hl1
      have htake : ((vf1.set l (1 - vf1.sum)).take l) = vf1.take l := take_set_self vf1 l _
      have hdrop : ((vf1.set l (1 - vf1.sum)).drop (l + 1)) = vf1.drop (l + 1) :=
        List.drop_set_of_lt _ vf1 (by omega)
      have hothers : (vf1.take l).sum + (vf1.drop (l + 1)).sum = vf1.sum := by
        rw [hsplit]; abel
      refine ⟨?_, ?_, fun j hj hjl hjR => ?_⟩
      · rw [htake, hdrop, hothers]
        exact get?_set_same vf1 l _ hlt
      · exact hsum1
      · rw [get?_set_other vf1 l j _ hjl]
        exact hzero j hj hjR

/-- Three fluids, the first and the last without a volume-fraction distribution:
with the draw 1/4 for the second, `GenerateSample` hands over
`u = [RMISSING, 1/4, RMISSING]` and the fractions are 0, 1/4, 3/4. -/
theorem getSample_fractions_witness :
    DistributionsFluidMix.generateU (-999) (fun _ => 1 / 4) demoFractions 0 =
      [-999, 1 / 4, -999] ∧
    (∃ vf, DistributionsFluidMix.GetSample (-999) demoFractions
        (DistributionsFluidMix.generateU (-999) (fun _ => 1 / 4) demoFractions 0) [0, 0] 3 =
          Except.ok vf ∧
      vf.length = 3 ∧ vf.get? 0 = some 0 ∧ vf.sum = 1) ∧
    DistributionsFluidMix.GetSample (-999) demoFractions [-999, 1 / 4, -999] [0, 0] 3 =
      Except.ok [0, 1 / 4, 3 / 4] := by
  have hgen : DistributionsFluidMix.generateU (-999 : ℚ) (fun _ => 1 / 4) demoFractions 0 =
      [-999, 1 / 4, -999] := rfl
  have hlen : 3 ≤ (DistributionsFluidMix.generateU (-999 : ℚ) (fun _ => 1 / 4)
      demoFractions 0).length := by
    rw [generateU_length]; decide
  obtain ⟨vf, h1, h2, -, -, h4⟩ := getSample_fractions (-999 : ℚ) demoFractions
    (DistributionsFluidMix.generateU (-999) (fun _ => 1 / 4) demoFractions 0) 0 0 [] 3 hlen
    (fun i ui _ h hne => generateU_ready (-999) (fun _ => 1 / 4) demoFractions 0 i ui h hne)
  have hlast := h4 2 (by decide) (by rw [hgen]; rfl)
    (fun j hj1 hj2 => absurd hj2 (by omega))
  refine ⟨hgen, ⟨vf, h1, h2, hlast.2.2 0 (by decide) (by decide) (by rw [hgen]; rfl),
    hlast.2.1⟩, ?_⟩
  norm_num [DistributionsFluidMix.GetSample, DistributionsFluidMix.fractionLoop, demoFractions,
    List.replicate]

/-! ## Simulation box: the status -/

theorem divide_ok {K : Type} [LinearOrderedField K] (a b : K) (h : b ≠ 0) : divide a b = Except.ok (a / b) := by
  unfold divide; rw [if_neg h]

theorem cellCount_ok {K : Type} [LinearOrderedField K] [FloorRing K] (l d : K) (h : d ≠ 0) :
    cellCount l d = Except.ok (truncToInt (1 / 2 + l / d)) := by
  unfold cellCount; rw [divide_ok l d h]

theorem floorDiv_ok {K : Type} [LinearOrderedField K] [FloorRing K] (a b : K) (h : b ≠ 0) : floorDiv a b = Except.ok ⌊a / b⌋ := by
  unfold floorDiv; rw [divide_ok a b h]

theorem setArea_ok {K : Type} [LinearOrderedField K] [FloorRing K] (L : BoxLib K) (s : Simbox K) (x0 y0 lx ly rot dx dy : K)
    (hdx : dx ≠ 0) (hdy : dy ≠ 0) :
    ∃ a, s.setArea L x0 y0 lx ly rot dx dy = Except.ok a ∧
      a.status = (if s.status = SimboxStatus.EMPTY then SimboxStatus.NODEPTH
        else if s.status = SimboxStatus.NOAREA then SimboxStatus.BOXOK else s.status) ∧
      a.nx = truncToInt (1 / 2 + lx / dx) ∧ a.ny = truncToInt (1 / 2 + ly / dy) ∧
      a.lx = lx ∧ a.ly = ly ∧ a.dx = dx ∧ a.dy = dy ∧ a.xMin = x0 ∧ a.yMin = y0 ∧
      a.cosrot = L.cos rot ∧ a.sinrot = L.sin rot ∧
      a.top = s.top ∧ a.bot = s.bot ∧ a.nz = s.nz := by
  unfold Simbox.setArea
  rw [cellCount_ok lx dx hdx, cellCount_ok ly dy hdy]
  exact ⟨_, rfl, rfl, rfl, rfl, rfl, rfl, rfl, rfl, rfl, rfl, rfl, rfl, rfl, rfl, rfl⟩

theorem setDepth_ok {K : Type} [LinearOrderedField K] [FloorRing K] (L : BoxLib K) (s : Simbox K) (zref : Surface K) (zShift lz dz : K)
    (hdz : dz ≠ 0) :
    ∃ b, s.setDepth L zref zShift lz dz = Except.ok b ∧
      b.status = (if s.status = SimboxStatus.EMPTY then SimboxStatus.NOAREA
        else if s.status = SimboxStatus.NODEPTH then SimboxStatus.BOXOK else s.status) ∧
      b.nz = truncToInt (1 / 2 + lz / dz) ∧
      b.top = L.add zShift zref ∧ b.bot = L.add lz (L.add zShift zref) ∧
      b.nx = s.nx ∧ b.ny = s.ny ∧ b.lx = s.lx ∧ b.ly = s.ly ∧ b.dx = s.dx ∧ b.dy = s.dy ∧
      b.xMin = s.xMin ∧ b.yMin = s.yMin ∧ b.cosrot = s.cosrot ∧ b.sinrot = s.sinrot := by
  unfold Simbox.setDepth
  rw [cellCount_ok lz dz hdz]
  exact ⟨_, rfl, rfl, rfl, rfl, rfl, rfl, rfl, rfl, rfl, rfl, rfl, rfl, rfl, rfl, rfl⟩

theorem checkError_status {K : Type} [LinearOrderedField K] (s s1 : Simbox K) (lzLimit : K) (r : SimboxStatus)
    (h : s.checkError lzLimit = Except.ok (r, s1)) :
    s1.status ≠ SimboxStatus.EMPTY ∧ s1.status ≠ SimboxStatus.NODEPTH ∧ r = (match s.status with
      | SimboxStatus.NODEPTH => SimboxStatus.EXTERNALERROR
      | SimboxStatus.EMPTY => SimboxStatus.EXTERNALERROR
      | SimboxStatus.EXTERNALERROR => SimboxStatus.EXTERNALERROR
      | SimboxStatus.INTERNALERROR => SimboxStatus.EXTERNALERROR
      | SimboxStatus.NOAREA => SimboxStatus.BOXOK
      | SimboxStatus.BOXOK => s1.status) := by
  unfold Simbox.checkError at h
  cases hst : s.status <;> simp only [hst, reduceCtorEq, or_self, or_false, false_or, or_true,
    true_or, if_true, if_false] at h
  · -- BOXOK
    split at h
    · split at h
      · simp only [Except.ok.injEq, Prod.mk.injEq] at h
        rw [← h.2, ← h.1]; simp
      · split at h
        · exact absurd h (by simp)
        · split at h
          · simp only [Except.ok.injEq, Prod.mk.injEq] at h
            rw [← h.2, ← h.1]; simp
          · split at h
            · exact absurd h (by simp)
            · simp only [Except.ok.injEq, Prod.mk.injEq] at h
              rw [← h.2, ← h.1]; simp [hst]
    · simp only [Except.ok.injEq, Prod.mk.injEq] at h
      rw [← h.2, ← h.1]; simp [hst]
  · simp only [Except.ok.injEq, Prod.mk.injEq] at h
    rw [← h.2, ← h.1]; simp [hst]
  · simp only [Except.ok.injEq, Prod.mk.injEq] at h
    rw [← h.2, ← h.1]; simp [hst]
  · simp only [Except.ok.injEq, Prod.mk.injEq] at h
    rw [← h.2, ← h.1]; simp
  · simp only [Except.ok.injEq, Prod.mk.injEq] at h
    rw [← h.2, ← h.1]; simp [hst]
  · simp only [Except.ok.injEq, Prod.mk.injEq] at h
    rw [← h.2, ← h.1]; simp

theorem checkError_returns {K : Type} [LinearOrderedField K] (s : Simbox K) (lzLimit : K)
    (hlz : s.lz ≠ 0) (hnz : (s.nz : K) ≠ 0) :
    ∃ r s1, s.checkError lzLimit = Except.ok (r, s1) := by
  unfold Simbox.checkError
  cases hst : s.status <;> simp only [hst, reduceCtorEq, or_self, or_false, false_or, or_true,
    true_or, if_true, if_false]
  · rw [divide_ok _ _ hlz, divide_ok _ _ hnz]
    dsimp only
    split
    · split
      · exact ⟨_, _, rfl⟩
      · split <;> exact ⟨_, _, rfl⟩
    · exact ⟨_, _, rfl⟩
  all_goals exact ⟨_, _, rfl⟩

/-- C28: the status of a simulation box. From the box of `Simbox::Simbox(void)`,
`setArea` alone gives `NODEPTH`, either `setDepth` alone gives `NOAREA`, and
`setArea` and a `setDepth` once each, in either order, give `BOXOK`; `setArea`
and `setDepth` leave a status `BOXOK`, `EXTERNALERROR` or `INTERNALERROR` as it
is; and whenever `checkError` returns the status is neither `EMPTY` nor
`NODEPTH`. The calls return when the cell sizes `dx`, `dy`, `dz` they divide by
are not zero (for `checkError`: the thickness and `nz`). -/
theorem simbox_status_machine {K : Type} [LinearOrderedField K] [FloorRing K] (L : BoxLib K)
    (raw s : Simbox K) (x0 y0 lx ly rot dx dy : K) (zref z0 z1 : Surface K)
    (zShift lz dz lzLimit : K) (nz : Int) (hdx : dx ≠ 0) (hdy : dy ≠ 0) (hdz : dz ≠ 0) :
    (Simbox.empty raw).status = SimboxStatus.EMPTY ∧
    (∃ a, (Simbox.empty raw).setArea L x0 y0 lx ly rot dx dy = Except.ok a ∧
      a.status = SimboxStatus.NODEPTH ∧
      (∃ b, a.setDepth L zref zShift lz dz = Except.ok b ∧ b.status = SimboxStatus.BOXOK) ∧
      (a.setDepthSurfaces L z0 z1 nz).status = SimboxStatus.BOXOK) ∧
    (∃ d, (Simbox.empty raw).setDepth L zref zShift lz dz = Except.ok d ∧
      d.status = SimboxStatus.NOAREA ∧
      ∃ b, d.setArea L x0 y0 lx ly rot dx dy = Except.ok b ∧ b.status = SimboxStatus.BOXOK) ∧
    (((Simbox.empty raw).setDepthSurfaces L z0 z1 nz).status = SimboxStatus.NOAREA ∧
      ∃ b, ((Simbox.empty raw).setDepthSurfaces L z0 z1 nz).setArea L x0 y0 lx ly rot dx dy =
          Except.ok b ∧ b.status = SimboxStatus.BOXOK) ∧
    (s.status = SimboxStatus.BOXOK ∨ s.status = SimboxStatus.EXTERNALERROR ∨
        s.status = SimboxStatus.INTERNALERROR →
      (∃ a, s.setArea L x0 y0 lx ly rot dx dy = Except.ok a ∧ a.status = s.status) ∧
      (∃ b, s.setDepth L zref zShift lz dz = Except.ok b ∧ b.status = s.status) ∧
      (s.setDepthSurfaces L z0 z1 nz).status = s.status) ∧
    (∀ r s1, s.checkError lzLimit = Except.ok (r, s1) →
      s1.status ≠ SimboxStatus.EMPTY ∧ s1.status ≠ SimboxStatus.NODEPTH) ∧
    (s.lz ≠ 0 → (s.nz : K) ≠ 0 → ∃ r s1, s.checkError lzLimit = Except.ok (r, s1)) := by
  refine ⟨rfl, ?_, ?_, ?_, ?_, ?_, checkError_returns s lzLimit⟩
  · obtain ⟨a, ha, hs, -⟩ := setArea_ok L (Simbox.empty raw) x0 y0 lx ly rot dx dy hdx hdy
    have hs1 : a.status = SimboxStatus.NODEPTH := by rw [hs]; rfl
    obtain ⟨b, hb, hbs, -⟩ := setDepth_ok L a zref zShift lz dz hdz
    refine ⟨a, ha, hs1, ⟨b, hb, by rw [hbs, hs1]; rfl⟩, ?_⟩
    show (if a.status = SimboxStatus.EMPTY then SimboxStatus.NOAREA
      else if a.status = SimboxStatus.NODEPTH then SimboxStatus.BOXOK else a.status) = _
    rw [hs1]; rfl
  · obtain ⟨d, hd, hs, -⟩ := setDepth_ok L (Simbox.empty raw) zref zShift lz dz hdz
    have hs1 : d.status = SimboxStatus.NOAREA := by rw [hs]; rfl
    obtain ⟨b, hb, hbs, -⟩ := setArea_ok L d x0 y0 lx ly rot dx dy hdx hdy
    exact ⟨d, hd, hs1, b, hb, by rw [hbs, hs1]; rfl⟩
  · obtain ⟨b, hb, hbs, -⟩ := setArea_ok L ((Simbox.empty raw).setDepthSurfaces L z0 z1 nz)
      x0 y0 lx ly rot dx dy hdx hdy
    exact ⟨rfl, b, hb, by rw [hbs]; rfl⟩
  · intro hst
    obtain ⟨a, ha, has, -⟩ := setArea_ok L s x0 y0 lx ly rot dx dy hdx hdy
    obtain ⟨b, hb, hbs, -⟩ := setDepth_ok L s zref zShift lz dz hdz
    refine ⟨⟨a, ha, ?_⟩, ⟨b, hb, ?_⟩, ?_⟩
    · rw [has]; rcases hst with h | h | h <;> rw [h] <;> rfl
    · rw [hbs]; rcases hst with h | h | h <;> rw [h] <;> rfl
    · show (if s.status = SimboxStatus.EMPTY then SimboxStatus.NOAREA
        else if s.status = SimboxStatus.NODEPTH then SimboxStatus.BOXOK else s.status) = _
      rcases hst with h | h | h <;> rw [h] <;> rfl
  · intro r s1 h
    obtain ⟨h1, h2, -⟩ := checkError_status s s1 lzLimit r h
    exact ⟨h1, h2⟩

/-- From `emptyBox`: an area 12/5 by 1 with cells 1 by 1 gives `NODEPTH`, then a
depth of one layer gives `BOXOK`. -/
theorem simbox_status_machine_witness :
    emptyBox.status = SimboxStatus.EMPTY ∧
    ∃ a b, emptyBox.setArea demoLib 0 0 (12 / 5) 1 0 1 1 = Except.ok a ∧
      a.status = SimboxStatus.NODEPTH ∧
      a.setDepth demoLib (flatSurface 0) 0 1 1 = Except.ok b ∧
      b.status = SimboxStatus.BOXOK := by
  obtain ⟨h0, ⟨a, ha, hs, ⟨b, hb, hbs⟩, -⟩, -⟩ :=
    simbox_status_machine demoLib emptyBox emptyBox 0 0 (12 / 5) 1 0 1 1 (flatSurface 0)
      (flatSurface 0) (flatSurface 1) 0 1 1 (1 / 2) 1 (by norm_num) (by norm_num) (by norm_num)
  exact ⟨rfl, a, b, ha, hs, hb, hbs⟩

/-! ## Simulation box: the depth range -/

/-- C30, at a failing input: for the box between the flat surfaces at depth 0 and
depth 10, `getMinMaxZ` hands back `maxZ = 0`, the minimum of the top surface,
where the maximum of the bottom surface is 10; the depth 5 lies between the two
surfaces and is greater than `maxZ`. -/
theorem getMinMaxZ_max_is_top_min :
    slabBox.top.min = 0 ∧ slabBox.bot.max = 10 ∧
    slabBox.top.getZ 0 0 = some 0 ∧ slabBox.bot.getZ 0 0 = some 10 ∧
    slabBox.getMinMaxZ = (0, 0) ∧ slabBox.getMinMaxZ.2 ≠ slabBox.bot.max ∧
    (0 : ℚ) ≤ 5 ∧ (5 : ℚ) ≤ 10 ∧ ¬ ((5 : ℚ) ≤ slabBox.getMinMaxZ.2) := by
  refine ⟨rfl, rfl, rfl, rfl, rfl, ?_, by norm_num, by norm_num, ?_⟩
  · show (0 : ℚ) ≠ 10
    norm_num
  · show ¬ ((5 : ℚ) ≤ 0)
    norm_num

theorem getMinMaxZ_eq {K : Type} [LinearOrderedField K] [FloorRing K] (s : Simbox K) :
    s.getMinMaxZ = (s.top.min, s.top.min) := rfl

/-! ## Simulation box: the closest cell -/

theorem cell_index_range (nx ny nz i j k : Int) (hi : 0 ≤ i) (hi2 : i < nx) (hj : 0 ≤ j)
    (hj2 : j < ny) (hk : 0 ≤ k) (hk2 : k < nz) :
    0 ≤ i + j * nx + k * nx * ny ∧ i + j * nx + k * nx * ny < nx * ny * nz := by
  have hnx : 0 ≤ nx := by omega
  have hny : 0 ≤ ny := by omega
  have a1 : 0 ≤ j * nx := mul_nonneg hj hnx
  have a2 : 0 ≤ k * nx * ny := mul_nonneg (mul_nonneg hk hnx) hny
  have b1 : j * nx ≤ (ny - 1) * nx := mul_le_mul_of_nonneg_right (by omega) hnx
  have b2 : k * (nx * ny) ≤ (nz - 1) * (nx * ny) :=
    mul_le_mul_of_nonneg_right (by omega) (mul_nonneg hnx hny)
  have e1 : k * nx * ny = k * (nx * ny) := by ring
  have e2 : nx * ny * nz = (nz - 1) * (nx * ny) + (ny - 1) * nx + nx := by ring
  rw [e1, e2]
  constructor
  · have := mul_nonneg hk (mul_nonneg hnx hny); omega
  · omega

theorem floor_add_half {K : Type} [LinearOrderedField K] [FloorRing K] (i : Int) :
    ⌊(i : K) + 1 / 2⌋ = i := by
  rw [Int.floor_eq_iff]
  constructor
  · linarith [show (0 : K) < 1 / 2 by norm_num]
  · linarith [show (1 / 2 : K) < 1 by norm_num]

/-- C27: `getCoord` and `getIndexes` are inverse on cell centres. For a box with
`cosrot^2 + sinrot^2 = 1`, `dx, dy > 0`, `lx = nx*dx`, `ly = ny*dy` and a cell
`(i,j,k)` with `0 <= i < nx`, `0 <= j < ny`, `0 <= k < nz`, where `(x,y)` is the
horizontal position `getCoord` computes and both surfaces are defined there with
`zTop < zBot`: `getCoord(i,j,k)` returns `(x,y,z)` for some depth `z`, and
`getIndexes(x,y,z)` yields exactly `(i,j,k)`. -/
theorem getCoord_getIndexes_inverse {K : Type} [LinearOrderedField K] [FloorRing K]
    (IMISSING : Int) (RMISSING : K) (s : Simbox K) (i j k : Int) (x y zTop zBot : K)
    (hrot : s.cosrot ^ 2 + s.sinrot ^ 2 = 1) (hdx : 0 < s.dx) (hdy : 0 < s.dy)
    (hlx : s.lx = (s.nx : K) * s.dx) (hly : s.ly = (s.ny : K) * s.dy)
    (hi : 0 ≤ i) (hi2 : i < s.nx) (hj : 0 ≤ j) (hj2 : j < s.ny) (hk : 0 ≤ k) (hk2 : k < s.nz)
    (hx : x = ((i : K) + 1 / 2) * s.dx * s.cosrot - ((j : K) + 1 / 2) * s.dy * s.sinrot + s.xMin)
    (hy : y = ((i : K) + 1 / 2) * s.dx * s.sinrot + ((j : K) + 1 / 2) * s.dy * s.cosrot + s.yMin)
    (htop : s.top.getZ x y = some zTop) (hbot : s.bot.getZ x y = some zBot)
    (hz : zTop < zBot) :
    ∃ z, s.getCoord RMISSING i j k = Except.ok (x, y, z) ∧
      z = zTop + ((k : K) + 1 / 2) * ((zBot - zTop) / (s.nz : K)) ∧
      s.getIndexes IMISSING x y z = Except.ok (i, j, k) := by
  have hiK : (0 : K) ≤ (i : K) := by exact_mod_cast hi
  have hjK : (0 : K) ≤ (j : K) := by exact_mod_cast hj
  have hkK : (0 : K) ≤ (k : K) := by exact_mod_cast hk
  have hi2K : (i : K) + 1 ≤ (s.nx : K) := by exact_mod_cast hi2
  have hj2K : (j : K) + 1 ≤ (s.ny : K) := by exact_mod_cast hj2
  have hk2K : (k : K) + 1 ≤ (s.nz : K) := by exact_mod_cast hk2
  have hnzpos : (0 : K) < (s.nz : K) := by linarith
  have hnz : (s.nz : K) ≠ 0 := ne_of_gt hnzpos
  have hth : (0 : K) < zBot - zTop := by linarith
  have hrx : s.rx x y = ((i : K) + 1 / 2) * s.dx := by
    unfold Simbox.rx
    rw [hx, hy]
    have e : (((i : K) + 1 / 2) * s.dx * s.cosrot - ((j : K) + 1 / 2) * s.dy * s.sinrot +
        s.xMin - s.xMin) * s.cosrot +
        (((i : K) + 1 / 2) * s.dx * s.sinrot + ((j : K) + 1 / 2) * s.dy * s.cosrot +
        s.yMin - s.yMin) * s.sinrot =
        ((i : K) + 1 / 2) * s.dx * (s.cosrot ^ 2 + s.sinrot ^ 2) := by ring
    rw [e, hrot, mul_one]
  have hry : s.ry x y = ((j : K) + 1 / 2) * s.dy := by
    unfold Simbox.ry
    rw [hx, hy]
    have e : -(((i : K) + 1 / 2) * s.dx * s.cosrot - ((j : K) + 1 / 2) * s.dy * s.sinrot +
        s.xMin - s.xMin) * s.sinrot +
        (((i : K) + 1 / 2) * s.dx * s.sinrot + ((j : K) + 1 / 2) * s.dy * s.cosrot +
        s.yMin - s.yMin) * s.cosrot =
        ((j : K) + 1 / 2) * s.dy * (s.cosrot ^ 2 + s.sinrot ^ 2) := by ring
    rw [e, hrot, mul_one]
  refine ⟨zTop + ((k : K) + 1 / 2) * ((zBot - zTop) / (s.nz : K)), ?_, rfl, ?_⟩
  · unfold Simbox.getCoord
    dsimp only
    rw [← hx, ← hy, htop]
    dsimp only
    rw [hbot]
    dsimp only
    rw [divide_ok _ _ hnz]
  · have hfrac : ((k : K) + 1 / 2) * ((zBot - zTop) / (s.nz : K)) =
        ((k : K) + 1 / 2) / (s.nz : K) * (zBot - zTop) := by
      field_simp
    have hq0 : 0 < ((k : K) + 1 / 2) / (s.nz : K) := div_pos (by linarith) hnzpos
    have hq1 : ((k : K) + 1 / 2) / (s.nz : K) < 1 := by
      rw [div_lt_one hnzpos]; linarith
    have hzlo : zTop + ((k : K) + 1 / 2) * ((zBot - zTop) / (s.nz : K)) > zTop := by
      rw [hfrac]
      have := mul_pos hq0 hth
      linarith
    have hzhi : zTop + ((k : K) + 1 / 2) * ((zBot - zTop) / (s.nz : K)) < zBot := by
      rw [hfrac]
      have : ((k : K) + 1 / 2) / (s.nz : K) * (zBot - zTop) < 1 * (zBot - zTop) :=
        mul_lt_mul_of_pos_right hq1 hth
      linarith
    have hcond : s.rx x y > 0 ∧ s.rx x y < s.lx ∧ s.ry x y > 0 ∧ s.ry x y < s.ly := by
      rw [hrx, hry, hlx, hly]
      refine ⟨mul_pos (by linarith) hdx, mul_lt_mul_of_pos_right (by linarith) hdx,
        mul_pos (by linarith) hdy, mul_lt_mul_of_pos_right (by linarith) hdy⟩
    have hfx : ⌊s.rx x y / s.dx⌋ = i := by
      rw [hrx, mul_div_assoc, div_self (ne_of_gt hdx), mul_one]
      exact floor_add_half i
    have hfy : ⌊s.ry x y / s.dy⌋ = j := by
      rw [hry, mul_div_assoc, div_self (ne_of_gt hdy), mul_one]
      exact floor_add_half j
    have hfz : ⌊(s.nz : K) * (zTop + ((k : K) + 1 / 2) * ((zBot - zTop) / (s.nz : K)) - zTop) /
        (zBot - zTop)⌋ = k := by
      have e : (s.nz : K) * (zTop + ((k : K) + 1 / 2) * ((zBot - zTop) / (s.nz : K)) - zTop) /
          (zBot - zTop) = (k : K) + 1 / 2 := by
        field_simp
        ring
      rw [e]
      exact floor_add_half k
    unfold Simbox.getIndexes
    rw [if_pos hcond, htop]
    dsimp only
    rw [hbot]
    dsimp only
    rw [if_pos ⟨hzlo, hzhi⟩, floorDiv_ok _ _ (ne_of_gt hdx), floorDiv_ok _ _ (ne_of_gt hdy),
      floorDiv_ok _ _ (ne_of_gt hth), hfx, hfy, hfz]

/-- On `layerBox`: the centre of cell `(1,0,2)` is `(3/2, 1/2, 5/2)`, and
`getIndexes` maps it back to `(1,0,2)`. -/
theorem getCoord_getIndexes_inverse_witness :
    ∃ z, layerBox.getCoord (-999) 1 0 2 = Except.ok (3 / 2, 1 / 2, z) ∧
      z = 0 + (((2 : Int) : ℚ) + 1 / 2) * ((4 - 0) / (layerBox.nz : ℚ)) ∧
      layerBox.getIndexes (-99999) (3 / 2) (1 / 2) z = Except.ok (1, 0, 2) :=
  getCoord_getIndexes_inverse (-99999) (-999) layerBox 1 0 2 (3 / 2) (1 / 2) 0 4
    (by norm_num [layerBox, emptyBox, Simbox.empty])
    (by norm_num [layerBox, emptyBox, Simbox.empty])
    (by norm_num [layerBox, emptyBox, Simbox.empty])
    (by norm_num [layerBox, emptyBox, Simbox.empty])
    (by norm_num [layerBox, emptyBox, Simbox.empty])
    (by decide) (by decide) (by decide) (by decide) (by decide) (by decide)
    (by norm_num [layerBox, emptyBox, Simbox.empty])
    (by norm_num [layerBox, emptyBox, Simbox.empty])
    rfl rfl (by norm_num)

/-! ## Simulation box: the cell of a point -/

/-- C25, at a failing input: `setArea` with `lx = 12/5`, `dx = 1` (and `ly = 1`,
`dy = 1`, no rotation) gives `nx = int(0.5 + 2.4) = 2` and `ny = 1`, and
`setDepth` with one layer between depth 0 and 1 gives `nz = 1`. The point
`(11/5, 1/2, 1/2)` passes the test `0 < rx < lx` of `getIndexes`, which yields
`(2, 0, 0)`: `getIndex` returns 2, which is not `IMISSING`, although the first
component is `nx` and the index is `nx*ny*nz`, one past the last cell. -/
theorem getIndex_beyond_last_cell :
    ∃ a b, emptyBox.setArea demoLib 0 0 (12 / 5) 1 0 1 1 = Except.ok a ∧
      a.setDepth demoLib (flatSurface 0) 0 1 1 = Except.ok b ∧
      b.nx = 2 ∧ b.ny = 1 ∧ b.nz = 1 ∧ b.status = SimboxStatus.BOXOK ∧
      b.getIndexes (-99999) (11 / 5) (1 / 2) (1 / 2) = Except.ok (2, 0, 0) ∧
      b.getIndex (-99999) (11 / 5) (1 / 2) (1 / 2) = Except.ok 2 ∧
      ¬ ((2 : Int) < b.nx) ∧ ¬ ((2 : Int) < b.nx * b.ny * b.nz) := by
  obtain ⟨a, ha, a1, a2, a3, a4, a5, a6, a7, a8, a9, a10, a11, -⟩ :=
    setArea_ok demoLib emptyBox 0 0 (12 / 5) 1 0 1 1 (by norm_num) (by norm_num)
  obtain ⟨b, hb, b1, b2, b3, b4, b5, b6, b7, b8, b9, b10, b11, b12, b13, b14⟩ :=
    setDepth_ok demoLib a (flatSurface 0) 0 1 1 (by norm_num)
  have hnx : b.nx = 2 := by
    rw [b5, a2]; norm_num [truncToInt, Int.floor_eq_iff]
  have hny : b.ny = 1 := by
    rw [b6, a3]; norm_num [truncToInt, Int.floor_eq_iff]
  have hnz : b.nz = 1 := by
    rw [b2]; norm_num [truncToInt, Int.floor_eq_iff]
  have hst : b.status = SimboxStatus.BOXOK := by
    rw [b1, a1]; rfl
  have hidx : b.getIndexes (-99999) (11 / 5) (1 / 2) (1 / 2) = Except.ok (2, 0, 0) := by
    unfold Simbox.getIndexes Simbox.rx Simbox.ry
    rw [b11, b12, b13, b14, b7, b8, b9, b10, b3, b4, hnz, a4, a5, a6, a7, a8, a9, a10, a11]
    norm_num [demoLib, flatSurface, floorDiv, divide, Int.floor_eq_iff]
  refine ⟨a, b, ha, hb, hnx, hny, hnz, hst, hidx, ?_, by rw [hnx]; decide,
    by rw [hnx, hny, hnz]; decide⟩
  unfold Simbox.getIndex
  rw [hidx, hnx, hny]
  decide

theorem getIndexes_in_range {K : Type} [LinearOrderedField K] [FloorRing K]
    (IMISSING : Int) (s : Simbox K) (x y z : K) (hdx : 0 < s.dx) (hdy : 0 < s.dy)
    (hnz : 1 ≤ s.nz) (hlx : s.lx ≤ (s.nx : K) * s.dx) (hly : s.ly ≤ (s.ny : K) * s.dy) :
    ∃ i j k, s.getIndexes IMISSING x y z = Except.ok (i, j, k) ∧
      ((i = IMISSING ∧ j = IMISSING ∧ k = IMISSING) ∨
        (0 ≤ i ∧ i < s.nx ∧ 0 ≤ j ∧ j < s.ny ∧ 0 ≤ k ∧ k < s.nz)) := by
  unfold Simbox.getIndexes
  by_cases hc : s.rx x y > 0 ∧ s.rx x y < s.lx ∧ s.ry x y > 0 ∧ s.ry x y < s.ly
  · rw [if_pos hc]
    cases ht : s.top.getZ x y with
    | none => exact ⟨_, _, _, rfl, Or.inl ⟨rfl, rfl, rfl⟩⟩
    | some zTop =>
      cases hb : s.bot.getZ x y with
      | none => exact ⟨_, _, _, rfl, Or.inl ⟨rfl, rfl, rfl⟩⟩
      | some zBot =>
        dsimp only
        by_cases hz : z > zTop ∧ z < zBot
        · have hth : 0 < zBot - zTop := by linarith [hz.1, hz.2]
          have hnzK : (1 : K) ≤ (s.nz : K) := by exact_mod_cast hnz
          rw [if_pos hz, floorDiv_ok _ _ (ne_of_gt hdx), floorDiv_ok _ _ (ne_of_gt hdy),
            floorDiv_ok _ _ (ne_of_gt hth)]
          refine ⟨_, _, _, rfl, Or.inr ⟨?_, ?_, ?_, ?_, ?_, ?_⟩⟩
          · exact Int.floor_nonneg.mpr (le_of_lt (div_pos hc.1 hdx))
          · rw [Int.floor_lt, div_lt_iff₀ hdx]; linarith [hc.2.1]
          · exact Int.floor_nonneg.mpr (le_of_lt (div_pos hc.2.2.1 hdy))
          · rw [Int.floor_lt, div_lt_iff₀ hdy]; linarith [hc.2.2.2]
          · exact Int.floor_nonneg.mpr
              (le_of_lt (div_pos (mul_pos (by linarith) (by linarith [hz.1])) hth))
          · rw [Int.floor_lt, div_lt_iff₀ hth]
            exact mul_lt_mul_of_pos_left (by linarith [hz.2]) (by linarith)
        · rw [if_neg hz]
          exact ⟨_, _, _, rfl, Or.inl ⟨rfl, rfl, rfl⟩⟩
  · rw [if_neg hc]
    exact ⟨_, _, _, rfl, Or.inl ⟨rfl, rfl, rfl⟩⟩

theorem getIndex_valid_when_covered {K : Type} [LinearOrderedField K] [FloorRing K]
    (IMISSING : Int) (s : Simbox K) (x y z : K) (hIM : IMISSING < 0) (hdx : 0 < s.dx)
    (hdy : 0 < s.dy) (hnz : 1 ≤ s.nz) (hlx : s.lx ≤ (s.nx : K) * s.dx)
    (hly : s.ly ≤ (s.ny : K) * s.dy) (hfit : s.nx * s.ny * s.nz ≤ 2147483647) :
    ∃ r, s.getIndex IMISSING x y z = Except.ok r ∧
      (r = IMISSING ∨ ∃ i j k, s.getIndexes IMISSING x y z = Except.ok (i, j, k) ∧
        0 ≤ i ∧ i < s.nx ∧ 0 ≤ j ∧ j < s.ny ∧ 0 ≤ k ∧ k < s.nz ∧
        r = i + j * s.nx + k * s.nx * s.ny ∧ 0 ≤ r ∧ r < s.nx * s.ny * s.nz) := by
  obtain ⟨i, j, k, h, hr⟩ := getIndexes_in_range IMISSING s x y z hdx hdy hnz hlx hly
  unfold Simbox.getIndex
  rw [h]
  dsimp only
  rcases hr with ⟨e1, e2, e3⟩ | ⟨h1, h2, h3, h4, h5, h6⟩
  · rw [if_neg (by simp [e1])]
    exact ⟨_, rfl, Or.inl rfl⟩
  · rw [if_pos ⟨by omega, by omega, by omega⟩]
    obtain ⟨r0, r1⟩ := cell_index_range s.nx s.ny s.nz i j k h1 h2 h3 h4 h5 h6
    rw [wrap32_of_fits _ ⟨by omega, by omega⟩]
    exact ⟨_, rfl, Or.inr ⟨i, j, k, rfl, h1, h2, h3, h4, h5, h6, rfl, r0, r1⟩⟩

/-! ## Simulation box: vertical interpolation -/

/-- C26, at a failing input: on `layerBox` (four layers of thickness 1 between
depth 0 and depth 4) the depth 27/10 gives the layers 1 and 2 with weight
`t = 6/5`, greater than 1, and the depth 1/5 gives the layers 0 and 1 with
weight `t = -3/10`, less than 0. -/
theorem getZInterpolation_weight_outside_unit :
    layerBox.top.getZ (1 / 2) (1 / 2) = some 0 ∧ layerBox.bot.getZ (1 / 2) (1 / 2) = some 4 ∧
    layerBox.nz = 4 ∧
    (∃ r, layerBox.getZInterpolation (1 / 2) (1 / 2) (27 / 10) = Except.ok (some r) ∧
      r.zInd1 = 1 ∧ r.zInd2 = 2 ∧ r.t = 6 / 5 ∧ ¬ (r.t ≤ 1)) ∧
    (∃ r, layerBox.getZInterpolation (1 / 2) (1 / 2) (1 / 5) = Except.ok (some r) ∧
      r.zInd1 = 0 ∧ r.zInd2 = 1 ∧ r.t = -3 / 10 ∧ ¬ (0 ≤ r.t)) := by
  refine ⟨rfl, rfl, rfl, ?_, ?_⟩
  · refine ⟨{ index1 := 4, index2 := 8, t := 6 / 5, zInd1 := 1, zInd2 := 2 }, ?_, rfl, rfl,
      rfl, by norm_num⟩
    norm_num [Simbox.getZInterpolation, floorDiv, divide, truncToInt, Simbox.rx, Simbox.ry,
      layerBox, emptyBox, Simbox.empty, flatSurface, Int.floor_eq_iff, Int.ceil_eq_iff,
      wrap32]
  · have hc : ⌈-(1 / 2 : ℚ)⌉ = 0 := by
      rw [Int.ceil_eq_iff]; norm_num
    refine ⟨{ index1 := 0, index2 := 4, t := -3 / 10, zInd1 := 0, zInd2 := 1 }, ?_, rfl, rfl,
      rfl, by norm_num⟩
    norm_num [Simbox.getZInterpolation, floorDiv, divide, truncToInt, Simbox.rx, Simbox.ry,
      layerBox, emptyBox, Simbox.empty, flatSurface, Int.floor_eq_iff, hc, wrap32]

theorem getZInterpolation_layers {K : Type} [LinearOrderedField K] [FloorRing K]
    (s : Simbox K) (x y z : K) (r : ZInterpolation K) (hnz : 1 ≤ s.nz)
    (h : s.getZInterpolation x y z = Except.ok (some r)) :
    0 ≤ r.zInd1 ∧ r.zInd1 ≤ s.nz - 1 ∧ 0 ≤ r.zInd2 ∧ r.zInd2 ≤ s.nz - 1 ∧
      (r.zInd2 = r.zInd1 ∨ r.zInd2 = r.zInd1 + 1) ∧
      (r.zInd2 = r.zInd1 → r.t = 0) := by
  unfold Simbox.getZInterpolation at h
  split at h
  · split at h
    · exact absurd h (by simp)
    · split at h
      · exact absurd h (by simp)
      · split at h
        · exact absurd h (by simp)
        · split at h
          · exact absurd h (by simp)
          · dsimp only at h
            split at h
            · rename_i hc
              simp only [Except.ok.injEq, Option.some.injEq] at h
              rw [← h]
              dsimp only
              refine ⟨hc.1, by omega, by omega, by omega, Or.inr rfl, fun e => ?_⟩
              omega
            · simp only [Except.ok.injEq, Option.some.injEq] at h
              rw [← h]
              dsimp only
              split <;> exact ⟨by omega, by omega, by omega, by omega, Or.inl rfl, fun _ => rfl⟩
  · exact absurd h (by simp)

/-! ## Sessions that `endAccess` and the destructor do not survive -/

/-- C9, at failing inputs.  A freshly constructed grid has a null input name, and
`setAccessMode(READ)` and `setAccessMode(READANDWRITE)` pass it to `fopen`
without the test `load` makes, so the read stream is null: the `endAccess` that
follows calls `fclose` on it and does not return, and the access mode never gets
back to `NONE`.  Likewise the `endAccess` of a first write session under a name
of 49 characters overruns the block of 50 bytes. -/
theorem endAccess_does_not_return :
    freshGrid.accMode = AccMode.NONE ∧ freshGrid.fNameIn = none ∧
    (∃ s1 fs1, freshGrid.setAccessMode (fun _ => 0) AccMode.READ [] = Except.ok (s1, fs1) ∧
      s1.accMode = AccMode.READ ∧ s1.inFile = none ∧
      s1.endAccess fs1 = Except.error Fault.undefined) ∧
    (∃ s1 fs1, freshGrid.setAccessMode (fun _ => 0) AccMode.READANDWRITE [] =
        Except.ok (s1, fs1) ∧
      s1.accMode = AccMode.READANDWRITE ∧ s1.inFile = none ∧
      s1.endAccess fs1 = Except.error Fault.undefined) ∧
    (∃ s1 fs1, longNameGrid.setAccessMode (fun _ => 0) AccMode.WRITE [] = Except.ok (s1, fs1) ∧
      s1.accMode = AccMode.WRITE ∧ s1.fNameOut.length = 49 ∧
      s1.endAccess fs1 = Except.error Fault.undefined) := by
  refine ⟨by decide, by decide, ⟨{ freshGrid with accMode := AccMode.READ }, [], ?_⟩,
    ⟨{ freshGrid with outFile := some "tmpgrid0", accMode := AccMode.READANDWRITE },
      [("tmpgrid0", [])], ?_⟩,
    ⟨longWritingGrid, [("/home/crava/projects/north/run1/output/tmpgrid123", [])], ?_⟩⟩ <;>
    decide

/-- C16, at failing inputs.  On a freshly constructed grid
`setAccessMode(READANDWRITE)` creates the output file `tmpgrid0` and leaves the
read stream null; the destructor starts with `endAccess`, which calls `fclose`
on the null stream, so the destructor does not get to its `remove` calls and the
file `tmpgrid0` stays.  Likewise the destructor of a grid in its first write
session under a name of 49 characters: `endAccess` overruns the block of 50
bytes and the file being written stays. -/
theorem destructor_leaves_file_behind :
    (∃ s1 fs1, freshGrid.setAccessMode (fun _ => 0) AccMode.READANDWRITE [] =
        Except.ok (s1, fs1) ∧
      s1.fNameOut = "tmpgrid0" ∧ fsRead fs1 "tmpgrid0" = some [] ∧
      s1.destroy fs1 = Except.error Fault.undefined) ∧
    (∃ s1 fs1, longNameGrid.setAccessMode (fun _ => 0) AccMode.WRITE [] = Except.ok (s1, fs1) ∧
      fsRead fs1 s1.fNameOut = some [] ∧
      s1.destroy fs1 = Except.error Fault.undefined) := by
  refine ⟨⟨{ freshGrid with outFile := some "tmpgrid0", accMode := AccMode.READANDWRITE },
      [("tmpgrid0", [])], ?_⟩,
    ⟨longWritingGrid, [("/home/crava/projects/north/run1/output/tmpgrid123", [])], ?_⟩⟩ <;>
    decide

end Crava
